import Mathlib

/-!
# gazebo_ros API plugin: timed-effect job scheduler

A shallow embedding of `gazebo_ros_api_plugin.cpp` (the force / wrench job
registries, the per-step scheduler passes, the cancel-by-name commands, the
command facade and the throttled clock publisher), followed by theorems about
it.

Conventions of the embedding

* `double`, `ros::Time`, `ros::Duration` and `gazebo::common::Time` values are
  exact rationals (seconds); rounding and range errors of the number types
  are outside the model.
* A `JointPtr` / `LinkPtr` / `EntityPtr` is an `Option`: `none` is the null
  pointer.
* Every method of the plugin is a function on the plugin state.  The state
  carries a log `calls` of the calls the plugin makes on its collaborators
  (the mutex `lock_`, the physics engine, the clock publisher), oldest first.
* `world_->SimTime()` is an oracle `SimTime : Nat → Time`: `SimTime k` is the
  value returned by the `k`-th read (counted from 0) made during one method
  call.  A method run "at simulation time `now`" is run with the constant
  oracle `fun _ => now`.
-/

namespace GazeboRos

/-! ## Data model -/

/-- Modelled from the spec: `ros::Time` / `gazebo::common::Time`, declared
outside the repository; the spec describes it as a "simulation-seconds scalar"
whose "comparisons are exact". -/
abbrev Time := ℚ

/-- Modelled from the spec: `ros::Duration`, declared outside the repository;
simulation seconds, negative values allowed. -/
abbrev Duration := ℚ

/-- The type `ignition::math::Vector3d`. -/
structure Vector3d where
  X : ℚ
  Y : ℚ
  Z : ℚ
  deriving DecidableEq

/-- The sum `Vector3d::operator+`. -/
def Vector3d.add (a b : Vector3d) : Vector3d :=
  ⟨a.X + b.X, a.Y + b.Y, a.Z + b.Z⟩

instance : Add Vector3d := ⟨Vector3d.add⟩

/-- The product `Vector3d::Cross`: `a.Cross b` is the cross product with `a`
as the left operand. -/
def Vector3d.Cross (a b : Vector3d) : Vector3d :=
  ⟨a.Y * b.Z - a.Z * b.Y, a.Z * b.X - a.X * b.Z, a.X * b.Y - a.Y * b.X⟩

/-- The type `ignition::math::Quaterniond`. -/
structure Quaterniond where
  W : ℚ
  X : ℚ
  Y : ℚ
  Z : ℚ
  deriving DecidableEq

/-- The type `ignition::math::Pose3d`. -/
structure Pose3d where
  Pos : Vector3d
  Rot : Quaterniond
  deriving DecidableEq

/-- The operations of ignition-math that the plugin calls and whose code is
not part of the repository: rotation of a vector by a quaternion and the
difference of two poses. -/
structure IgnitionMath where
  RotateVector : Quaterniond → Vector3d → Vector3d
  PoseSub : Pose3d → Pose3d → Pose3d

/-- A `gazebo::physics::Entity` as the plugin sees it.  `isLink` tells whether
`dynamic_pointer_cast<Link>` succeeds on it. -/
structure Entity where
  GetName : String
  GetScopedName : String
  isLink : Bool
  WorldPose : Pose3d
  deriving DecidableEq

/-- A `gazebo::physics::Joint` as the plugin sees it. -/
structure Joint where
  GetName : String
  GetScopedName : String
  deriving DecidableEq

/-- A `gazebo::physics::Model` as the plugin sees it. -/
structure Model where
  GetName : String
  GetJoint : String → Option Joint

/-- A `gazebo::physics::World` as the plugin sees it (the clock apart). -/
structure World where
  models : List Model
  ModelByName : String → Option Model
  EntityByName : String → Option Entity
  IsPaused : Bool

/-- The struct `GazeboRosApiPlugin::ForceJointJob`. -/
structure ForceJointJob where
  joint : Option Joint
  force : ℚ
  start_time : Time
  duration : Duration
  deriving DecidableEq

/-- The struct `GazeboRosApiPlugin::WrenchBodyJob`. -/
structure WrenchBodyJob where
  body : Option Entity
  force : Vector3d
  torque : Vector3d
  start_time : Time
  duration : Duration
  deriving DecidableEq

/-- The calls the plugin makes on its collaborators. -/
inductive Call where
  | lock
  | unlock
  | LinkSetForce (body : Entity) (force : Vector3d)
  | LinkSetTorque (body : Entity) (torque : Vector3d)
  | JointSetForce (joint : Joint) (index : Nat) (effort : ℚ)
  | SetPaused (paused : Bool)
  | SetJointPositions (model : String) (joint_position_map : List (String × ℚ))
  | publish (clock : Time)
  deriving DecidableEq

/-- The members of `GazeboRosApiPlugin` that the modelled methods use, and the
log of calls made so far. -/
structure GazeboRosApiPlugin where
  world_ : World
  pub_clock_frequency_ : ℚ
  last_pub_clock_time_ : Time
  force_joint_jobs_ : List ForceJointJob
  wrench_body_jobs_ : List WrenchBodyJob
  calls : List Call

/-- The response of a service: `success` and `status_message`. -/
structure Response where
  success : Bool
  status_message : String
  deriving DecidableEq

/-! ## Scheduler passes -/

/-- The first `if` statement of the loop body of `wrenchBodySchedulerSlot`
("check times and apply wrench if necessary"): the job as the statement leaves
it and the calls made on the body. -/
def wrenchBodyApply (simTime : Time) (job : WrenchBodyJob) : WrenchBodyJob × List Call :=
  if simTime ≥ job.start_time then
    if simTime ≤ job.start_time + job.duration ∨ job.duration < 0 then
      match job.body with
      | some body =>
        (job, [Call.LinkSetForce body job.force, Call.LinkSetTorque body job.torque])
      | none => ({ job with duration := 0 }, [])
    else (job, [])
  else (job, [])

/-- The `for` loop of `wrenchBodySchedulerSlot`.  `k` counts the clock reads
made so far; the result is the registry left by the loop and the calls made
on the bodies. -/
def wrenchBodySchedulerLoop (SimTime : Nat → Time) :
    Nat → List WrenchBodyJob → List WrenchBodyJob × List Call
  | _, [] => ([], [])
  | k, job :: rest =>
    let simTime := SimTime k
    let applied := wrenchBodyApply simTime job
    let job := applied.1
    let next := wrenchBodySchedulerLoop SimTime (k + 1) rest
    if simTime > job.start_time + job.duration ∧ job.duration ≥ 0 then
      (next.1, applied.2 ++ next.2)
    else
      (job :: next.1, applied.2 ++ next.2)

/-- The method `GazeboRosApiPlugin::wrenchBodySchedulerSlot`. -/
def wrenchBodySchedulerSlot (SimTime : Nat → Time) (self : GazeboRosApiPlugin) :
    GazeboRosApiPlugin :=
  let pass := wrenchBodySchedulerLoop SimTime 0 self.wrench_body_jobs_
  { self with
    wrench_body_jobs_ := pass.1
    calls := self.calls ++ [Call.lock] ++ pass.2 ++ [Call.unlock] }

/-- The first `if` statement of the loop body of `forceJointSchedulerSlot`
("check times and apply force if necessary"). -/
def forceJointApply (simTime : Time) (job : ForceJointJob) : ForceJointJob × List Call :=
  if simTime ≥ job.start_time then
    if simTime ≤ job.start_time + job.duration ∨ job.duration < 0 then
      match job.joint with
      | some joint => (job, [Call.JointSetForce joint 0 job.force])
      | none => ({ job with duration := 0 }, [])
    else (job, [])
  else (job, [])

/-- The `for` loop of `forceJointSchedulerSlot`. -/
def forceJointSchedulerLoop (SimTime : Nat → Time) :
    Nat → List ForceJointJob → List ForceJointJob × List Call
  | _, [] => ([], [])
  | k, job :: rest =>
    let simTime := SimTime k
    let applied := forceJointApply simTime job
    let job := applied.1
    let next := forceJointSchedulerLoop SimTime (k + 1) rest
    if simTime > job.start_time + job.duration ∧ job.duration ≥ 0 then
      (next.1, applied.2 ++ next.2)
    else
      (job :: next.1, applied.2 ++ next.2)

/-- The method `GazeboRosApiPlugin::forceJointSchedulerSlot`. -/
def forceJointSchedulerSlot (SimTime : Nat → Time) (self : GazeboRosApiPlugin) :
    GazeboRosApiPlugin :=
  let pass := forceJointSchedulerLoop SimTime 0 self.force_joint_jobs_
  { self with
    force_joint_jobs_ := pass.1
    calls := self.calls ++ [Call.lock] ++ pass.2 ++ [Call.unlock] }

/-- A run of wrench scheduler passes, one per element of `times`, each at the
simulation time given by the element. -/
def wrenchBodyPasses (times : List Time) (self : GazeboRosApiPlugin) : GazeboRosApiPlugin :=
  times.foldl (fun s now => wrenchBodySchedulerSlot (fun _ => now) s) self

/-- A run of joint scheduler passes, one per element of `times`. -/
def forceJointPasses (times : List Time) (self : GazeboRosApiPlugin) : GazeboRosApiPlugin :=
  times.foldl (fun s now => forceJointSchedulerSlot (fun _ => now) s) self

/-! ## Cancellation by name -/

/-- How a run of a method ends: it returns, it dereferences a null pointer, or
the bound `fuel` put on a loop of the model is used up. -/
inductive Run (α : Type) where
  | returned (value : α)
  | nullDereference
  | outOfFuel

/-- One run of the inner `for` loop of `clearJointForces(std::string)`: the
flag `search` and the registry when the loop is left; `none` when the loop
calls `GetName` through a null joint pointer. -/
def clearJointForcesScan (joint_name : String) :
    List ForceJointJob → Option (Bool × List ForceJointJob)
  | [] => some (false, [])
  | job :: rest =>
    match job.joint with
    | none => none
    | some joint =>
      if joint.GetName = joint_name then
        some (true, rest)
      else
        match clearJointForcesScan joint_name rest with
        | none => none
        | some found => some (found.1, job :: found.2)

/-- The `while (search)` loop of `clearJointForces(std::string)`; `fuel`
bounds the number of times its body runs. -/
def clearJointForcesLoop (joint_name : String) :
    Nat → List ForceJointJob → Run (List ForceJointJob)
  | 0, _ => Run.outOfFuel
  | fuel + 1, jobs =>
    match clearJointForcesScan joint_name jobs with
    | none => Run.nullDereference
    | some (true, jobs) => clearJointForcesLoop joint_name fuel jobs
    | some (false, jobs) => Run.returned jobs

/-- The method `GazeboRosApiPlugin::clearJointForces(std::string)`.  The loop
is given one more run than the registry has jobs. -/
def clearJointForces (joint_name : String) (self : GazeboRosApiPlugin) :
    Run GazeboRosApiPlugin :=
  match clearJointForcesLoop joint_name (self.force_joint_jobs_.length + 1)
      self.force_joint_jobs_ with
  | Run.returned jobs =>
    Run.returned { self with
      force_joint_jobs_ := jobs
      calls := self.calls ++ [Call.lock, Call.unlock] }
  | Run.nullDereference => Run.nullDereference
  | Run.outOfFuel => Run.outOfFuel

/-- One run of the inner `for` loop of `clearBodyWrenches(std::string)`. -/
def clearBodyWrenchesScan (body_name : String) :
    List WrenchBodyJob → Option (Bool × List WrenchBodyJob)
  | [] => some (false, [])
  | job :: rest =>
    match job.body with
    | none => none
    | some body =>
      if body.GetScopedName = body_name then
        some (true, rest)
      else
        match clearBodyWrenchesScan body_name rest with
        | none => none
        | some found => some (found.1, job :: found.2)

/-- The `while (search)` loop of `clearBodyWrenches(std::string)`. -/
def clearBodyWrenchesLoop (body_name : String) :
    Nat → List WrenchBodyJob → Run (List WrenchBodyJob)
  | 0, _ => Run.outOfFuel
  | fuel + 1, jobs =>
    match clearBodyWrenchesScan body_name jobs with
    | none => Run.nullDereference
    | some (true, jobs) => clearBodyWrenchesLoop body_name fuel jobs
    | some (false, jobs) => Run.returned jobs

/-- The method `GazeboRosApiPlugin::clearBodyWrenches(std::string)`. -/
def clearBodyWrenches (body_name : String) (self : GazeboRosApiPlugin) :
    Run GazeboRosApiPlugin :=
  match clearBodyWrenchesLoop body_name (self.wrench_body_jobs_.length + 1)
      self.wrench_body_jobs_ with
  | Run.returned jobs =>
    Run.returned { self with
      wrench_body_jobs_ := jobs
      calls := self.calls ++ [Call.lock, Call.unlock] }
  | Run.nullDereference => Run.nullDereference
  | Run.outOfFuel => Run.outOfFuel

/-! ## Command facade -/

/-- The request `gazebo_msgs::ApplyJointEffort::Request`. -/
structure ApplyJointEffortRequest where
  joint_name : String
  effort : ℚ
  start_time : Time
  duration : Duration

/-- The message `geometry_msgs::Wrench`. -/
structure Wrench where
  force : Vector3d
  torque : Vector3d

/-- The request `gazebo_msgs::ApplyBodyWrench::Request`. -/
structure ApplyBodyWrenchRequest where
  body_name : String
  reference_frame : String
  reference_point : Vector3d
  wrench : Wrench
  start_time : Time
  duration : Duration

/-- The request `gazebo_msgs::SetModelConfiguration::Request`. -/
structure SetModelConfigurationRequest where
  model_name : String
  urdf_param_name : String
  joint_names : List String
  joint_positions : List ℚ

/-- The model loop of `applyJointEffort`: the joint of the first model, in
index order, whose `GetJoint` is not null. -/
def applyJointEffortFind (joint_name : String) : List Model → Option Joint
  | [] => none
  | model :: rest =>
    match model.GetJoint joint_name with
    | some joint => some joint
    | none => applyJointEffortFind joint_name rest

/-- The method `GazeboRosApiPlugin::applyJointEffort`. -/
def applyJointEffort (SimTime : Nat → Time) (self : GazeboRosApiPlugin)
    (req : ApplyJointEffortRequest) : GazeboRosApiPlugin × Response :=
  match applyJointEffortFind req.joint_name self.world_.models with
  | some joint =>
    let start_time := if req.start_time < SimTime 0 then SimTime 1 else req.start_time
    let fjj : ForceJointJob :=
      { joint := some joint, force := req.effort, start_time := start_time,
        duration := req.duration }
    ({ self with
        force_joint_jobs_ := self.force_joint_jobs_ ++ [fjj]
        calls := self.calls ++ [Call.lock, Call.unlock] },
      ⟨true, "ApplyJointEffort: effort set"⟩)
  | none => (self, ⟨false, "ApplyJointEffort: joint not found"⟩)

/-- The method `GazeboRosApiPlugin::transformWrench`: the pair
`(target_force, target_torque)`. -/
def transformWrench (math : IgnitionMath) (reference_force reference_torque : Vector3d)
    (target_to_reference : Pose3d) : Vector3d × Vector3d :=
  let target_force := math.RotateVector target_to_reference.Rot reference_force
  let target_torque := math.RotateVector target_to_reference.Rot reference_torque
  let target_torque := target_torque + target_to_reference.Pos.Cross target_force
  (target_force, target_torque)

/-- The cast `boost::dynamic_pointer_cast<gazebo::physics::Link>`. -/
def dynamicPointerCastLink (entity : Option Entity) : Option Entity :=
  match entity with
  | some e => if e.isLink then some e else none
  | none => none

/-- The tail of `applyBodyWrench`: schedule the job and answer success. -/
def applyBodyWrenchSchedule (SimTime : Nat → Time) (self : GazeboRosApiPlugin)
    (req : ApplyBodyWrenchRequest) (body : Entity) (target_force target_torque : Vector3d) :
    GazeboRosApiPlugin × Response :=
  let start_time := if req.start_time < SimTime 0 then SimTime 1 else req.start_time
  let wej : WrenchBodyJob :=
    { body := some body, force := target_force, torque := target_torque,
      start_time := start_time, duration := req.duration }
  ({ self with
      wrench_body_jobs_ := self.wrench_body_jobs_ ++ [wej]
      calls := self.calls ++ [Call.lock, Call.unlock] },
    ⟨true, ""⟩)

/-- The method `GazeboRosApiPlugin::applyBodyWrench`. -/
def applyBodyWrench (math : IgnitionMath) (SimTime : Nat → Time) (self : GazeboRosApiPlugin)
    (req : ApplyBodyWrenchRequest) : GazeboRosApiPlugin × Response :=
  let body := dynamicPointerCastLink (self.world_.EntityByName req.body_name)
  let frame := self.world_.EntityByName req.reference_frame
  match body with
  | none => (self, ⟨false, "ApplyBodyWrench: body does not exist"⟩)
  | some body =>
    let reference_force := req.wrench.force
    let reference_torque := req.wrench.torque
    let reference_point := req.reference_point
    let reference_torque := reference_torque + reference_point.Cross reference_force
    match frame with
    | some frame =>
      let framePose := frame.WorldPose
      let bodyPose := body.WorldPose
      let target_to_reference := math.PoseSub framePose bodyPose
      let target :=
        transformWrench math reference_force reference_torque target_to_reference
      applyBodyWrenchSchedule SimTime self req body target.1 target.2
    | none =>
      if req.reference_frame = "" ∨ req.reference_frame = "world"
          ∨ req.reference_frame = "map" ∨ req.reference_frame = "/map" then
        applyBodyWrenchSchedule SimTime self req body reference_force reference_torque
      else
        (self, ⟨false, "ApplyBodyWrench: reference_frame not found"⟩)

/-- The assignment `joint_position_map[name] = position` on a `std::map`,
kept as an association list. -/
def mapAssign (name : String) (position : ℚ) : List (String × ℚ) → List (String × ℚ)
  | [] => [(name, position)]
  | entry :: rest =>
    if entry.1 = name then (name, position) :: rest
    else entry :: mapAssign name position rest

/-- The loop of `setModelConfiguration` that fills `joint_position_map`. -/
def fillJointPositionMap :
    List String → List ℚ → List (String × ℚ) → List (String × ℚ)
  | name :: names, position :: positions, map =>
    fillJointPositionMap names positions (mapAssign name position map)
  | _, _, map => map

/-- The call `world_->SetPaused(paused)`. -/
def SetPaused (paused : Bool) (self : GazeboRosApiPlugin) : GazeboRosApiPlugin :=
  { self with
    world_ := { self.world_ with IsPaused := paused }
    calls := self.calls ++ [Call.SetPaused paused] }

/-- The method `GazeboRosApiPlugin::setModelConfiguration`. -/
def setModelConfiguration (self : GazeboRosApiPlugin) (req : SetModelConfigurationRequest) :
    GazeboRosApiPlugin × Response :=
  match self.world_.ModelByName req.model_name with
  | none => (self, ⟨false, "SetModelConfiguration: model does not exist"⟩)
  | some gazebo_model =>
    if req.joint_names.length = req.joint_positions.length then
      let joint_position_map := fillJointPositionMap req.joint_names req.joint_positions []
      let is_paused := self.world_.IsPaused
      let self := if !is_paused then SetPaused true self else self
      let self : GazeboRosApiPlugin :=
        { self with
          calls := self.calls
            ++ [Call.SetJointPositions gazebo_model.GetName joint_position_map] }
      let self := SetPaused is_paused self
      (self, ⟨true, "SetModelConfiguration: success"⟩)
    else
      (self,
        ⟨false, "SetModelConfiguration: joint name and position list have different lengths"⟩)

/-! ## Clock publisher -/

/-- The method `GazeboRosApiPlugin::publishSimTime()` (the overload without
argument, the one connected to the world update). -/
def publishSimTime (SimTime : Nat → Time) (self : GazeboRosApiPlugin) : GazeboRosApiPlugin :=
  let sim_time := SimTime 0
  if self.pub_clock_frequency_ > 0
      ∧ sim_time - self.last_pub_clock_time_ < 1 / self.pub_clock_frequency_ then
    self
  else
    let currentTime := SimTime 1
    { self with
      last_pub_clock_time_ := sim_time
      calls := self.calls ++ [Call.publish currentTime] }

/-- A run of `publishSimTime` steps, one per element of `times`, each at the
simulation time given by the element. -/
def publishSimTimeSteps (times : List Time) (self : GazeboRosApiPlugin) : GazeboRosApiPlugin :=
  times.foldl (fun s now => publishSimTime (fun _ => now) s) self

/-- The clock values published in a log of calls, oldest first. -/
def publishedClocks : List Call → List Time
  | [] => []
  | Call.publish clock :: rest => clock :: publishedClocks rest
  | _ :: rest => publishedClocks rest

/-- The pause flag of the world after the calls of a log, starting from the
flag `paused`: each `SetPaused` call sets it, the other calls leave it. -/
def pausedAfter (paused : Bool) : List Call → Bool
  | [] => paused
  | Call.SetPaused flag :: rest => pausedAfter flag rest
  | _ :: rest => pausedAfter paused rest

/-! ## Reading a log of calls -/

/-- Whether a call is a `SetForce` or `SetTorque` on a body or a joint. -/
def Call.isForceWrite : Call → Bool
  | Call.LinkSetForce _ _ => true
  | Call.LinkSetTorque _ _ => true
  | Call.JointSetForce _ _ _ => true
  | _ => false

/-- The `SetForce` / `SetTorque` calls of a log that are made while `lock_` is
held; `held` tells whether the lock is held where the log starts. -/
def writesUnderLock (held : Bool) : List Call → List Call
  | [] => []
  | Call.lock :: rest => writesUnderLock true rest
  | Call.unlock :: rest => writesUnderLock false rest
  | call :: rest =>
    if held && call.isForceWrite then call :: writesUnderLock held rest
    else writesUnderLock held rest

/-! ## Node parameters (`node.cpp`) -/

/-- An `sdf::Element` as `Node::sdf_to_ros_parameter` sees it: its attributes
by name, and what `Get<int>()`, `Get<double>()`, `Get<bool>()` and
`Get<std::string>()` return for its value (the parsing is done by the sdformat
library and is not part of the repository). -/
structure SdfElement where
  attributes : List (String × String)
  GetInt : Int
  GetDouble : ℚ
  GetBool : Bool
  GetString : String

/-- The call `sdf->HasAttribute(key)`. -/
def SdfElement.HasAttribute (sdf : SdfElement) (key : String) : Bool :=
  (sdf.attributes.lookup key).isSome

/-- The call `sdf->Get<std::string>(key)` on an attribute; the empty string
when the element has no such attribute. -/
def SdfElement.GetAttribute (sdf : SdfElement) (key : String) : String :=
  (sdf.attributes.lookup key).getD ""

/-- The enum `rclcpp::ParameterType`, as far as `sdf_to_ros_parameter` can
produce it. -/
inductive ParameterType where
  | PARAMETER_NOT_SET
  | PARAMETER_BOOL
  | PARAMETER_INTEGER
  | PARAMETER_DOUBLE
  | PARAMETER_STRING
  deriving DecidableEq

/-- The value of an `rclcpp::Parameter`. -/
inductive ParameterValue where
  | notSet
  | bool (value : Bool)
  | integer (value : Int)
  | double (value : ℚ)
  | string (value : String)
  deriving DecidableEq

/-- The class `rclcpp::Parameter`: a name and a value. -/
structure Parameter where
  get_name : String
  value : ParameterValue
  deriving DecidableEq

/-- The method `rclcpp::Parameter::get_type`. -/
def Parameter.get_type (parameter : Parameter) : ParameterType :=
  match parameter.value with
  | ParameterValue.notSet => ParameterType.PARAMETER_NOT_SET
  | ParameterValue.bool _ => ParameterType.PARAMETER_BOOL
  | ParameterValue.integer _ => ParameterType.PARAMETER_INTEGER
  | ParameterValue.double _ => ParameterType.PARAMETER_DOUBLE
  | ParameterValue.string _ => ParameterType.PARAMETER_STRING

/-- The default constructor `rclcpp::Parameter()`. -/
def Parameter.default : Parameter := ⟨"", ParameterValue.notSet⟩

/-- The method `Node::sdf_to_ros_parameter`. -/
def sdf_to_ros_parameter (sdf : SdfElement) : Parameter :=
  if !sdf.HasAttribute "name" then Parameter.default
  else if !sdf.HasAttribute "type" then Parameter.default
  else
    let name := sdf.GetAttribute "name"
    let type := sdf.GetAttribute "type"
    if "int" = type then ⟨name, ParameterValue.integer sdf.GetInt⟩
    else if "double" = type ∨ "float" = type then ⟨name, ParameterValue.double sdf.GetDouble⟩
    else if "bool" = type then ⟨name, ParameterValue.bool sdf.GetBool⟩
    else if "string" = type then ⟨name, ParameterValue.string sdf.GetString⟩
    else Parameter.default

/-! ## Conversions (`gazebo_ros/conversions.hpp`, known through its test) -/

/-- The message `geometry_msgs::msg::Vector3`. -/
structure Vector3Msg where
  x : ℚ
  y : ℚ
  z : ℚ
  deriving DecidableEq

/-- Modelled from the spec: `gazebo_ros::Convert<geometry_msgs::msg::Vector3>`
on an `ignition::math::Vector3d`, whose code (`gazebo_ros/conversions.hpp`) is
not among the sources; by the claim and `TEST(TestConversions, Vector3)` the
message has the `X`, `Y`, `Z` of the vector as its `x`, `y`, `z`. -/
def ConvertVector3dToMsg (vec : Vector3d) : Vector3Msg :=
  ⟨vec.X, vec.Y, vec.Z⟩

/-- Modelled from the spec: `gazebo_ros::Convert<ignition::math::Vector3d>` on
a `geometry_msgs::msg::Vector3`, whose code is not among the sources; by
`TEST(TestConversions, Vector3)` the vector has the `x`, `y`, `z` of the
message as its `X`, `Y`, `Z`. -/
def ConvertMsgToVector3d (msg : Vector3Msg) : Vector3d :=
  ⟨msg.x, msg.y, msg.z⟩

/-- The class `gazebo::common::Time`: seconds and nanoseconds, both
`int32_t`. -/
structure CommonTime where
  sec : Int
  nsec : Int
  deriving DecidableEq

/-- The message `builtin_interfaces::msg::Time`: `int32 sec`,
`uint32 nanosec`. -/
structure TimeMsg where
  sec : Int
  nanosec : Int
  deriving DecidableEq

/-- The value of an integer stored in a signed 64-bit word. -/
def wrapInt64 (value : Int) : Int :=
  (value + 2 ^ 63) % 2 ^ 64 - 2 ^ 63

/-- The value of an integer stored in an unsigned 32-bit word. -/
def wrapUInt32 (value : Int) : Int :=
  value % 2 ^ 32

/-- Modelled from the spec: `gazebo_ros::Convert<rclcpp::Time>` on a
`gazebo::common::Time`, whose code (`gazebo_ros/conversions.hpp`) is not among
the sources; by the claim and `TEST(TestConversions, Time)` the result is the
time of `sec * 10^9 + nsec` nanoseconds; `rclcpp::Time::nanoseconds()` is a
signed 64-bit count. -/
def ConvertTimeToRclcppNanoseconds (time : CommonTime) : Int :=
  wrapInt64 (time.sec * 10 ^ 9 + time.nsec)

/-- Modelled from the spec: `gazebo_ros::Convert<builtin_interfaces::msg::Time>`
on a `gazebo::common::Time`, whose code is not among the sources; by the claim
and `TEST(TestConversions, Time)` the message has `sec` and `nsec` as its `sec`
and `nanosec`, the latter stored in an unsigned 32-bit field. -/
def ConvertTimeToMsg (time : CommonTime) : TimeMsg :=
  ⟨time.sec, wrapUInt32 time.nsec⟩

/-! ## Scoped names (`utils.cpp`) -/

/-- The call `str.rfind("::")` of the standard library, a `std::string` being
the list of its characters: the index at which the last occurrence of `::`
starts, `none` for `std::string::npos`. -/
def rfindScope : List Char → Option Nat
  | [] => none
  | c :: rest =>
    match rfindScope rest with
    | some idx => some (idx + 1)
    | none => if c = ':' ∧ rest.head? = some ':' then some 0 else none

/-- The function `gazebo_ros::ScopedNameBase`. -/
def ScopedNameBase (str : List Char) : List Char :=
  match rfindScope str with
  | none => str
  | some idx => if idx + 2 ≥ str.length then str else str.drop (idx + 2)

/-! ## Joint effort plugin (`gazebo_ros_joint_effort.cpp`) -/

/-- The members of `GazeboRosJointEffortPrivate` that the callbacks use: the
tracked joints and the `effort` array of `joint_state_msg_`. -/
structure GazeboRosJointEffortPrivate where
  joints_ : List Joint
  effort : List ℚ
  deriving DecidableEq

/-- How a run of `OnRosJointStateMsg` ends: it returns, or it indexes
`msg->effort`, or the stored `effort` array, at or beyond its size. -/
inductive EffortCopy where
  | returned (state : GazeboRosJointEffortPrivate)
  | readOutOfBounds (index : Nat)
  | writeOutOfBounds (index : Nat)
  deriving DecidableEq

/-- The end of `GazeboRosJointEffort::Load`, once the joints are collected:
`none` when no joint was found (the method returns before it subscribes),
otherwise the state with the `effort` array resized to one zero per joint. -/
def JointEffortLoad (found : List (Option Joint)) : Option GazeboRosJointEffortPrivate :=
  let joints_ := found.filterMap id
  if joints_.isEmpty then none
  else some ⟨joints_, List.replicate joints_.length 0⟩

/-- The `for` loop of `GazeboRosJointEffort::OnRosJointStateMsg`:
`remaining` iterations from index `i` on, each doing
`joint_state_msg_.effort[i] = msg->effort[i]`. -/
def OnRosJointStateMsgLoop (joints_ : List Joint) (msg_effort : List ℚ) :
    Nat → Nat → List ℚ → EffortCopy
  | 0, _, effort => EffortCopy.returned ⟨joints_, effort⟩
  | remaining + 1, i, effort =>
    match msg_effort.get? i with
    | none => EffortCopy.readOutOfBounds i
    | some value =>
      if i < effort.length then
        OnRosJointStateMsgLoop joints_ msg_effort remaining (i + 1) (effort.set i value)
      else EffortCopy.writeOutOfBounds i

/-- The method `GazeboRosJointEffort::OnRosJointStateMsg`, on the `effort`
array of the message; the size test at its head only logs an error. -/
def OnRosJointStateMsg (self : GazeboRosJointEffortPrivate) (msg_effort : List ℚ) :
    EffortCopy :=
  OnRosJointStateMsgLoop self.joints_ msg_effort self.joints_.length 0 self.effort

/-! ## Example data -/

/-- A link of the example world. -/
def exampleLink : Entity :=
  ⟨"link", "robot::link", true, ⟨⟨0, 0, 0⟩, ⟨1, 0, 0, 0⟩⟩⟩

/-- A joint named `j` of the example world. -/
def exampleJointJ : Joint := ⟨"j", "robot::j"⟩

/-- A joint named `k` of the example world. -/
def exampleJointK : Joint := ⟨"k", "robot::k"⟩

/-- The model of the example world. -/
def exampleModel : Model :=
  ⟨"robot", fun name =>
    if name = "j" then some exampleJointJ
    else if name = "k" then some exampleJointK
    else none⟩

/-- A running world with one model, two joints and one link. -/
def exampleWorld : World :=
  ⟨[exampleModel],
    fun name => if name = "robot" then some exampleModel else none,
    fun name => if name = "robot::link" then some exampleLink else none,
    false⟩

/-- A plugin over the example world with the given registries, clock
frequency 2, last publication at time 0 and an empty log. -/
def examplePlugin (force_joint_jobs : List ForceJointJob)
    (wrench_body_jobs : List WrenchBodyJob) : GazeboRosApiPlugin :=
  ⟨exampleWorld, 2, 0, force_joint_jobs, wrench_body_jobs, []⟩

/-- A stand-in for the ignition-math operations: no rotation. -/
def exampleMath : IgnitionMath := ⟨fun _ v => v, fun a _ => a⟩

/-- A wrench job on the given body pointer: force `(1, 0, 0)`, torque
`(0, 0, 2)`. -/
def exampleWrenchJob (body : Option Entity) (start_time : Time) (duration : Duration) :
    WrenchBodyJob :=
  ⟨body, ⟨1, 0, 0⟩, ⟨0, 0, 2⟩, start_time, duration⟩

/-- A joint job on the given joint pointer: effort `5`. -/
def exampleForceJob (joint : Option Joint) (start_time : Time) (duration : Duration) :
    ForceJointJob :=
  ⟨joint, 5, start_time, duration⟩

/-- A wrench request on the example link with an empty reference frame: force
`(1, 0, 0)`, no torque, reference point `(0, 1, 0)`. -/
def exampleWrenchRequest : ApplyBodyWrenchRequest :=
  { body_name := "robot::link", reference_frame := "", reference_point := ⟨0, 1, 0⟩,
    wrench := ⟨⟨1, 0, 0⟩, ⟨0, 0, 0⟩⟩, start_time := 0, duration := 1 }

/-- A wrench request on a body that the example world does not have. -/
def exampleMissingBodyRequest : ApplyBodyWrenchRequest :=
  { body_name := "robot::nothing", reference_frame := "robot::link",
    reference_point := ⟨0, 0, 0⟩, wrench := ⟨⟨1, 0, 0⟩, ⟨0, 0, 0⟩⟩, start_time := 0,
    duration := 1 }

/-- A configuration request with two joint names and one position. -/
def exampleMismatchedRequest : SetModelConfigurationRequest :=
  { model_name := "robot", urdf_param_name := "", joint_names := ["a", "b"],
    joint_positions := [1] }

/-- An effort request on joint `j`: effort 5, to start at time 1, for 2
seconds. -/
def exampleEffortRequest : ApplyJointEffortRequest :=
  { joint_name := "j", effort := 5, start_time := 1, duration := 2 }

/-- An effort request on a joint that no model of the example world has. -/
def exampleMissingJointRequest : ApplyJointEffortRequest :=
  { joint_name := "nothing", effort := 5, start_time := 1, duration := 2 }

/-- A wrench request on the example link, given in the frame of that link:
force `(1, 0, 0)`, no torque, reference point `(0, 1, 0)`. -/
def exampleFramedWrenchRequest : ApplyBodyWrenchRequest :=
  { exampleWrenchRequest with reference_frame := "robot::link" }

/-- A wrench request on the example link in a frame that the example world
does not have. -/
def exampleMissingFrameRequest : ApplyBodyWrenchRequest :=
  { exampleWrenchRequest with reference_frame := "robot::nothing" }

/-- A configuration request with two joint names and one position on a model
that the example world does not have. -/
def exampleGhostModelRequest : SetModelConfigurationRequest :=
  { exampleMismatchedRequest with model_name := "ghost" }

/-- A configuration request on the model of the example world: joint `j` to
position 1 and joint `k` to position 2. -/
def exampleConfigurationRequest : SetModelConfigurationRequest :=
  { model_name := "robot", urdf_param_name := "", joint_names := ["j", "k"],
    joint_positions := [1, 2] }

/-- The element `<parameter type="float" name="my_float">41.18</parameter>`. -/
def exampleFloatParameter : SdfElement :=
  { attributes := [("type", "float"), ("name", "my_float")], GetInt := 41,
    GetDouble := 4118 / 100, GetBool := false, GetString := "41.18" }

/-- A clock that reads 0 at the first read of a pass and 10 at every later
read. -/
def exampleMovingClock : Nat → Time :=
  fun k => if k = 0 then 0 else 10

/-! ## Theorems -/

/-- With a clock that does not move, the loop does not depend on the read counter. -/
theorem wrenchBodySchedulerLoop_const (now : Time) (k : Nat) (jobs : List WrenchBodyJob) :
    wrenchBodySchedulerLoop (fun _ => now) k jobs
      = wrenchBodySchedulerLoop (fun _ => now) 0 jobs := by
  induction jobs generalizing k with
  | nil => simp [wrenchBodySchedulerLoop]
  | cons job rest ih =>
    simp only [wrenchBodySchedulerLoop]
    rw [ih (k + 1), ih (0 + 1)]

theorem forceJointSchedulerLoop_const (now : Time) (k : Nat) (jobs : List ForceJointJob) :
    forceJointSchedulerLoop (fun _ => now) k jobs
      = forceJointSchedulerLoop (fun _ => now) 0 jobs := by
  induction jobs generalizing k with
  | nil => simp [forceJointSchedulerLoop]
  | cons job rest ih =>
    simp only [forceJointSchedulerLoop]
    rw [ih (k + 1), ih (0 + 1)]

/-- At a fixed instant the wrench loop treats the first job on its own. -/
theorem wrenchBodySchedulerLoop_cons (now : Time) (job : WrenchBodyJob)
    (rest : List WrenchBodyJob) :
    wrenchBodySchedulerLoop (fun _ => now) 0 (job :: rest)
      = ((wrenchBodySchedulerLoop (fun _ => now) 0 [job]).1
            ++ (wrenchBodySchedulerLoop (fun _ => now) 0 rest).1,
          (wrenchBodySchedulerLoop (fun _ => now) 0 [job]).2
            ++ (wrenchBodySchedulerLoop (fun _ => now) 0 rest).2) := by
  simp only [wrenchBodySchedulerLoop]
  rw [wrenchBodySchedulerLoop_const now (0 + 1)]
  generalize wrenchBodyApply now job = applied
  split <;> simp

/-- At a fixed instant the wrench loop over a concatenation is the
concatenation of the loops. -/
theorem wrenchBodySchedulerLoop_append (now : Time) (pre post : List WrenchBodyJob) :
    wrenchBodySchedulerLoop (fun _ => now) 0 (pre ++ post)
      = ((wrenchBodySchedulerLoop (fun _ => now) 0 pre).1
            ++ (wrenchBodySchedulerLoop (fun _ => now) 0 post).1,
          (wrenchBodySchedulerLoop (fun _ => now) 0 pre).2
            ++ (wrenchBodySchedulerLoop (fun _ => now) 0 post).2) := by
  induction pre with
  | nil => simp [wrenchBodySchedulerLoop]
  | cons job rest ih =>
    rw [List.cons_append, wrenchBodySchedulerLoop_cons, ih,
      wrenchBodySchedulerLoop_cons now job rest]
    simp

/-- What the wrench loop does with one job whose body is live. -/
theorem wrenchBodySchedulerLoop_live (now : Time) (job : WrenchBodyJob) (body : Entity)
    (hlive : job.body = some body) :
    wrenchBodySchedulerLoop (fun _ => now) 0 [job]
      = (if now > job.start_time + job.duration ∧ job.duration ≥ 0 then [] else [job],
         if now ≥ job.start_time ∧ (now ≤ job.start_time + job.duration ∨ job.duration < 0) then
           [Call.LinkSetForce body job.force, Call.LinkSetTorque body job.torque]
         else []) := by
  simp only [wrenchBodySchedulerLoop, wrenchBodyApply, hlive]
  by_cases h1 : now ≥ job.start_time <;>
    by_cases h2 : now ≤ job.start_time + job.duration ∨ job.duration < 0 <;>
    by_cases h3 : now > job.start_time + job.duration ∧ job.duration ≥ 0 <;>
    simp [h1, h2, h3]

/-- What the wrench loop does with one job whose body pointer is null. -/
theorem wrenchBodySchedulerLoop_null (now : Time) (job : WrenchBodyJob)
    (hnull : job.body = none) :
    wrenchBodySchedulerLoop (fun _ => now) 0 [job]
      = (if now > job.start_time then []
         else if now = job.start_time then [{ job with duration := 0 }] else [job], []) := by
  simp only [wrenchBodySchedulerLoop, wrenchBodyApply, hnull]
  rcases lt_trichotomy now job.start_time with h | h | h
  · have h1 : ¬ now ≥ job.start_time := not_le.mpr h
    have h2 : ¬ now > job.start_time := by linarith
    have h3 : ¬ now = job.start_time := ne_of_lt h
    simp only [h1, h2, h3, if_false]
    by_cases h4 : now > job.start_time + job.duration ∧ job.duration ≥ 0
    · exfalso; linarith [h4.1, h4.2]
    · simp [h4]
  · subst h
    by_cases hd : job.duration < 0
    · simp [hd]
    · have : 0 ≤ job.duration := not_lt.mp hd
      simp [this]
  · have h1 : now ≥ job.start_time := le_of_lt h
    by_cases h2 : now ≤ job.start_time + job.duration ∨ job.duration < 0
    · simp [h1, h2, h]
    · have h2' := h2
      rw [not_or] at h2'
      have h5 : now > job.start_time + job.duration := not_le.mp h2'.1
      have h6 : job.duration ≥ 0 := not_lt.mp h2'.2
      simp [h1, h2, h, h5, h6]

/-- At a fixed instant the joint loop treats the first job on its own. -/
theorem forceJointSchedulerLoop_cons (now : Time) (job : ForceJointJob)
    (rest : List ForceJointJob) :
    forceJointSchedulerLoop (fun _ => now) 0 (job :: rest)
      = ((forceJointSchedulerLoop (fun _ => now) 0 [job]).1
            ++ (forceJointSchedulerLoop (fun _ => now) 0 rest).1,
          (forceJointSchedulerLoop (fun _ => now) 0 [job]).2
            ++ (forceJointSchedulerLoop (fun _ => now) 0 rest).2) := by
  simp only [forceJointSchedulerLoop]
  rw [forceJointSchedulerLoop_const now (0 + 1)]
  generalize forceJointApply now job = applied
  split <;> simp

/-- At a fixed instant the joint loop over a concatenation is the
concatenation of the loops. -/
theorem forceJointSchedulerLoop_append (now : Time) (pre post : List ForceJointJob) :
    forceJointSchedulerLoop (fun _ => now) 0 (pre ++ post)
      = ((forceJointSchedulerLoop (fun _ => now) 0 pre).1
            ++ (forceJointSchedulerLoop (fun _ => now) 0 post).1,
          (forceJointSchedulerLoop (fun _ => now) 0 pre).2
            ++ (forceJointSchedulerLoop (fun _ => now) 0 post).2) := by
  induction pre with
  | nil => simp [forceJointSchedulerLoop]
  | cons job rest ih =>
    rw [List.cons_append, forceJointSchedulerLoop_cons, ih,
      forceJointSchedulerLoop_cons now job rest]
    simp

/-- What the joint loop does with one job whose joint is live. -/
theorem forceJointSchedulerLoop_live (now : Time) (job : ForceJointJob) (joint : Joint)
    (hlive : job.joint = some joint) :
    forceJointSchedulerLoop (fun _ => now) 0 [job]
      = (if now > job.start_time + job.duration ∧ job.duration ≥ 0 then [] else [job],
         if now ≥ job.start_time ∧ (now ≤ job.start_time + job.duration ∨ job.duration < 0) then
           [Call.JointSetForce joint 0 job.force]
         else []) := by
  simp only [forceJointSchedulerLoop, forceJointApply, hlive]
  by_cases h1 : now ≥ job.start_time <;>
    by_cases h2 : now ≤ job.start_time + job.duration ∨ job.duration < 0 <;>
    by_cases h3 : now > job.start_time + job.duration ∧ job.duration ≥ 0 <;>
    simp [h1, h2, h3]

/-- What the joint loop does with one job whose joint pointer is null. -/
theorem forceJointSchedulerLoop_null (now : Time) (job : ForceJointJob)
    (hnull : job.joint = none) :
    forceJointSchedulerLoop (fun _ => now) 0 [job]
      = (if now > job.start_time then []
         else if now = job.start_time then [{ job with duration := 0 }] else [job], []) := by
  simp only [forceJointSchedulerLoop, forceJointApply, hnull]
  rcases lt_trichotomy now job.start_time with h | h | h
  · have h1 : ¬ now ≥ job.start_time := not_le.mpr h
    have h2 : ¬ now > job.start_time := by linarith
    have h3 : ¬ now = job.start_time := ne_of_lt h
    simp only [h1, h2, h3, if_false]
    by_cases h4 : now > job.start_time + job.duration ∧ job.duration ≥ 0
    · exfalso; linarith [h4.1, h4.2]
    · simp [h4]
  · subst h
    by_cases hd : job.duration < 0
    · simp [hd]
    · have : 0 ≤ job.duration := not_lt.mp hd
      simp [this]
  · have h1 : now ≥ job.start_time := le_of_lt h
    by_cases h2 : now ≤ job.start_time + job.duration ∨ job.duration < 0
    · simp [h1, h2, h]
    · have h2' := h2
      rw [not_or] at h2'
      have h5 : now > job.start_time + job.duration := not_le.mp h2'.1
      have h6 : job.duration ≥ 0 := not_lt.mp h2'.2
      simp [h1, h2, h, h5, h6]

/-- The wrench pass around one job whose body is live. -/
theorem wrenchBodySchedulerSlot_live (now : Time) (self : GazeboRosApiPlugin)
    (pre post : List WrenchBodyJob) (job : WrenchBodyJob) (body : Entity)
    (hreg : self.wrench_body_jobs_ = pre ++ job :: post) (hlive : job.body = some body) :
    (wrenchBodySchedulerSlot (fun _ => now) self).wrench_body_jobs_
        = (wrenchBodySchedulerLoop (fun _ => now) 0 pre).1
          ++ (if now > job.start_time + job.duration ∧ job.duration ≥ 0 then [] else [job])
          ++ (wrenchBodySchedulerLoop (fun _ => now) 0 post).1
      ∧ (wrenchBodySchedulerSlot (fun _ => now) self).calls
        = self.calls ++ [Call.lock] ++ (wrenchBodySchedulerLoop (fun _ => now) 0 pre).2
          ++ (if now ≥ job.start_time
                ∧ (now ≤ job.start_time + job.duration ∨ job.duration < 0) then
              [Call.LinkSetForce body job.force, Call.LinkSetTorque body job.torque]
            else [])
          ++ (wrenchBodySchedulerLoop (fun _ => now) 0 post).2 ++ [Call.unlock] := by
  simp only [wrenchBodySchedulerSlot, hreg]
  rw [wrenchBodySchedulerLoop_append, wrenchBodySchedulerLoop_cons now job post,
    wrenchBodySchedulerLoop_live now job body hlive]
  simp

/-- The joint pass around one job whose joint is live. -/
theorem forceJointSchedulerSlot_live (now : Time) (self : GazeboRosApiPlugin)
    (pre post : List ForceJointJob) (job : ForceJointJob) (joint : Joint)
    (hreg : self.force_joint_jobs_ = pre ++ job :: post) (hlive : job.joint = some joint) :
    (forceJointSchedulerSlot (fun _ => now) self).force_joint_jobs_
        = (forceJointSchedulerLoop (fun _ => now) 0 pre).1
          ++ (if now > job.start_time + job.duration ∧ job.duration ≥ 0 then [] else [job])
          ++ (forceJointSchedulerLoop (fun _ => now) 0 post).1
      ∧ (forceJointSchedulerSlot (fun _ => now) self).calls
        = self.calls ++ [Call.lock] ++ (forceJointSchedulerLoop (fun _ => now) 0 pre).2
          ++ (if now ≥ job.start_time
                ∧ (now ≤ job.start_time + job.duration ∨ job.duration < 0) then
              [Call.JointSetForce joint 0 job.force]
            else [])
          ++ (forceJointSchedulerLoop (fun _ => now) 0 post).2 ++ [Call.unlock] := by
  simp only [forceJointSchedulerSlot, hreg]
  rw [forceJointSchedulerLoop_append, forceJointSchedulerLoop_cons now job post,
    forceJointSchedulerLoop_live now job joint hlive]
  simp

/-- C1: in one scheduler pass at simulation time `now`, a job with
`duration ≥ 0` whose target is live has its effect applied (`SetForce` and
`SetTorque` on the body, resp. `SetForce` on axis 0 of the joint, logged at the
job's place between the calls made for the jobs before it and those made for
the jobs after it) if and only if `start_time ≤ now ≤ start_time + duration`,
both bounds included; outside the window the pass makes no call for the job. -/
theorem scheduler_applies_effect_iff_in_window (now : Time) :
    (∀ (self : GazeboRosApiPlugin) (pre post : List WrenchBodyJob) (job : WrenchBodyJob)
        (body : Entity),
        self.wrench_body_jobs_ = pre ++ job :: post → job.body = some body →
        0 ≤ job.duration →
        (wrenchBodySchedulerSlot (fun _ => now) self).calls
          = self.calls ++ [Call.lock] ++ (wrenchBodySchedulerLoop (fun _ => now) 0 pre).2
            ++ (if job.start_time ≤ now ∧ now ≤ job.start_time + job.duration then
                [Call.LinkSetForce body job.force, Call.LinkSetTorque body job.torque]
              else [])
            ++ (wrenchBodySchedulerLoop (fun _ => now) 0 post).2 ++ [Call.unlock])
    ∧ (∀ (self : GazeboRosApiPlugin) (pre post : List ForceJointJob) (job : ForceJointJob)
        (joint : Joint),
        self.force_joint_jobs_ = pre ++ job :: post → job.joint = some joint →
        0 ≤ job.duration →
        (forceJointSchedulerSlot (fun _ => now) self).calls
          = self.calls ++ [Call.lock] ++ (forceJointSchedulerLoop (fun _ => now) 0 pre).2
            ++ (if job.start_time ≤ now ∧ now ≤ job.start_time + job.duration then
                [Call.JointSetForce joint 0 job.force]
              else [])
            ++ (forceJointSchedulerLoop (fun _ => now) 0 post).2 ++ [Call.unlock]) := by
  constructor
  · intro self pre post job body hreg hlive hdur
    rw [(wrenchBodySchedulerSlot_live now self pre post job body hreg hlive).2]
    have hcond : (now ≥ job.start_time
          ∧ (now ≤ job.start_time + job.duration ∨ job.duration < 0))
        ↔ (job.start_time ≤ now ∧ now ≤ job.start_time + job.duration) := by
      constructor
      · rintro ⟨h1, h2 | h2⟩
        · exact ⟨h1, h2⟩
        · exact absurd hdur (not_le.mpr h2)
      · rintro ⟨h1, h2⟩
        exact ⟨h1, Or.inl h2⟩
    simp only [hcond]
  · intro self pre post job joint hreg hlive hdur
    rw [(forceJointSchedulerSlot_live now self pre post job joint hreg hlive).2]
    have hcond : (now ≥ job.start_time
          ∧ (now ≤ job.start_time + job.duration ∨ job.duration < 0))
        ↔ (job.start_time ≤ now ∧ now ≤ job.start_time + job.duration) := by
      constructor
      · rintro ⟨h1, h2 | h2⟩
        · exact ⟨h1, h2⟩
        · exact absurd hdur (not_le.mpr h2)
      · rintro ⟨h1, h2⟩
        exact ⟨h1, Or.inl h2⟩
    simp only [hcond]

/-- C1 at the last instant of the window: jobs with `start_time = 1` and
`duration = 2` are applied by the passes at `now = 3`. -/
theorem scheduler_applies_effect_iff_in_window_witness :
    (wrenchBodySchedulerSlot (fun _ => 3)
        (examplePlugin [] [exampleWrenchJob (some exampleLink) 1 2])).calls
      = [Call.lock, Call.LinkSetForce exampleLink ⟨1, 0, 0⟩,
          Call.LinkSetTorque exampleLink ⟨0, 0, 2⟩, Call.unlock]
    ∧ (forceJointSchedulerSlot (fun _ => 3)
        (examplePlugin [exampleForceJob (some exampleJointJ) 1 2] [])).calls
      = [Call.lock, Call.JointSetForce exampleJointJ 0 5, Call.unlock] := by
  constructor
  · have h := (scheduler_applies_effect_iff_in_window 3).1
      (examplePlugin [] [exampleWrenchJob (some exampleLink) 1 2]) [] []
      (exampleWrenchJob (some exampleLink) 1 2) exampleLink rfl rfl
      (by norm_num [exampleWrenchJob])
    rw [h]
    norm_num [examplePlugin, exampleWrenchJob, wrenchBodySchedulerLoop]
  · have h := (scheduler_applies_effect_iff_in_window 3).2
      (examplePlugin [exampleForceJob (some exampleJointJ) 1 2] []) [] []
      (exampleForceJob (some exampleJointJ) 1 2) exampleJointJ rfl rfl
      (by norm_num [exampleForceJob])
    rw [h]
    norm_num [examplePlugin, exampleForceJob, forceJointSchedulerLoop]

/-- C2: after one scheduler pass at simulation time `now`, a job whose target
is live is gone from the registry if and only if `duration ≥ 0` and
`now > start_time + duration`; in every other case (pending, active,
indefinite) it stands unchanged at its place, between what the pass leaves of
the jobs before it and what it leaves of the jobs after it. -/
theorem scheduler_removes_iff_expired (now : Time) :
    (∀ (self : GazeboRosApiPlugin) (pre post : List WrenchBodyJob) (job : WrenchBodyJob)
        (body : Entity),
        self.wrench_body_jobs_ = pre ++ job :: post → job.body = some body →
        (wrenchBodySchedulerSlot (fun _ => now) self).wrench_body_jobs_
          = (wrenchBodySchedulerLoop (fun _ => now) 0 pre).1
            ++ (if job.duration ≥ 0 ∧ now > job.start_time + job.duration then [] else [job])
            ++ (wrenchBodySchedulerLoop (fun _ => now) 0 post).1)
    ∧ (∀ (self : GazeboRosApiPlugin) (pre post : List ForceJointJob) (job : ForceJointJob)
        (joint : Joint),
        self.force_joint_jobs_ = pre ++ job :: post → job.joint = some joint →
        (forceJointSchedulerSlot (fun _ => now) self).force_joint_jobs_
          = (forceJointSchedulerLoop (fun _ => now) 0 pre).1
            ++ (if job.duration ≥ 0 ∧ now > job.start_time + job.duration then [] else [job])
            ++ (forceJointSchedulerLoop (fun _ => now) 0 post).1) := by
  constructor
  · intro self pre post job body hreg hlive
    rw [(wrenchBodySchedulerSlot_live now self pre post job body hreg hlive).1]
    simp only [and_comm]
  · intro self pre post job joint hreg hlive
    rw [(forceJointSchedulerSlot_live now self pre post job joint hreg hlive).1]
    simp only [and_comm]

/-- C2 on registries holding a pending, an active, an indefinite and an
expired job, passes at `now = 4`: only the expired job is gone. -/
theorem scheduler_removes_iff_expired_witness :
    (wrenchBodySchedulerSlot (fun _ => 4)
        (examplePlugin []
          [exampleWrenchJob (some exampleLink) 5 1, exampleWrenchJob (some exampleLink) 2 2,
            exampleWrenchJob (some exampleLink) 1 2,
            exampleWrenchJob (some exampleLink) 0 (-1)])).wrench_body_jobs_
      = [exampleWrenchJob (some exampleLink) 5 1, exampleWrenchJob (some exampleLink) 2 2,
          exampleWrenchJob (some exampleLink) 0 (-1)]
    ∧ (forceJointSchedulerSlot (fun _ => 4)
        (examplePlugin
          [exampleForceJob (some exampleJointJ) 5 1, exampleForceJob (some exampleJointJ) 2 2,
            exampleForceJob (some exampleJointJ) 1 2,
            exampleForceJob (some exampleJointJ) 0 (-1)] [])).force_joint_jobs_
      = [exampleForceJob (some exampleJointJ) 5 1, exampleForceJob (some exampleJointJ) 2 2,
          exampleForceJob (some exampleJointJ) 0 (-1)] := by
  constructor
  · have h := (scheduler_removes_iff_expired 4).1
      (examplePlugin []
        [exampleWrenchJob (some exampleLink) 5 1, exampleWrenchJob (some exampleLink) 2 2,
          exampleWrenchJob (some exampleLink) 1 2,
          exampleWrenchJob (some exampleLink) 0 (-1)])
      [exampleWrenchJob (some exampleLink) 5 1, exampleWrenchJob (some exampleLink) 2 2]
      [exampleWrenchJob (some exampleLink) 0 (-1)]
      (exampleWrenchJob (some exampleLink) 1 2) exampleLink rfl rfl
    rw [h]
    norm_num [exampleWrenchJob, wrenchBodySchedulerLoop, wrenchBodyApply]
  · have h := (scheduler_removes_iff_expired 4).2
      (examplePlugin
        [exampleForceJob (some exampleJointJ) 5 1, exampleForceJob (some exampleJointJ) 2 2,
          exampleForceJob (some exampleJointJ) 1 2,
          exampleForceJob (some exampleJointJ) 0 (-1)] [])
      [exampleForceJob (some exampleJointJ) 5 1, exampleForceJob (some exampleJointJ) 2 2]
      [exampleForceJob (some exampleJointJ) 0 (-1)]
      (exampleForceJob (some exampleJointJ) 1 2) exampleJointJ rfl rfl
    rw [h]
    norm_num [exampleForceJob, forceJointSchedulerLoop, forceJointApply]

/-- What one run of the inner loop of `clearJointForces` returns. -/
theorem clearJointForcesScan_spec (joint_name : String) (jobs : List ForceJointJob) :
    (clearJointForcesScan joint_name jobs = none → ∃ job ∈ jobs, job.joint = none)
    ∧ (∀ jobs', clearJointForcesScan joint_name jobs = some (true, jobs') →
        jobs'.length + 1 = jobs.length
        ∧ jobs'.filter (fun job => decide (job.joint.map Joint.GetName ≠ some joint_name))
          = jobs.filter (fun job => decide (job.joint.map Joint.GetName ≠ some joint_name))
        ∧ ((∀ job ∈ jobs', job.joint ≠ none) ↔ (∀ job ∈ jobs, job.joint ≠ none)))
    ∧ (∀ jobs', clearJointForcesScan joint_name jobs = some (false, jobs') →
        jobs' = jobs ∧ (∀ job ∈ jobs, job.joint ≠ none)
        ∧ jobs.filter (fun job => decide (job.joint.map Joint.GetName ≠ some joint_name))
          = jobs) := by
  induction jobs with
  | nil => simp [clearJointForcesScan]
  | cons job rest ih =>
    obtain ⟨ih1, ih2, ih3⟩ := ih
    cases hj : job.joint with
    | none =>
      simp only [clearJointForcesScan, hj]
      refine ⟨fun _ => ⟨job, List.mem_cons_self _ _, hj⟩, ?_, ?_⟩ <;> intro jobs' h <;> simp at h
    | some joint =>
      by_cases hname : joint.GetName = joint_name
      · simp only [clearJointForcesScan, hj, hname, if_true]
        refine ⟨fun h => by simp at h, ?_, ?_⟩
        · intro jobs' h
          simp only [Option.some.injEq, Prod.mk.injEq, true_and] at h
          subst h
          refine ⟨by simp, ?_, ?_⟩
          · rw [List.filter_cons_of_neg (by simp [hj, hname])]
          · simp [hj]
        · intro jobs' h
          simp at h
      · simp only [clearJointForcesScan, hj, hname, if_false]
        cases hrest : clearJointForcesScan joint_name rest with
        | none =>
          simp only
          refine ⟨fun _ => ?_, ?_, ?_⟩
          · obtain ⟨j, hmem, hnull⟩ := ih1 hrest
            exact ⟨j, List.mem_cons_of_mem _ hmem, hnull⟩
          · intro jobs' h; simp at h
          · intro jobs' h; simp at h
        | some found =>
          obtain ⟨search, rest'⟩ := found
          simp only
          refine ⟨fun h => by simp at h, ?_, ?_⟩
          · intro jobs' h
            simp only [Option.some.injEq, Prod.mk.injEq] at h
            obtain ⟨hs, hjobs⟩ := h
            subst hs hjobs
            obtain ⟨hlen, hfil, hlive⟩ := ih2 rest' hrest
            refine ⟨by simp [hlen], ?_, ?_⟩
            · rw [List.filter_cons_of_pos (by simp [hj, hname]),
                List.filter_cons_of_pos (by simp [hj, hname]), hfil]
            · simp [hj, hlive]
          · intro jobs' h
            simp only [Option.some.injEq, Prod.mk.injEq] at h
            obtain ⟨hs, hjobs⟩ := h
            subst hs hjobs
            obtain ⟨heq, hlive, hfil⟩ := ih3 rest' hrest
            subst heq
            refine ⟨rfl, ?_, ?_⟩
            · simp [hj]; exact hlive
            · rw [List.filter_cons_of_pos (by simp [hj, hname]), hfil]

/-- With more fuel than jobs, the `while` loop of `clearJointForces` returns
the registry without the matching jobs when no joint pointer is null, and
dereferences a null pointer otherwise. -/
theorem clearJointForcesLoop_spec (joint_name : String) (fuel : Nat)
    (jobs : List ForceJointJob) (hfuel : jobs.length < fuel) :
    ((∀ job ∈ jobs, job.joint ≠ none) →
        clearJointForcesLoop joint_name fuel jobs
          = Run.returned
            (jobs.filter (fun job => decide (job.joint.map Joint.GetName ≠ some joint_name))))
    ∧ (¬ (∀ job ∈ jobs, job.joint ≠ none) →
        clearJointForcesLoop joint_name fuel jobs = Run.nullDereference) := by
  induction fuel generalizing jobs with
  | zero => exact absurd hfuel (Nat.not_lt_zero _)
  | succ fuel ih =>
    obtain ⟨h1, h2, h3⟩ := clearJointForcesScan_spec joint_name jobs
    cases hscan : clearJointForcesScan joint_name jobs with
    | none =>
      obtain ⟨j, hmem, hnull⟩ := h1 hscan
      simp only [clearJointForcesLoop, hscan]
      exact ⟨fun hlive => absurd hnull (hlive j hmem), fun _ => trivial⟩
    | some found =>
      obtain ⟨search, jobs'⟩ := found
      cases search with
      | true =>
        obtain ⟨hlen, hfil, hlive⟩ := h2 jobs' hscan
        simp only [clearJointForcesLoop, hscan]
        have ih' := ih jobs' (by omega)
        rw [hfil, hlive] at ih'
        exact ih'
      | false =>
        obtain ⟨heq, hlive, hfil⟩ := h3 jobs' hscan
        subst heq
        simp only [clearJointForcesLoop, hscan]
        exact ⟨fun _ => by rw [hfil], fun hn => absurd hlive hn⟩

/-- What one run of the inner loop of `clearBodyWrenches` returns. -/
theorem clearBodyWrenchesScan_spec (body_name : String) (jobs : List WrenchBodyJob) :
    (clearBodyWrenchesScan body_name jobs = none → ∃ job ∈ jobs, job.body = none)
    ∧ (∀ jobs', clearBodyWrenchesScan body_name jobs = some (true, jobs') →
        jobs'.length + 1 = jobs.length
        ∧ jobs'.filter
            (fun job => decide (job.body.map Entity.GetScopedName ≠ some body_name))
          = jobs.filter
            (fun job => decide (job.body.map Entity.GetScopedName ≠ some body_name))
        ∧ ((∀ job ∈ jobs', job.body ≠ none) ↔ (∀ job ∈ jobs, job.body ≠ none)))
    ∧ (∀ jobs', clearBodyWrenchesScan body_name jobs = some (false, jobs') →
        jobs' = jobs ∧ (∀ job ∈ jobs, job.body ≠ none)
        ∧ jobs.filter (fun job => decide (job.body.map Entity.GetScopedName ≠ some body_name))
          = jobs) := by
  induction jobs with
  | nil => simp [clearBodyWrenchesScan]
  | cons job rest ih =>
    obtain ⟨ih1, ih2, ih3⟩ := ih
    cases hj : job.body with
    | none =>
      simp only [clearBodyWrenchesScan, hj]
      refine ⟨fun _ => ⟨job, List.mem_cons_self _ _, hj⟩, ?_, ?_⟩ <;> intro jobs' h <;> simp at h
    | some body =>
      by_cases hname : body.GetScopedName = body_name
      · simp only [clearBodyWrenchesScan, hj, hname, if_true]
        refine ⟨fun h => by simp at h, ?_, ?_⟩
        · intro jobs' h
          simp only [Option.some.injEq, Prod.mk.injEq, true_and] at h
          subst h
          refine ⟨by simp, ?_, ?_⟩
          · rw [List.filter_cons_of_neg (by simp [hj, hname])]
          · simp [hj]
        · intro jobs' h
          simp at h
      · simp only [clearBodyWrenchesScan, hj, hname, if_false]
        cases hrest : clearBodyWrenchesScan body_name rest with
        | none =>
          simp only
          refine ⟨fun _ => ?_, ?_, ?_⟩
          · obtain ⟨j, hmem, hnull⟩ := ih1 hrest
            exact ⟨j, List.mem_cons_of_mem _ hmem, hnull⟩
          · intro jobs' h; simp at h
          · intro jobs' h; simp at h
        | some found =>
          obtain ⟨search, rest'⟩ := found
          simp only
          refine ⟨fun h => by simp at h, ?_, ?_⟩
          · intro jobs' h
            simp only [Option.some.injEq, Prod.mk.injEq] at h
            obtain ⟨hs, hjobs⟩ := h
            subst hs hjobs
            obtain ⟨hlen, hfil, hlive⟩ := ih2 rest' hrest
            refine ⟨by simp [hlen], ?_, ?_⟩
            · rw [List.filter_cons_of_pos (by simp [hj, hname]),
                List.filter_cons_of_pos (by simp [hj, hname]), hfil]
            · simp [hj, hlive]
          · intro jobs' h
            simp only [Option.some.injEq, Prod.mk.injEq] at h
            obtain ⟨hs, hjobs⟩ := h
            subst hs hjobs
            obtain ⟨heq, hlive, hfil⟩ := ih3 rest' hrest
            subst heq
            refine ⟨rfl, ?_, ?_⟩
            · simp [hj]; exact hlive
            · rw [List.filter_cons_of_pos (by simp [hj, hname]), hfil]

/-- With more fuel than jobs, the `while` loop of `clearBodyWrenches` returns
the registry without the matching jobs when no body pointer is null, and
dereferences a null pointer otherwise. -/
theorem clearBodyWrenchesLoop_spec (body_name : String) (fuel : Nat)
    (jobs : List WrenchBodyJob) (hfuel : jobs.length < fuel) :
    ((∀ job ∈ jobs, job.body ≠ none) →
        clearBodyWrenchesLoop body_name fuel jobs
          = Run.returned
            (jobs.filter
              (fun job => decide (job.body.map Entity.GetScopedName ≠ some body_name))))
    ∧ (¬ (∀ job ∈ jobs, job.body ≠ none) →
        clearBodyWrenchesLoop body_name fuel jobs = Run.nullDereference) := by
  induction fuel generalizing jobs with
  | zero => exact absurd hfuel (Nat.not_lt_zero _)
  | succ fuel ih =>
    obtain ⟨h1, h2, h3⟩ := clearBodyWrenchesScan_spec body_name jobs
    cases hscan : clearBodyWrenchesScan body_name jobs with
    | none =>
      obtain ⟨j, hmem, hnull⟩ := h1 hscan
      simp only [clearBodyWrenchesLoop, hscan]
      exact ⟨fun hlive => absurd hnull (hlive j hmem), fun _ => trivial⟩
    | some found =>
      obtain ⟨search, jobs'⟩ := found
      cases search with
      | true =>
        obtain ⟨hlen, hfil, hlive⟩ := h2 jobs' hscan
        simp only [clearBodyWrenchesLoop, hscan]
        have ih' := ih jobs' (by omega)
        rw [hfil, hlive] at ih'
        exact ih'
      | false =>
        obtain ⟨heq, hlive, hfil⟩ := h3 jobs' hscan
        subst heq
        simp only [clearBodyWrenchesLoop, hscan]
        exact ⟨fun _ => by rw [hfil], fun hn => absurd hlive hn⟩

/-- The registry left by a run of wrench passes depends on the registry only. -/
theorem wrenchBodyPasses_registry_congr (times : List Time) (s1 s2 : GazeboRosApiPlugin)
    (h : s1.wrench_body_jobs_ = s2.wrench_body_jobs_) :
    (wrenchBodyPasses times s1).wrench_body_jobs_
      = (wrenchBodyPasses times s2).wrench_body_jobs_ := by
  induction times generalizing s1 s2 with
  | nil => simpa [wrenchBodyPasses] using h
  | cons now rest ih =>
    simp only [wrenchBodyPasses, List.foldl_cons]
    exact ih _ _ (by simp [wrenchBodySchedulerSlot, h])

/-- The registry left by a run of joint passes depends on the registry only. -/
theorem forceJointPasses_registry_congr (times : List Time) (s1 s2 : GazeboRosApiPlugin)
    (h : s1.force_joint_jobs_ = s2.force_joint_jobs_) :
    (forceJointPasses times s1).force_joint_jobs_
      = (forceJointPasses times s2).force_joint_jobs_ := by
  induction times generalizing s1 s2 with
  | nil => simpa [forceJointPasses] using h
  | cons now rest ih =>
    simp only [forceJointPasses, List.foldl_cons]
    exact ih _ _ (by simp [forceJointSchedulerSlot, h])

/-- An indefinite wrench job on a live body stands at its place after any run
of passes. -/
theorem wrenchBodyPasses_indefinite (times : List Time) (self : GazeboRosApiPlugin)
    (pre post : List WrenchBodyJob) (job : WrenchBodyJob) (body : Entity)
    (hreg : self.wrench_body_jobs_ = pre ++ job :: post) (hlive : job.body = some body)
    (hdur : job.duration < 0) :
    (wrenchBodyPasses times self).wrench_body_jobs_
      = (wrenchBodyPasses times { self with wrench_body_jobs_ := pre }).wrench_body_jobs_
        ++ job
          :: (wrenchBodyPasses times { self with wrench_body_jobs_ := post }).wrench_body_jobs_ := by
  induction times generalizing self pre post with
  | nil => simpa [wrenchBodyPasses] using hreg
  | cons now rest ih =>
    have hstep := (wrenchBodySchedulerSlot_live now self pre post job body hreg hlive).1
    have hkeep : ¬ (now > job.start_time + job.duration ∧ job.duration ≥ 0) :=
      fun h => absurd h.2 (not_le.mpr hdur)
    rw [if_neg hkeep] at hstep
    simp only [List.append_assoc, List.singleton_append] at hstep
    have h := ih (wrenchBodySchedulerSlot (fun _ => now) self) _ _ hstep
    simp only [wrenchBodyPasses, List.foldl_cons] at h ⊢
    rw [h]
    congr 1
    · exact wrenchBodyPasses_registry_congr rest _ _ (by simp [wrenchBodySchedulerSlot])
    · congr 1
      exact wrenchBodyPasses_registry_congr rest _ _ (by simp [wrenchBodySchedulerSlot])

/-- An indefinite joint job on a live joint stands at its place after any run
of passes. -/
theorem forceJointPasses_indefinite (times : List Time) (self : GazeboRosApiPlugin)
    (pre post : List ForceJointJob) (job : ForceJointJob) (joint : Joint)
    (hreg : self.force_joint_jobs_ = pre ++ job :: post) (hlive : job.joint = some joint)
    (hdur : job.duration < 0) :
    (forceJointPasses times self).force_joint_jobs_
      = (forceJointPasses times { self with force_joint_jobs_ := pre }).force_joint_jobs_
        ++ job
          :: (forceJointPasses times { self with force_joint_jobs_ := post }).force_joint_jobs_ := by
  induction times generalizing self pre post with
  | nil => simpa [forceJointPasses] using hreg
  | cons now rest ih =>
    have hstep := (forceJointSchedulerSlot_live now self pre post job joint hreg hlive).1
    have hkeep : ¬ (now > job.start_time + job.duration ∧ job.duration ≥ 0) :=
      fun h => absurd h.2 (not_le.mpr hdur)
    rw [if_neg hkeep] at hstep
    simp only [List.append_assoc, List.singleton_append] at hstep
    have h := ih (forceJointSchedulerSlot (fun _ => now) self) _ _ hstep
    simp only [forceJointPasses, List.foldl_cons] at h ⊢
    rw [h]
    congr 1
    · exact forceJointPasses_registry_congr rest _ _ (by simp [forceJointSchedulerSlot])
    · congr 1
      exact forceJointPasses_registry_congr rest _ _ (by simp [forceJointSchedulerSlot])

/-- What `clearJointForces` returns: with no null joint pointer in the
registry, the state without the matching jobs; with one, a null dereference. -/
theorem clearJointForces_spec (joint_name : String) (self : GazeboRosApiPlugin) :
    ((∀ job ∈ self.force_joint_jobs_, job.joint ≠ none) →
        clearJointForces joint_name self
          = Run.returned { self with
              force_joint_jobs_ := self.force_joint_jobs_.filter
                (fun job => decide (job.joint.map Joint.GetName ≠ some joint_name))
              calls := self.calls ++ [Call.lock, Call.unlock] })
    ∧ (¬ (∀ job ∈ self.force_joint_jobs_, job.joint ≠ none) →
        clearJointForces joint_name self = Run.nullDereference) := by
  obtain ⟨h1, h2⟩ := clearJointForcesLoop_spec joint_name (self.force_joint_jobs_.length + 1)
    self.force_joint_jobs_ (Nat.lt_succ_self _)
  constructor
  · intro hlive
    simp only [clearJointForces, h1 hlive]
  · intro hdead
    simp only [clearJointForces, h2 hdead]

/-- What `clearBodyWrenches` returns: with no null body pointer in the
registry, the state without the matching jobs; with one, a null dereference. -/
theorem clearBodyWrenches_spec (body_name : String) (self : GazeboRosApiPlugin) :
    ((∀ job ∈ self.wrench_body_jobs_, job.body ≠ none) →
        clearBodyWrenches body_name self
          = Run.returned { self with
              wrench_body_jobs_ := self.wrench_body_jobs_.filter
                (fun job => decide (job.body.map Entity.GetScopedName ≠ some body_name))
              calls := self.calls ++ [Call.lock, Call.unlock] })
    ∧ (¬ (∀ job ∈ self.wrench_body_jobs_, job.body ≠ none) →
        clearBodyWrenches body_name self = Run.nullDereference) := by
  obtain ⟨h1, h2⟩ := clearBodyWrenchesLoop_spec body_name (self.wrench_body_jobs_.length + 1)
    self.wrench_body_jobs_ (Nat.lt_succ_self _)
  constructor
  · intro hlive
    simp only [clearBodyWrenches, h1 hlive]
  · intro hdead
    simp only [clearBodyWrenches, h2 hdead]

/-- C3: a job with `duration < 0` whose target is live is applied and kept at
its place by every scheduler pass with `now ≥ start_time`; after any run of
scheduler passes, at whatever times, it still stands at its place between what
the run leaves of the jobs before it and of the jobs after it; and
`clearBodyWrenches` / `clearJointForces` on the name of its target returns a
registry that does not hold it. -/
theorem indefinite_job_outlives_scheduler_passes :
    (∀ (self : GazeboRosApiPlugin) (pre post : List WrenchBodyJob) (job : WrenchBodyJob)
        (body : Entity),
        self.wrench_body_jobs_ = pre ++ job :: post → job.body = some body →
        job.duration < 0 →
        (∀ now : Time, job.start_time ≤ now →
          (wrenchBodySchedulerSlot (fun _ => now) self).wrench_body_jobs_
              = (wrenchBodySchedulerLoop (fun _ => now) 0 pre).1
                ++ job :: (wrenchBodySchedulerLoop (fun _ => now) 0 post).1
            ∧ (wrenchBodySchedulerSlot (fun _ => now) self).calls
              = self.calls ++ [Call.lock] ++ (wrenchBodySchedulerLoop (fun _ => now) 0 pre).2
                ++ [Call.LinkSetForce body job.force, Call.LinkSetTorque body job.torque]
                ++ (wrenchBodySchedulerLoop (fun _ => now) 0 post).2 ++ [Call.unlock])
        ∧ (∀ times : List Time,
          (wrenchBodyPasses times self).wrench_body_jobs_
            = (wrenchBodyPasses times { self with wrench_body_jobs_ := pre }).wrench_body_jobs_
              ++ job :: (wrenchBodyPasses times
                  { self with wrench_body_jobs_ := post }).wrench_body_jobs_)
        ∧ ((∀ other ∈ self.wrench_body_jobs_, other.body ≠ none) →
          ∃ cleared, clearBodyWrenches body.GetScopedName self = Run.returned cleared
            ∧ job ∉ cleared.wrench_body_jobs_))
    ∧ (∀ (self : GazeboRosApiPlugin) (pre post : List ForceJointJob) (job : ForceJointJob)
        (joint : Joint),
        self.force_joint_jobs_ = pre ++ job :: post → job.joint = some joint →
        job.duration < 0 →
        (∀ now : Time, job.start_time ≤ now →
          (forceJointSchedulerSlot (fun _ => now) self).force_joint_jobs_
              = (forceJointSchedulerLoop (fun _ => now) 0 pre).1
                ++ job :: (forceJointSchedulerLoop (fun _ => now) 0 post).1
            ∧ (forceJointSchedulerSlot (fun _ => now) self).calls
              = self.calls ++ [Call.lock] ++ (forceJointSchedulerLoop (fun _ => now) 0 pre).2
                ++ [Call.JointSetForce joint 0 job.force]
                ++ (forceJointSchedulerLoop (fun _ => now) 0 post).2 ++ [Call.unlock])
        ∧ (∀ times : List Time,
          (forceJointPasses times self).force_joint_jobs_
            = (forceJointPasses times { self with force_joint_jobs_ := pre }).force_joint_jobs_
              ++ job :: (forceJointPasses times
                  { self with force_joint_jobs_ := post }).force_joint_jobs_)
        ∧ ((∀ other ∈ self.force_joint_jobs_, other.joint ≠ none) →
          ∃ cleared, clearJointForces joint.GetName self = Run.returned cleared
            ∧ job ∉ cleared.force_joint_jobs_)) := by
  constructor
  · intro self pre post job body hreg hlive hdur
    refine ⟨?_, ?_, ?_⟩
    · intro now hnow
      obtain ⟨h1, h2⟩ := wrenchBodySchedulerSlot_live now self pre post job body hreg hlive
      have hkeep : ¬ (now > job.start_time + job.duration ∧ job.duration ≥ 0) :=
        fun h => absurd h.2 (not_le.mpr hdur)
      have happ : now ≥ job.start_time
          ∧ (now ≤ job.start_time + job.duration ∨ job.duration < 0) :=
        ⟨hnow, Or.inr hdur⟩
      rw [if_neg hkeep] at h1
      rw [if_pos happ] at h2
      exact ⟨by simpa using h1, h2⟩
    · intro times
      exact wrenchBodyPasses_indefinite times self pre post job body hreg hlive hdur
    · intro hall
      refine ⟨_, (clearBodyWrenches_spec body.GetScopedName self).1 hall, ?_⟩
      simp [List.mem_filter, hlive]
  · intro self pre post job joint hreg hlive hdur
    refine ⟨?_, ?_, ?_⟩
    · intro now hnow
      obtain ⟨h1, h2⟩ := forceJointSchedulerSlot_live now self pre post job joint hreg hlive
      have hkeep : ¬ (now > job.start_time + job.duration ∧ job.duration ≥ 0) :=
        fun h => absurd h.2 (not_le.mpr hdur)
      have happ : now ≥ job.start_time
          ∧ (now ≤ job.start_time + job.duration ∨ job.duration < 0) :=
        ⟨hnow, Or.inr hdur⟩
      rw [if_neg hkeep] at h1
      rw [if_pos happ] at h2
      exact ⟨by simpa using h1, h2⟩
    · intro times
      exact forceJointPasses_indefinite times self pre post job joint hreg hlive hdur
    · intro hall
      refine ⟨_, (clearJointForces_spec joint.GetName self).1 hall, ?_⟩
      simp [List.mem_filter, hlive]

/-- C3 on indefinite jobs started at time 0: after passes at times 1, 10 and
100 the registries still hold them. -/
theorem indefinite_job_outlives_scheduler_passes_witness :
    (wrenchBodyPasses [1, 10, 100]
        (examplePlugin [] [exampleWrenchJob (some exampleLink) 0 (-1)])).wrench_body_jobs_
      = [exampleWrenchJob (some exampleLink) 0 (-1)]
    ∧ (forceJointPasses [1, 10, 100]
        (examplePlugin [exampleForceJob (some exampleJointJ) 0 (-1)] [])).force_joint_jobs_
      = [exampleForceJob (some exampleJointJ) 0 (-1)] := by
  constructor
  · have h := (indefinite_job_outlives_scheduler_passes.1
      (examplePlugin [] [exampleWrenchJob (some exampleLink) 0 (-1)]) [] []
      (exampleWrenchJob (some exampleLink) 0 (-1)) exampleLink rfl rfl
      (by norm_num [exampleWrenchJob])).2.1 [1, 10, 100]
    rw [h]
    simp [wrenchBodyPasses, wrenchBodySchedulerSlot, wrenchBodySchedulerLoop]
  · have h := (indefinite_job_outlives_scheduler_passes.2
      (examplePlugin [exampleForceJob (some exampleJointJ) 0 (-1)] []) [] []
      (exampleForceJob (some exampleJointJ) 0 (-1)) exampleJointJ rfl rfl
      (by norm_num [exampleForceJob])).2.1 [1, 10, 100]
    rw [h]
    simp [forceJointPasses, forceJointSchedulerSlot, forceJointSchedulerLoop]

/-- C4, the claim as worded fails: a wrench job and a joint job with a null
target, `start_time = 5` and `duration = 2`, are still in the registry after a
pass at `now = 3` (unchanged) and after a pass at `now = 5` (with `duration`
set to 0). -/
theorem null_target_job_survives_pass_counterexample :
    (wrenchBodySchedulerSlot (fun _ => 3)
        (examplePlugin [] [exampleWrenchJob none 5 2])).wrench_body_jobs_
      = [exampleWrenchJob none 5 2]
    ∧ (wrenchBodySchedulerSlot (fun _ => 5)
        (examplePlugin [] [exampleWrenchJob none 5 2])).wrench_body_jobs_
      = [exampleWrenchJob none 5 0]
    ∧ (forceJointSchedulerSlot (fun _ => 3)
        (examplePlugin [exampleForceJob none 5 2] [])).force_joint_jobs_
      = [exampleForceJob none 5 2]
    ∧ (forceJointSchedulerSlot (fun _ => 5)
        (examplePlugin [exampleForceJob none 5 2] [])).force_joint_jobs_
      = [exampleForceJob none 5 0] := by
  refine ⟨?_, ?_, ?_, ?_⟩ <;>
    norm_num [wrenchBodySchedulerSlot, wrenchBodySchedulerLoop, wrenchBodyApply,
      forceJointSchedulerSlot, forceJointSchedulerLoop, forceJointApply, examplePlugin,
      exampleWrenchJob, exampleForceJob]

/-- C4 as amended: for a job whose target pointer is null, a scheduler pass at
`now > start_time` removes the job; a pass at `now = start_time` keeps it with
`duration` set to 0; a pass at `now < start_time` keeps it unchanged; in all
three cases the pass makes no call for the job. -/
theorem null_target_job_removed_once_started (now : Time) :
    (∀ (self : GazeboRosApiPlugin) (pre post : List WrenchBodyJob) (job : WrenchBodyJob),
        self.wrench_body_jobs_ = pre ++ job :: post → job.body = none →
        (wrenchBodySchedulerSlot (fun _ => now) self).wrench_body_jobs_
            = (wrenchBodySchedulerLoop (fun _ => now) 0 pre).1
              ++ (if now > job.start_time then []
                  else if now = job.start_time then [{ job with duration := 0 }] else [job])
              ++ (wrenchBodySchedulerLoop (fun _ => now) 0 post).1
          ∧ (wrenchBodySchedulerSlot (fun _ => now) self).calls
            = self.calls ++ [Call.lock] ++ (wrenchBodySchedulerLoop (fun _ => now) 0 pre).2
              ++ (wrenchBodySchedulerLoop (fun _ => now) 0 post).2 ++ [Call.unlock])
    ∧ (∀ (self : GazeboRosApiPlugin) (pre post : List ForceJointJob) (job : ForceJointJob),
        self.force_joint_jobs_ = pre ++ job :: post → job.joint = none →
        (forceJointSchedulerSlot (fun _ => now) self).force_joint_jobs_
            = (forceJointSchedulerLoop (fun _ => now) 0 pre).1
              ++ (if now > job.start_time then []
                  else if now = job.start_time then [{ job with duration := 0 }] else [job])
              ++ (forceJointSchedulerLoop (fun _ => now) 0 post).1
          ∧ (forceJointSchedulerSlot (fun _ => now) self).calls
            = self.calls ++ [Call.lock] ++ (forceJointSchedulerLoop (fun _ => now) 0 pre).2
              ++ (forceJointSchedulerLoop (fun _ => now) 0 post).2 ++ [Call.unlock]) := by
  constructor
  · intro self pre post job hreg hnull
    simp only [wrenchBodySchedulerSlot, hreg]
    rw [wrenchBodySchedulerLoop_append, wrenchBodySchedulerLoop_cons now job post,
      wrenchBodySchedulerLoop_null now job hnull]
    simp
  · intro self pre post job hreg hnull
    simp only [forceJointSchedulerSlot, hreg]
    rw [forceJointSchedulerLoop_append, forceJointSchedulerLoop_cons now job post,
      forceJointSchedulerLoop_null now job hnull]
    simp

/-- C4 as amended, at `now = 6`: null-target jobs with `start_time = 5` are
removed, and the log holds nothing but the lock and the unlock. -/
theorem null_target_job_removed_once_started_witness :
    ((wrenchBodySchedulerSlot (fun _ => 6)
          (examplePlugin [] [exampleWrenchJob none 5 2])).wrench_body_jobs_ = []
      ∧ (wrenchBodySchedulerSlot (fun _ => 6)
          (examplePlugin [] [exampleWrenchJob none 5 2])).calls = [Call.lock, Call.unlock])
    ∧ ((forceJointSchedulerSlot (fun _ => 6)
          (examplePlugin [exampleForceJob none 5 (-1)] [])).force_joint_jobs_ = []
      ∧ (forceJointSchedulerSlot (fun _ => 6)
          (examplePlugin [exampleForceJob none 5 (-1)] [])).calls
        = [Call.lock, Call.unlock]) := by
  constructor
  · have h := (null_target_job_removed_once_started 6).1
      (examplePlugin [] [exampleWrenchJob none 5 2]) [] [] (exampleWrenchJob none 5 2) rfl rfl
    rw [h.1, h.2]
    norm_num [examplePlugin, exampleWrenchJob, wrenchBodySchedulerLoop]
  · have h := (null_target_job_removed_once_started 6).2
      (examplePlugin [exampleForceJob none 5 (-1)] []) [] [] (exampleForceJob none 5 (-1))
      rfl rfl
    rw [h.1, h.2]
    norm_num [examplePlugin, exampleForceJob, forceJointSchedulerLoop]

/-- C5: when `clearJointForces(n)` returns, the joint registry is the previous
one with exactly the jobs whose joint is named `n` removed (the others stay,
once each, in their order), and the wrench registry is untouched; and it does
return whenever no job of the registry has a null joint pointer. -/
theorem clearJointForces_removes_exactly_named_jobs (joint_name : String)
    (self : GazeboRosApiPlugin) :
    ((∀ job ∈ self.force_joint_jobs_, job.joint ≠ none) →
        clearJointForces joint_name self
          = Run.returned { self with
              force_joint_jobs_ := self.force_joint_jobs_.filter
                (fun job => decide (job.joint.map Joint.GetName ≠ some joint_name))
              calls := self.calls ++ [Call.lock, Call.unlock] })
    ∧ (∀ cleared, clearJointForces joint_name self = Run.returned cleared →
        cleared.force_joint_jobs_
            = self.force_joint_jobs_.filter
              (fun job => decide (job.joint.map Joint.GetName ≠ some joint_name))
          ∧ (∀ job ∈ cleared.force_joint_jobs_, job.joint.map Joint.GetName ≠ some joint_name)
          ∧ cleared.wrench_body_jobs_ = self.wrench_body_jobs_) := by
  obtain ⟨h1, h2⟩ := clearJointForces_spec joint_name self
  refine ⟨h1, ?_⟩
  intro cleared hret
  by_cases hlive : ∀ job ∈ self.force_joint_jobs_, job.joint ≠ none
  · rw [h1 hlive] at hret
    injection hret with hret
    subst hret
    refine ⟨rfl, ?_, rfl⟩
    intro job hjob
    have := (List.mem_filter.mp hjob).2
    simpa using this
  · rw [h2 hlive] at hret
    cases hret

/-- C5 on the example of the claim: two jobs on `j` around one on `k`;
clearing `j` leaves the job on `k` alone. -/
theorem clearJointForces_removes_exactly_named_jobs_witness :
    ∃ cleared,
      clearJointForces "j"
          (examplePlugin
            [exampleForceJob (some exampleJointJ) 0 1, exampleForceJob (some exampleJointK) 0 2,
              exampleForceJob (some exampleJointJ) 3 (-1)] [])
        = Run.returned cleared
      ∧ cleared.force_joint_jobs_ = [exampleForceJob (some exampleJointK) 0 2] := by
  refine ⟨_, (clearJointForces_removes_exactly_named_jobs "j" _).1 ?_, ?_⟩
  · simp [examplePlugin, exampleForceJob]
  · simp [examplePlugin, exampleForceJob, exampleJointJ, exampleJointK]

/-- The sum of two vectors, component by component. -/
theorem Vector3d.add_eq (a b : Vector3d) :
    a + b = ⟨a.X + b.X, a.Y + b.Y, a.Z + b.Z⟩ := rfl

/-- C6, the claim as worded fails: with an empty reference frame, force
`(1, 0, 0)`, zero torque and reference point `(0, 1, 0)`, the job that is
inserted carries the force of the request but the torque `(0, 0, -1)`. -/
theorem applyBodyWrench_empty_frame_torque_counterexample :
    ∃ job,
      (applyBodyWrench exampleMath (fun _ => 0) (examplePlugin [] [])
          exampleWrenchRequest).1.wrench_body_jobs_ = [job]
      ∧ job.force = exampleWrenchRequest.wrench.force
      ∧ job.torque = ⟨0, 0, -1⟩
      ∧ job.torque ≠ exampleWrenchRequest.wrench.torque := by
  refine ⟨⟨some exampleLink, ⟨1, 0, 0⟩, ⟨0, 0, -1⟩, 0, 1⟩, ?_, ?_, ?_, ?_⟩
  · simp [applyBodyWrench, applyBodyWrenchSchedule, dynamicPointerCastLink, examplePlugin,
      exampleWorld, exampleLink, exampleWrenchRequest, Vector3d.Cross, Vector3d.add_eq]
  · rfl
  · rfl
  · simp [exampleWrenchRequest]

/-- C6 as amended: when the body resolves, the reference frame is the empty
string and the empty string names no entity, the job that is inserted carries
the force of the request and the torque of the request plus
`reference_point × force`; with a zero reference point that is the torque of
the request. -/
theorem applyBodyWrench_empty_frame_keeps_force_shifts_torque (math : IgnitionMath)
    (SimTime : Nat → Time) (self : GazeboRosApiPlugin) (req : ApplyBodyWrenchRequest)
    (body : Entity)
    (hbody : dynamicPointerCastLink (self.world_.EntityByName req.body_name) = some body)
    (hframe : req.reference_frame = "")
    (hnone : self.world_.EntityByName "" = none) :
    ∃ job,
      (applyBodyWrench math SimTime self req).1.wrench_body_jobs_
          = self.wrench_body_jobs_ ++ [job]
      ∧ (applyBodyWrench math SimTime self req).2.success = true
      ∧ job.body = some body
      ∧ job.force = req.wrench.force
      ∧ job.torque = req.wrench.torque + req.reference_point.Cross req.wrench.force
      ∧ (req.reference_point = ⟨0, 0, 0⟩ → job.torque = req.wrench.torque) := by
  refine ⟨⟨some body, req.wrench.force,
    req.wrench.torque + req.reference_point.Cross req.wrench.force,
    if req.start_time < SimTime 0 then SimTime 1 else req.start_time, req.duration⟩,
    ?_, ?_, rfl, rfl, rfl, ?_⟩
  · simp [applyBodyWrench, applyBodyWrenchSchedule, hbody, hframe, hnone]
  · simp [applyBodyWrench, applyBodyWrenchSchedule, hbody, hframe, hnone]
  · intro hpoint
    simp [hpoint, Vector3d.add_eq, Vector3d.Cross]

/-- C6 as amended, on the example world: a request with a zero reference
point and an empty frame gets its force and torque into the job as they are. -/
theorem applyBodyWrench_empty_frame_keeps_force_shifts_torque_witness :
    ∃ job,
      (applyBodyWrench exampleMath (fun _ => 0) (examplePlugin [] [])
          { exampleWrenchRequest with
            reference_point := ⟨0, 0, 0⟩ }).1.wrench_body_jobs_ = [job]
      ∧ job.force = ⟨1, 0, 0⟩ ∧ job.torque = ⟨0, 0, 0⟩ := by
  obtain ⟨job, h1, _, _, h4, _, h6⟩ :=
    applyBodyWrench_empty_frame_keeps_force_shifts_torque exampleMath (fun _ => 0)
      (examplePlugin [] []) { exampleWrenchRequest with reference_point := ⟨0, 0, 0⟩ }
      exampleLink (by simp [dynamicPointerCastLink, examplePlugin, exampleWorld,
        exampleWrenchRequest, exampleLink])
      rfl (by simp [examplePlugin, exampleWorld])
  exact ⟨job, h1, h4, h6 rfl⟩

/-- C7: when `body_name` does not resolve to a link, whatever the reference
frame, `applyBodyWrench` answers `success = false` and leaves the plugin state
as it was: both registries keep their size and contents. -/
theorem applyBodyWrench_body_not_found (math : IgnitionMath) (SimTime : Nat → Time)
    (self : GazeboRosApiPlugin) (req : ApplyBodyWrenchRequest)
    (hbody : dynamicPointerCastLink (self.world_.EntityByName req.body_name) = none) :
    (applyBodyWrench math SimTime self req).2.success = false
    ∧ (applyBodyWrench math SimTime self req).1.wrench_body_jobs_ = self.wrench_body_jobs_
    ∧ (applyBodyWrench math SimTime self req).1.wrench_body_jobs_.length
      = self.wrench_body_jobs_.length
    ∧ (applyBodyWrench math SimTime self req).1.force_joint_jobs_ = self.force_joint_jobs_
    ∧ (applyBodyWrench math SimTime self req).1 = self := by
  simp [applyBodyWrench, hbody]

/-- C7 on the example world: a request on a body that does not exist, with a
reference frame that does, leaves a registry of one job as it was. -/
theorem applyBodyWrench_body_not_found_witness :
    (applyBodyWrench exampleMath (fun _ => 0)
        (examplePlugin [] [exampleWrenchJob (some exampleLink) 0 1])
        exampleMissingBodyRequest).2.success = false
    ∧ (applyBodyWrench exampleMath (fun _ => 0)
        (examplePlugin [] [exampleWrenchJob (some exampleLink) 0 1])
        exampleMissingBodyRequest).1.wrench_body_jobs_
      = [exampleWrenchJob (some exampleLink) 0 1] := by
  have h := applyBodyWrench_body_not_found exampleMath (fun _ => 0)
    (examplePlugin [] [exampleWrenchJob (some exampleLink) 0 1]) exampleMissingBodyRequest
    (by simp [dynamicPointerCastLink, examplePlugin, exampleWorld, exampleMissingBodyRequest])
  exact ⟨h.1, h.2.1⟩

/-- C8: when `joint_names` and `joint_positions` differ in length,
`setModelConfiguration` answers `success = false` and leaves the plugin state
as it was: no call is logged (no `SetPaused`, no `SetJointPositions`) and the
pause flag of the world is untouched. -/
theorem setModelConfiguration_length_mismatch (self : GazeboRosApiPlugin)
    (req : SetModelConfigurationRequest)
    (hlen : req.joint_names.length ≠ req.joint_positions.length) :
    (setModelConfiguration self req).2.success = false
    ∧ (setModelConfiguration self req).1.calls = self.calls
    ∧ (setModelConfiguration self req).1.world_.IsPaused = self.world_.IsPaused
    ∧ (setModelConfiguration self req).1 = self := by
  unfold setModelConfiguration
  cases self.world_.ModelByName req.model_name with
  | none => simp
  | some gazebo_model => simp [hlen]

/-- C8 on the example of the claim: names `["a", "b"]`, positions `[1.0]`. -/
theorem setModelConfiguration_length_mismatch_witness :
    (setModelConfiguration (examplePlugin [] []) exampleMismatchedRequest).2.success = false
    ∧ (setModelConfiguration (examplePlugin [] []) exampleMismatchedRequest).1.calls = []
    ∧ (setModelConfiguration (examplePlugin [] []) exampleMismatchedRequest).1.world_.IsPaused
      = false := by
  have h := setModelConfiguration_length_mismatch (examplePlugin [] [])
    exampleMismatchedRequest (by simp [exampleMismatchedRequest])
  exact ⟨h.1, h.2.1, h.2.2.1⟩

/-- One `publishSimTime` step with a clock that does not move. -/
theorem publishSimTime_const (now : Time) (self : GazeboRosApiPlugin) :
    publishSimTime (fun _ => now) self
      = if self.pub_clock_frequency_ > 0
            ∧ now - self.last_pub_clock_time_ < 1 / self.pub_clock_frequency_ then
          self
        else
          { self with
            last_pub_clock_time_ := now
            calls := self.calls ++ [Call.publish now] } := rfl

/-- The publications of a run of `publishSimTime` steps at a positive
frequency: each is at least one period after the last publication before the
run, and any two are at least one period apart. -/
theorem publishSimTimeSteps_spacing (times : List Time) (self : GazeboRosApiPlugin)
    (hf : 0 < self.pub_clock_frequency_) :
    ∃ new, (publishSimTimeSteps times self).calls = self.calls ++ new
      ∧ (publishedClocks new).Pairwise
          (fun earlier later => later - earlier ≥ 1 / self.pub_clock_frequency_)
      ∧ ∀ t ∈ publishedClocks new,
          t - self.last_pub_clock_time_ ≥ 1 / self.pub_clock_frequency_ := by
  induction times generalizing self with
  | nil => exact ⟨[], by simp [publishSimTimeSteps], by simp [publishedClocks],
      by simp [publishedClocks]⟩
  | cons now rest ih =>
    have hstep : publishSimTimeSteps (now :: rest) self
        = publishSimTimeSteps rest (publishSimTime (fun _ => now) self) := by
      simp [publishSimTimeSteps]
    rw [hstep, publishSimTime_const]
    by_cases hskip : self.pub_clock_frequency_ > 0
        ∧ now - self.last_pub_clock_time_ < 1 / self.pub_clock_frequency_
    · rw [if_pos hskip]
      exact ih self hf
    · rw [if_neg hskip]
      have hnow : now - self.last_pub_clock_time_ ≥ 1 / self.pub_clock_frequency_ := by
        by_contra hlt
        exact hskip ⟨hf, not_le.mp hlt⟩
      have hperiod : 0 < 1 / self.pub_clock_frequency_ := one_div_pos.mpr hf
      obtain ⟨new, hcalls, hpair, hfirst⟩ := ih
        { self with
          last_pub_clock_time_ := now
          calls := self.calls ++ [Call.publish now] } hf
      refine ⟨Call.publish now :: new, ?_, ?_, ?_⟩
      · rw [hcalls]; simp
      · simp only [publishedClocks, List.pairwise_cons]
        exact ⟨hfirst, hpair⟩
      · intro t ht
        simp only [publishedClocks, List.mem_cons] at ht
        rcases ht with ht | ht
        · rw [ht]; exact hnow
        · have := hfirst t ht
          simp only at this
          linarith

/-- C9: at a frequency `f > 0`, whatever the simulation times of a run of
`publishSimTime` steps and however many steps are taken, any two clock values
published during the run are at least `1/f` apart, and each of them is at
least `1/f` after the `last_pub_clock_time_` the run started from. -/
theorem clock_publications_one_period_apart (times : List Time)
    (self : GazeboRosApiPlugin) (hf : 0 < self.pub_clock_frequency_) :
    (publishedClocks ((publishSimTimeSteps times self).calls.drop self.calls.length)).Pairwise
        (fun earlier later => later - earlier ≥ 1 / self.pub_clock_frequency_)
    ∧ ∀ t ∈ publishedClocks ((publishSimTimeSteps times self).calls.drop self.calls.length),
        t - self.last_pub_clock_time_ ≥ 1 / self.pub_clock_frequency_ := by
  obtain ⟨new, hcalls, hpair, hfirst⟩ := publishSimTimeSteps_spacing times self hf
  rw [hcalls, List.drop_left]
  exact ⟨hpair, hfirst⟩

/-- C9 at frequency 2, last publication at time 0: steps every 0.1 or 0.2
simulated seconds from 0.1 to 1.6 publish at 0.5, 1.0 and 1.5 only, and the
publications are at least 0.5 apart. -/
theorem clock_publications_one_period_apart_witness :
    publishedClocks
        ((publishSimTimeSteps [1 / 10, 3 / 10, 1 / 2, 3 / 5, 4 / 5, 1, 6 / 5, 7 / 5, 3 / 2, 8 / 5]
          (examplePlugin [] [])).calls.drop (examplePlugin [] []).calls.length)
      = [1 / 2, 1, 3 / 2]
    ∧ (publishedClocks
        ((publishSimTimeSteps [1 / 10, 3 / 10, 1 / 2, 3 / 5, 4 / 5, 1, 6 / 5, 7 / 5, 3 / 2, 8 / 5]
          (examplePlugin [] [])).calls.drop (examplePlugin [] []).calls.length)).Pairwise
        (fun earlier later => later - earlier ≥ 1 / (2 : ℚ)) := by
  constructor
  · norm_num [publishSimTimeSteps, publishSimTime, examplePlugin, publishedClocks]
  · exact (clock_publications_one_period_apart
      [1 / 10, 3 / 10, 1 / 2, 3 / 5, 4 / 5, 1, 6 / 5, 7 / 5, 3 / 2, 8 / 5]
      (examplePlugin [] []) (by norm_num [examplePlugin])).1

/-- C10: one `publishSimTime` step at simulation time `now` publishes if and
only if the frequency is `≤ 0` or `now - last_pub_clock_time_ ≥ 1/frequency`;
when it publishes, the one clock value it emits is `now` and
`last_pub_clock_time_` becomes `now`; when it does not, the state, its
`last_pub_clock_time_` included, is unchanged. -/
theorem publishSimTime_publishes_iff_period_elapsed (now : Time)
    (self : GazeboRosApiPlugin) :
    publishSimTime (fun _ => now) self
      = if self.pub_clock_frequency_ ≤ 0
            ∨ now - self.last_pub_clock_time_ ≥ 1 / self.pub_clock_frequency_ then
          { self with
            last_pub_clock_time_ := now
            calls := self.calls ++ [Call.publish now] }
        else self := by
  rw [publishSimTime_const]
  by_cases hskip : self.pub_clock_frequency_ > 0
      ∧ now - self.last_pub_clock_time_ < 1 / self.pub_clock_frequency_
  · have hno : ¬ (self.pub_clock_frequency_ ≤ 0
        ∨ now - self.last_pub_clock_time_ ≥ 1 / self.pub_clock_frequency_) := by
      rintro (h | h)
      · exact absurd hskip.1 (not_lt.mpr h)
      · exact absurd hskip.2 (not_lt.mpr h)
    rw [if_pos hskip, if_neg hno]
  · have hyes : self.pub_clock_frequency_ ≤ 0
        ∨ now - self.last_pub_clock_time_ ≥ 1 / self.pub_clock_frequency_ := by
      by_contra hno
      rw [not_or] at hno
      exact hskip ⟨not_le.mp hno.1, not_le.mp hno.2⟩
    rw [if_neg hskip, if_pos hyes]

/-- The two exits of `applyJointEffort`. -/
theorem applyJointEffort_cases (SimTime : Nat → Time) (self : GazeboRosApiPlugin)
    (req : ApplyJointEffortRequest) :
    (∀ joint, applyJointEffortFind req.joint_name self.world_.models = some joint →
        applyJointEffort SimTime self req
          = ({ self with
                force_joint_jobs_ := self.force_joint_jobs_ ++
                  [{ joint := some joint, force := req.effort,
                     start_time :=
                       if req.start_time < SimTime 0 then SimTime 1 else req.start_time,
                     duration := req.duration }]
                calls := self.calls ++ [Call.lock, Call.unlock] },
              ⟨true, "ApplyJointEffort: effort set"⟩))
    ∧ (applyJointEffortFind req.joint_name self.world_.models = none →
        applyJointEffort SimTime self req
          = (self, ⟨false, "ApplyJointEffort: joint not found"⟩)) := by
  constructor
  · intro joint h
    simp only [applyJointEffort, h]
  · intro h
    simp only [applyJointEffort, h]

/-- The exits of `applyBodyWrench` once the body resolves. -/
theorem applyBodyWrench_cases (math : IgnitionMath) (SimTime : Nat → Time)
    (self : GazeboRosApiPlugin) (req : ApplyBodyWrenchRequest) (body : Entity)
    (hbody : dynamicPointerCastLink (self.world_.EntityByName req.body_name) = some body) :
    (∀ frame, self.world_.EntityByName req.reference_frame = some frame →
        applyBodyWrench math SimTime self req
          = applyBodyWrenchSchedule SimTime self req body
              (transformWrench math req.wrench.force
                (req.wrench.torque + req.reference_point.Cross req.wrench.force)
                (math.PoseSub frame.WorldPose body.WorldPose)).1
              (transformWrench math req.wrench.force
                (req.wrench.torque + req.reference_point.Cross req.wrench.force)
                (math.PoseSub frame.WorldPose body.WorldPose)).2)
    ∧ (self.world_.EntityByName req.reference_frame = none →
        (req.reference_frame = "" ∨ req.reference_frame = "world"
          ∨ req.reference_frame = "map" ∨ req.reference_frame = "/map") →
        applyBodyWrench math SimTime self req
          = applyBodyWrenchSchedule SimTime self req body req.wrench.force
              (req.wrench.torque + req.reference_point.Cross req.wrench.force))
    ∧ (self.world_.EntityByName req.reference_frame = none →
        ¬ (req.reference_frame = "" ∨ req.reference_frame = "world"
          ∨ req.reference_frame = "map" ∨ req.reference_frame = "/map") →
        applyBodyWrench math SimTime self req
          = (self, ⟨false, "ApplyBodyWrench: reference_frame not found"⟩)) := by
  refine ⟨?_, ?_, ?_⟩
  · intro frame hframe
    simp only [applyBodyWrench, hbody, hframe]
  · intro hframe hname
    simp only [applyBodyWrench, hbody, hframe, if_pos hname]
  · intro hframe hname
    simp only [applyBodyWrench, hbody, hframe, if_neg hname]

/-- What `applyBodyWrenchSchedule` returns at a clock that does not move. -/
theorem applyBodyWrenchSchedule_const (now : Time) (self : GazeboRosApiPlugin)
    (req : ApplyBodyWrenchRequest) (body : Entity) (target_force target_torque : Vector3d) :
    applyBodyWrenchSchedule (fun _ => now) self req body target_force target_torque
      = ({ self with
            wrench_body_jobs_ := self.wrench_body_jobs_ ++
              [{ body := some body, force := target_force, torque := target_torque,
                 start_time := max req.start_time now, duration := req.duration }]
            calls := self.calls ++ [Call.lock, Call.unlock] },
          ⟨true, ""⟩) := by
  have hmax : (if req.start_time < now then now else req.start_time)
      = max req.start_time now := by
    by_cases h : req.start_time < now
    · rw [if_pos h, max_eq_right (le_of_lt h)]
    · rw [if_neg h, max_eq_left (not_lt.mp h)]
  simp only [applyBodyWrenchSchedule, hmax]

/-- An accepted `applyBodyWrench` request appends one job, started at
`max req.start_time now`. -/
theorem applyBodyWrench_accepted (math : IgnitionMath) (now : Time)
    (self : GazeboRosApiPlugin) (req : ApplyBodyWrenchRequest)
    (hok : (applyBodyWrench math (fun _ => now) self req).2.success = true) :
    ∃ job, (applyBodyWrench math (fun _ => now) self req).1.wrench_body_jobs_
          = self.wrench_body_jobs_ ++ [job]
      ∧ (applyBodyWrench math (fun _ => now) self req).1.force_joint_jobs_
          = self.force_joint_jobs_
      ∧ job.start_time = max req.start_time now
      ∧ job.duration = req.duration := by
  cases hbody : dynamicPointerCastLink (self.world_.EntityByName req.body_name) with
  | none =>
    simp [applyBodyWrench, hbody] at hok
  | some body =>
    obtain ⟨h1, h2, h3⟩ := applyBodyWrench_cases math (fun _ => now) self req body hbody
    cases hframe : self.world_.EntityByName req.reference_frame with
    | some frame =>
      rw [h1 frame hframe, applyBodyWrenchSchedule_const]
      exact ⟨_, rfl, rfl, rfl, rfl⟩
    | none =>
      by_cases hname : req.reference_frame = "" ∨ req.reference_frame = "world"
          ∨ req.reference_frame = "map" ∨ req.reference_frame = "/map"
      · rw [h2 hframe hname, applyBodyWrenchSchedule_const]
        exact ⟨_, rfl, rfl, rfl, rfl⟩
      · rw [h3 hframe hname] at hok
        simp at hok

/-- C11: an accepted `applyJointEffort` or `applyBodyWrench` request made at
simulation time `now` adds one job whose `start_time` is
`max (request start_time) now`, hence not earlier than `now`. -/
theorem accepted_job_start_time_clamped (now : Time) (self : GazeboRosApiPlugin) :
    (∀ req : ApplyJointEffortRequest,
        (applyJointEffort (fun _ => now) self req).2.success = true →
        ∃ job, (applyJointEffort (fun _ => now) self req).1.force_joint_jobs_
              = self.force_joint_jobs_ ++ [job]
          ∧ job.start_time = max req.start_time now ∧ now ≤ job.start_time)
    ∧ (∀ (math : IgnitionMath) (req : ApplyBodyWrenchRequest),
        (applyBodyWrench math (fun _ => now) self req).2.success = true →
        ∃ job, (applyBodyWrench math (fun _ => now) self req).1.wrench_body_jobs_
              = self.wrench_body_jobs_ ++ [job]
          ∧ job.start_time = max req.start_time now ∧ now ≤ job.start_time) := by
  constructor
  · intro req hok
    obtain ⟨h1, h2⟩ := applyJointEffort_cases (fun _ => now) self req
    cases hfind : applyJointEffortFind req.joint_name self.world_.models with
    | none =>
      rw [h2 hfind] at hok
      simp at hok
    | some joint =>
      rw [h1 joint hfind]
      refine ⟨_, rfl, ?_, ?_⟩
      · show (if req.start_time < now then now else req.start_time) = max req.start_time now
        by_cases h : req.start_time < now
        · rw [if_pos h, max_eq_right (le_of_lt h)]
        · rw [if_neg h, max_eq_left (not_lt.mp h)]
      · show now ≤ (if req.start_time < now then now else req.start_time)
        by_cases h : req.start_time < now
        · rw [if_pos h]
        · rw [if_neg h]; exact not_lt.mp h
  · intro math req hok
    obtain ⟨job, hreg, _, hstart, _⟩ := applyBodyWrench_accepted math now self req hok
    exact ⟨job, hreg, hstart, by rw [hstart]; exact le_max_right _ _⟩

/-- C11 on the example world at `now = 3`: requests to start at time 1 and at
time 0 give jobs that start at time 3. -/
theorem accepted_job_start_time_clamped_witness :
    (∃ job, (applyJointEffort (fun _ => 3) (examplePlugin [] [])
            exampleEffortRequest).1.force_joint_jobs_ = [job]
        ∧ job.start_time = 3)
    ∧ (∃ job, (applyBodyWrench exampleMath (fun _ => 3) (examplePlugin [] [])
            exampleWrenchRequest).1.wrench_body_jobs_ = [job]
        ∧ job.start_time = 3) := by
  have h := accepted_job_start_time_clamped 3 (examplePlugin [] [])
  constructor
  · obtain ⟨job, hreg, hstart, _⟩ := h.1 exampleEffortRequest
      (by simp [applyJointEffort, applyJointEffortFind, examplePlugin, exampleWorld,
        exampleModel, exampleEffortRequest])
    refine ⟨job, hreg, ?_⟩
    rw [hstart]
    norm_num [exampleEffortRequest]
  · obtain ⟨job, hreg, hstart, _⟩ := h.2 exampleMath exampleWrenchRequest
      (by simp [applyBodyWrench, applyBodyWrenchSchedule, dynamicPointerCastLink,
        examplePlugin, exampleWorld, exampleLink, exampleWrenchRequest])
    refine ⟨job, hreg, ?_⟩
    rw [hstart]
    norm_num [exampleWrenchRequest]

/-- The model loop of `applyJointEffort` stops at the first model that has the
joint. -/
theorem applyJointEffortFind_first (joint_name : String) (models : List Model)
    (hsome : ∃ model ∈ models, model.GetJoint joint_name ≠ none) :
    ∃ pre model post joint, models = pre ++ model :: post
      ∧ (∀ earlier ∈ pre, earlier.GetJoint joint_name = none)
      ∧ model.GetJoint joint_name = some joint
      ∧ applyJointEffortFind joint_name models = some joint := by
  induction models with
  | nil =>
    obtain ⟨model, hmem, _⟩ := hsome
    cases hmem
  | cons first rest ih =>
    cases hfirst : first.GetJoint joint_name with
    | some joint =>
      exact ⟨[], first, rest, joint, rfl, by simp, hfirst,
        by simp only [applyJointEffortFind, hfirst]⟩
    | none =>
      have hrest : ∃ model ∈ rest, model.GetJoint joint_name ≠ none := by
        obtain ⟨model, hmem, hjoint⟩ := hsome
        rcases List.mem_cons.mp hmem with h | h
        · subst h; exact absurd hfirst hjoint
        · exact ⟨model, h, hjoint⟩
      obtain ⟨pre, model, post, joint, hsplit, hpre, hmodel, hfind⟩ := ih hrest
      refine ⟨first :: pre, model, post, joint, by simp [hsplit], ?_, hmodel, ?_⟩
      · intro earlier hearlier
        rcases List.mem_cons.mp hearlier with h | h
        · subst h; exact hfirst
        · exact hpre earlier h
      · simp only [applyJointEffortFind, hfirst, hfind]

/-- The model loop of `applyJointEffort` finds nothing when no model has the
joint. -/
theorem applyJointEffortFind_none (joint_name : String) (models : List Model)
    (hnone : ∀ model ∈ models, model.GetJoint joint_name = none) :
    applyJointEffortFind joint_name models = none := by
  induction models with
  | nil => rfl
  | cons first rest ih =>
    have hfirst := hnone first (List.mem_cons_self _ _)
    simp only [applyJointEffortFind, hfirst]
    exact ih (fun model hmem => hnone model (List.mem_cons_of_mem _ hmem))

/-- C12: when at least one model has a joint of the requested name,
`applyJointEffort` appends exactly one job at the end of the joint registry,
on the joint of the first model in index order that has it (no model before it
has one), with the requested effort and duration; the earlier jobs, the wrench
registry and the world are unchanged and the answer is `success = true`. -/
theorem applyJointEffort_appends_job_on_first_match (SimTime : Nat → Time)
    (self : GazeboRosApiPlugin) (req : ApplyJointEffortRequest)
    (hsome : ∃ model ∈ self.world_.models, model.GetJoint req.joint_name ≠ none) :
    ∃ pre model post joint, self.world_.models = pre ++ model :: post
      ∧ (∀ earlier ∈ pre, earlier.GetJoint req.joint_name = none)
      ∧ model.GetJoint req.joint_name = some joint
      ∧ applyJointEffort SimTime self req
        = ({ self with
              force_joint_jobs_ := self.force_joint_jobs_ ++
                [{ joint := some joint, force := req.effort,
                   start_time :=
                     if req.start_time < SimTime 0 then SimTime 1 else req.start_time,
                   duration := req.duration }]
              calls := self.calls ++ [Call.lock, Call.unlock] },
            ⟨true, "ApplyJointEffort: effort set"⟩) := by
  obtain ⟨pre, model, post, joint, hsplit, hpre, hmodel, hfind⟩ :=
    applyJointEffortFind_first req.joint_name self.world_.models hsome
  exact ⟨pre, model, post, joint, hsplit, hpre, hmodel,
    (applyJointEffort_cases SimTime self req).1 joint hfind⟩

/-- C12 on the example world: the request on joint `j` at time 0 appends one
job on that joint after the job already there. -/
theorem applyJointEffort_appends_job_on_first_match_witness :
    (applyJointEffort (fun _ => 0) (examplePlugin [exampleForceJob (some exampleJointK) 0 1] [])
        exampleEffortRequest).1.force_joint_jobs_
      = [exampleForceJob (some exampleJointK) 0 1, ⟨some exampleJointJ, 5, 1, 2⟩]
    ∧ (applyJointEffort (fun _ => 0) (examplePlugin [exampleForceJob (some exampleJointK) 0 1] [])
        exampleEffortRequest).2.success = true := by
  obtain ⟨pre, model, post, joint, hsplit, hpre, hmodel, hres⟩ :=
    applyJointEffort_appends_job_on_first_match (fun _ => 0)
      (examplePlugin [exampleForceJob (some exampleJointK) 0 1] []) exampleEffortRequest
      ⟨exampleModel, by simp [examplePlugin, exampleWorld],
        by simp [exampleModel, exampleEffortRequest]⟩
  have hpre' : pre = [] := by
    cases pre with
    | nil => rfl
    | cons first rest =>
      simp only [examplePlugin, exampleWorld, List.cons_append, List.cons.injEq] at hsplit
      have := hpre first (List.mem_cons_self _ _)
      rw [← hsplit.1] at this
      simp [exampleModel, exampleEffortRequest] at this
  subst hpre'
  simp only [examplePlugin, exampleWorld, List.nil_append, List.cons.injEq] at hsplit
  rw [← hsplit.1] at hmodel
  have hjoint : joint = exampleJointJ := by
    simp [exampleModel, exampleEffortRequest] at hmodel
    exact hmodel.symm
  subst hjoint
  rw [hres]
  constructor
  · norm_num [examplePlugin, exampleEffortRequest]
  · rfl

/-- C13: whenever `applyJointEffort`, `applyBodyWrench` or
`setModelConfiguration` answers `success = false`, the plugin state after the
call is the state before it (both job registries and the pause flag of the
world included); and `applyJointEffort` on a joint name that no model has
answers `success = false`, so creates no job. -/
theorem rejected_command_changes_nothing (self : GazeboRosApiPlugin) :
    (∀ (SimTime : Nat → Time) (req : ApplyJointEffortRequest),
        (applyJointEffort SimTime self req).2.success = false →
        (applyJointEffort SimTime self req).1 = self)
    ∧ (∀ (math : IgnitionMath) (SimTime : Nat → Time) (req : ApplyBodyWrenchRequest),
        (applyBodyWrench math SimTime self req).2.success = false →
        (applyBodyWrench math SimTime self req).1 = self)
    ∧ (∀ req : SetModelConfigurationRequest,
        (setModelConfiguration self req).2.success = false →
        (setModelConfiguration self req).1 = self)
    ∧ (∀ (SimTime : Nat → Time) (req : ApplyJointEffortRequest),
        (∀ model ∈ self.world_.models, model.GetJoint req.joint_name = none) →
        applyJointEffort SimTime self req
          = (self, ⟨false, "ApplyJointEffort: joint not found"⟩)) := by
  refine ⟨?_, ?_, ?_, ?_⟩
  · intro SimTime req hfail
    obtain ⟨h1, h2⟩ := applyJointEffort_cases SimTime self req
    cases hfind : applyJointEffortFind req.joint_name self.world_.models with
    | none => rw [h2 hfind]
    | some joint =>
      rw [h1 joint hfind] at hfail
      simp at hfail
  · intro math SimTime req hfail
    cases hbody : dynamicPointerCastLink (self.world_.EntityByName req.body_name) with
    | none => simp [applyBodyWrench, hbody]
    | some body =>
      obtain ⟨h1, h2, h3⟩ := applyBodyWrench_cases math SimTime self req body hbody
      cases hframe : self.world_.EntityByName req.reference_frame with
      | some frame =>
        rw [h1 frame hframe] at hfail
        simp [applyBodyWrenchSchedule] at hfail
      | none =>
        by_cases hname : req.reference_frame = "" ∨ req.reference_frame = "world"
            ∨ req.reference_frame = "map" ∨ req.reference_frame = "/map"
        · rw [h2 hframe hname] at hfail
          simp [applyBodyWrenchSchedule] at hfail
        · rw [h3 hframe hname]
  · intro req hfail
    unfold setModelConfiguration at hfail ⊢
    cases hmodel : self.world_.ModelByName req.model_name with
    | none => simp
    | some gazebo_model =>
      by_cases hlen : req.joint_names.length = req.joint_positions.length
      · simp [hmodel, hlen] at hfail
      · simp [hlen]
  · intro SimTime req hnone
    exact (applyJointEffort_cases SimTime self req).2
      (applyJointEffortFind_none req.joint_name self.world_.models hnone)

/-- C13 on the example world: a request on a joint that no model has leaves
the registry of one job as it was. -/
theorem rejected_command_changes_nothing_witness :
    (applyJointEffort (fun _ => 0) (examplePlugin [exampleForceJob (some exampleJointK) 0 1] [])
        exampleMissingJointRequest).2.success = false
    ∧ (applyJointEffort (fun _ => 0) (examplePlugin [exampleForceJob (some exampleJointK) 0 1] [])
        exampleMissingJointRequest).1.force_joint_jobs_
      = [exampleForceJob (some exampleJointK) 0 1] := by
  have h := (rejected_command_changes_nothing
      (examplePlugin [exampleForceJob (some exampleJointK) 0 1] [])).2.2.2 (fun _ => 0)
    exampleMissingJointRequest
    (by simp [examplePlugin, exampleWorld, exampleModel, exampleMissingJointRequest])
  rw [h]
  exact ⟨rfl, rfl⟩

/-- C14: when the body resolves, `applyBodyWrench` answers `success = false`
only if the reference frame name is not empty, is neither `world` nor `map`
and names no entity; and a request rejected in that way leaves the plugin state
as it was: no wrench job is created. -/
theorem applyBodyWrench_rejected_only_for_unknown_frame (math : IgnitionMath)
    (SimTime : Nat → Time) (self : GazeboRosApiPlugin) (req : ApplyBodyWrenchRequest)
    (body : Entity)
    (hbody : dynamicPointerCastLink (self.world_.EntityByName req.body_name) = some body)
    (hfail : (applyBodyWrench math SimTime self req).2.success = false) :
    req.reference_frame ≠ "" ∧ req.reference_frame ≠ "world" ∧ req.reference_frame ≠ "map"
    ∧ self.world_.EntityByName req.reference_frame = none
    ∧ (applyBodyWrench math SimTime self req).1 = self
    ∧ (applyBodyWrench math SimTime self req).1.wrench_body_jobs_ = self.wrench_body_jobs_ := by
  obtain ⟨h1, h2, h3⟩ := applyBodyWrench_cases math SimTime self req body hbody
  cases hframe : self.world_.EntityByName req.reference_frame with
  | some frame =>
    rw [h1 frame hframe] at hfail
    simp [applyBodyWrenchSchedule] at hfail
  | none =>
    by_cases hname : req.reference_frame = "" ∨ req.reference_frame = "world"
        ∨ req.reference_frame = "map" ∨ req.reference_frame = "/map"
    · rw [h2 hframe hname] at hfail
      simp [applyBodyWrenchSchedule] at hfail
    · rw [h3 hframe hname]
      refine ⟨fun h => hname (Or.inl h), fun h => hname (Or.inr (Or.inl h)),
        fun h => hname (Or.inr (Or.inr (Or.inl h))), rfl, rfl, rfl⟩

/-- C14 on the example world: a request on the example link in a frame that
does not exist is rejected and the registry of one job stays as it was. -/
theorem applyBodyWrench_rejected_only_for_unknown_frame_witness :
    (applyBodyWrench exampleMath (fun _ => 0)
        (examplePlugin [] [exampleWrenchJob (some exampleLink) 0 1])
        exampleMissingFrameRequest).2.success = false
    ∧ exampleMissingFrameRequest.reference_frame ≠ ""
    ∧ (applyBodyWrench exampleMath (fun _ => 0)
        (examplePlugin [] [exampleWrenchJob (some exampleLink) 0 1])
        exampleMissingFrameRequest).1.wrench_body_jobs_
      = [exampleWrenchJob (some exampleLink) 0 1] := by
  have hfail : (applyBodyWrench exampleMath (fun _ => 0)
      (examplePlugin [] [exampleWrenchJob (some exampleLink) 0 1])
      exampleMissingFrameRequest).2.success = false := by
    simp [applyBodyWrench, dynamicPointerCastLink, examplePlugin, exampleWorld, exampleLink,
      exampleMissingFrameRequest, exampleWrenchRequest]
  have h := applyBodyWrench_rejected_only_for_unknown_frame exampleMath (fun _ => 0)
    (examplePlugin [] [exampleWrenchJob (some exampleLink) 0 1]) exampleMissingFrameRequest
    exampleLink
    (by simp [dynamicPointerCastLink, examplePlugin, exampleWorld, exampleLink,
      exampleMissingFrameRequest, exampleWrenchRequest])
    hfail
  exact ⟨hfail, h.1, h.2.2.2.2.2⟩

/-- C15, the claim as worded fails: for force `(1, 0, 0)`, zero torque and
reference point `(0, 1, 0)` the code carries `t + p × f = (0, 0, -1)` into the
frame rotation, where the claim has `t + f × p = (0, 0, 1)`; the job created
through a frame that coincides with the body (no rotation, no offset) and the
job created with an empty frame both carry the torque `(0, 0, -1)`. -/
theorem applyBodyWrench_shift_operand_order_counterexample :
    exampleFramedWrenchRequest.wrench.torque
        + exampleFramedWrenchRequest.reference_point.Cross
            exampleFramedWrenchRequest.wrench.force = ⟨0, 0, -1⟩
    ∧ exampleFramedWrenchRequest.wrench.torque
        + exampleFramedWrenchRequest.wrench.force.Cross
            exampleFramedWrenchRequest.reference_point = ⟨0, 0, 1⟩
    ∧ (∃ job,
        (applyBodyWrench exampleMath (fun _ => 0) (examplePlugin [] [])
            exampleFramedWrenchRequest).1.wrench_body_jobs_ = [job]
        ∧ job.torque = ⟨0, 0, -1⟩)
    ∧ (∃ job,
        (applyBodyWrench exampleMath (fun _ => 0) (examplePlugin [] [])
            exampleWrenchRequest).1.wrench_body_jobs_ = [job]
        ∧ job.torque = ⟨0, 0, -1⟩) := by
  refine ⟨?_, ?_, ⟨⟨some exampleLink, ⟨1, 0, 0⟩, ⟨0, 0, -1⟩, 0, 1⟩, ?_, rfl⟩,
    ⟨⟨some exampleLink, ⟨1, 0, 0⟩, ⟨0, 0, -1⟩, 0, 1⟩, ?_, rfl⟩⟩
  · simp [exampleFramedWrenchRequest, exampleWrenchRequest, Vector3d.Cross, Vector3d.add_eq]
  · simp [exampleFramedWrenchRequest, exampleWrenchRequest, Vector3d.Cross, Vector3d.add_eq]
  · simp [applyBodyWrench, applyBodyWrenchSchedule, transformWrench, dynamicPointerCastLink,
      examplePlugin, exampleWorld, exampleLink, exampleMath, exampleFramedWrenchRequest,
      exampleWrenchRequest, Vector3d.Cross, Vector3d.add_eq]
  · simp [applyBodyWrench, applyBodyWrenchSchedule, dynamicPointerCastLink, examplePlugin,
      exampleWorld, exampleLink, exampleWrenchRequest, Vector3d.Cross, Vector3d.add_eq]

/-- C15 as amended: when the body and the reference frame resolve, the wrench
handed to `transformWrench` is the request force `f` and the torque
`t + p × f`, the reference point `p` being the left operand of the cross
product; the sum is formed before any rotation; and `p × f` is the opposite of
`f × p`, component by component. -/
theorem applyBodyWrench_shifts_torque_by_point_cross_force (math : IgnitionMath)
    (SimTime : Nat → Time) (self : GazeboRosApiPlugin) (req : ApplyBodyWrenchRequest)
    (body frame : Entity)
    (hbody : dynamicPointerCastLink (self.world_.EntityByName req.body_name) = some body)
    (hframe : self.world_.EntityByName req.reference_frame = some frame) :
    (∃ job,
      (applyBodyWrench math SimTime self req).1.wrench_body_jobs_
          = self.wrench_body_jobs_ ++ [job]
      ∧ (job.force, job.torque)
        = transformWrench math req.wrench.force
            (req.wrench.torque + req.reference_point.Cross req.wrench.force)
            (math.PoseSub frame.WorldPose body.WorldPose))
    ∧ (req.reference_point.Cross req.wrench.force).X
        = -(req.wrench.force.Cross req.reference_point).X
    ∧ (req.reference_point.Cross req.wrench.force).Y
        = -(req.wrench.force.Cross req.reference_point).Y
    ∧ (req.reference_point.Cross req.wrench.force).Z
        = -(req.wrench.force.Cross req.reference_point).Z := by
  refine ⟨?_, ?_, ?_, ?_⟩
  · rw [(applyBodyWrench_cases math SimTime self req body hbody).1 frame hframe]
    exact ⟨_, rfl, rfl⟩
  · simp only [Vector3d.Cross]; ring
  · simp only [Vector3d.Cross]; ring
  · simp only [Vector3d.Cross]; ring

/-- C15 as amended, on the example world: the wrench handed to
`transformWrench` has torque `(0, 0, -1)`. -/
theorem applyBodyWrench_shifts_torque_by_point_cross_force_witness :
    ∃ job,
      (applyBodyWrench exampleMath (fun _ => 0) (examplePlugin [] [])
          exampleFramedWrenchRequest).1.wrench_body_jobs_ = [job]
      ∧ (job.force, job.torque)
        = transformWrench exampleMath ⟨1, 0, 0⟩ ⟨0, 0, -1⟩ ⟨⟨0, 0, 0⟩, ⟨1, 0, 0, 0⟩⟩ := by
  obtain ⟨job, hreg, hwrench⟩ :=
    (applyBodyWrench_shifts_torque_by_point_cross_force exampleMath (fun _ => 0)
      (examplePlugin [] []) exampleFramedWrenchRequest exampleLink exampleLink
      (by simp [dynamicPointerCastLink, examplePlugin, exampleWorld, exampleLink,
        exampleFramedWrenchRequest, exampleWrenchRequest])
      (by simp [examplePlugin, exampleWorld, exampleFramedWrenchRequest])).1
  refine ⟨job, hreg, ?_⟩
  rw [hwrench]
  simp [exampleFramedWrenchRequest, exampleWrenchRequest, exampleLink, exampleMath,
    Vector3d.Cross, Vector3d.add_eq]

/-- C16: when the body and the reference frame resolve, with `R` and `d` the
rotation and the position of `framePose - bodyPose`, the job that is created
has force `R(f)` and torque `R(t_s) + d × R(f)`, where `t_s = t + p × f` is
the request torque after the reference-point shift; and a second request
with the same body, frame and force, whatever its torque and reference point,
gets a job with the same force. -/
theorem applyBodyWrench_frame_transform (math : IgnitionMath) (SimTime : Nat → Time)
    (self : GazeboRosApiPlugin) (req : ApplyBodyWrenchRequest) (body frame : Entity)
    (hbody : dynamicPointerCastLink (self.world_.EntityByName req.body_name) = some body)
    (hframe : self.world_.EntityByName req.reference_frame = some frame) :
    ∃ job,
      (applyBodyWrench math SimTime self req).1.wrench_body_jobs_
          = self.wrench_body_jobs_ ++ [job]
      ∧ job.body = some body
      ∧ job.force
        = math.RotateVector (math.PoseSub frame.WorldPose body.WorldPose).Rot req.wrench.force
      ∧ job.torque
        = math.RotateVector (math.PoseSub frame.WorldPose body.WorldPose).Rot
              (req.wrench.torque + req.reference_point.Cross req.wrench.force)
            + (math.PoseSub frame.WorldPose body.WorldPose).Pos.Cross
                (math.RotateVector (math.PoseSub frame.WorldPose body.WorldPose).Rot
                  req.wrench.force)
      ∧ ∀ other : ApplyBodyWrenchRequest,
          other.body_name = req.body_name → other.reference_frame = req.reference_frame →
          other.wrench.force = req.wrench.force →
          ∃ job', (applyBodyWrench math SimTime self other).1.wrench_body_jobs_
                = self.wrench_body_jobs_ ++ [job']
            ∧ job'.force = job.force := by
  rw [(applyBodyWrench_cases math SimTime self req body hbody).1 frame hframe]
  refine ⟨_, rfl, rfl, rfl, rfl, ?_⟩
  intro other hname hfr hforce
  rw [(applyBodyWrench_cases math SimTime self other body (by rw [hname]; exact hbody)).1
    frame (by rw [hfr]; exact hframe)]
  refine ⟨_, rfl, ?_⟩
  simp only [applyBodyWrenchSchedule, transformWrench, hforce]

/-- C16 on the example world, the frame being the body itself and the
stand-in rotation leaving vectors as they are: force `(1, 0, 0)` and torque
`(0, 0, -1)`. -/
theorem applyBodyWrench_frame_transform_witness :
    ∃ job,
      (applyBodyWrench exampleMath (fun _ => 0) (examplePlugin [] [])
          exampleFramedWrenchRequest).1.wrench_body_jobs_ = [job]
      ∧ job.force = ⟨1, 0, 0⟩ ∧ job.torque = ⟨0, 0, -1⟩ := by
  obtain ⟨job, hreg, _, hforce, htorque, _⟩ :=
    applyBodyWrench_frame_transform exampleMath (fun _ => 0)
      (examplePlugin [] []) exampleFramedWrenchRequest exampleLink exampleLink
      (by simp [dynamicPointerCastLink, examplePlugin, exampleWorld, exampleLink,
        exampleFramedWrenchRequest, exampleWrenchRequest])
      (by simp [examplePlugin, exampleWorld, exampleFramedWrenchRequest])
  refine ⟨job, hreg, ?_, ?_⟩
  · rw [hforce]
    simp [exampleMath, exampleFramedWrenchRequest, exampleWrenchRequest]
  · rw [htorque]
    simp [exampleMath, exampleLink, exampleFramedWrenchRequest, exampleWrenchRequest,
      Vector3d.Cross, Vector3d.add_eq]

/-- C17, the claim as worded fails: with two joint names, one position and a
model name that does not resolve, the status of the response is the
model-not-found one, not the length-mismatch one. -/
theorem setModelConfiguration_mismatch_status_counterexample :
    exampleGhostModelRequest.joint_names.length
        ≠ exampleGhostModelRequest.joint_positions.length
    ∧ (setModelConfiguration (examplePlugin [] []) exampleGhostModelRequest).2
      = ⟨false, "SetModelConfiguration: model does not exist"⟩
    ∧ (setModelConfiguration (examplePlugin [] []) exampleGhostModelRequest).2.status_message
      ≠ "SetModelConfiguration: joint name and position list have different lengths" := by
  refine ⟨?_, ?_, ?_⟩ <;>
    simp [setModelConfiguration, examplePlugin, exampleWorld, exampleGhostModelRequest,
      exampleMismatchedRequest]

/-- C17 as amended: for a request whose `joint_names` and `joint_positions`
differ in length the response has `success = false`; its status is the
length-mismatch one when `model_name` resolves and the model-not-found one
when it does not. -/
theorem setModelConfiguration_mismatch_status (self : GazeboRosApiPlugin)
    (req : SetModelConfigurationRequest)
    (hlen : req.joint_names.length ≠ req.joint_positions.length) :
    (setModelConfiguration self req).2.success = false
    ∧ (self.world_.ModelByName req.model_name ≠ none →
        (setModelConfiguration self req).2.status_message
          = "SetModelConfiguration: joint name and position list have different lengths")
    ∧ (self.world_.ModelByName req.model_name = none →
        (setModelConfiguration self req).2.status_message
          = "SetModelConfiguration: model does not exist") := by
  unfold setModelConfiguration
  cases self.world_.ModelByName req.model_name with
  | none => simp
  | some gazebo_model => simp [hlen]

/-- C17 as amended, on the example of two names and one position for the
model of the example world: the length-mismatch status. -/
theorem setModelConfiguration_mismatch_status_witness :
    (setModelConfiguration (examplePlugin [] []) exampleMismatchedRequest).2
      = ⟨false, "SetModelConfiguration: joint name and position list have different lengths"⟩ := by
  obtain ⟨h1, h2, _⟩ := setModelConfiguration_mismatch_status (examplePlugin [] [])
    exampleMismatchedRequest (by simp [exampleMismatchedRequest])
  have h2' := h2 (by simp [examplePlugin, exampleWorld, exampleMismatchedRequest])
  cases hres : (setModelConfiguration (examplePlugin [] []) exampleMismatchedRequest).2 with
  | mk success status_message =>
    rw [hres] at h1 h2'
    simp only at h1 h2'
    rw [h1, h2']

/-- What `setModelConfiguration` returns for an existing model and lists of
equal length. -/
theorem setModelConfiguration_accepted (self : GazeboRosApiPlugin)
    (req : SetModelConfigurationRequest) (gazebo_model : Model)
    (hmodel : self.world_.ModelByName req.model_name = some gazebo_model)
    (hlen : req.joint_names.length = req.joint_positions.length) :
    setModelConfiguration self req
      = ({ self with
            world_ := { self.world_ with IsPaused := self.world_.IsPaused }
            calls := self.calls
              ++ (if self.world_.IsPaused then [] else [Call.SetPaused true])
              ++ [Call.SetJointPositions gazebo_model.GetName
                    (fillJointPositionMap req.joint_names req.joint_positions [])]
              ++ [Call.SetPaused self.world_.IsPaused] },
          ⟨true, "SetModelConfiguration: success"⟩) := by
  unfold setModelConfiguration
  simp only [hmodel, hlen, if_true]
  cases hp : self.world_.IsPaused <;> simp [SetPaused, hp]

/-- C18: for a request that names an existing model and has lists of equal
length, `setModelConfiguration` answers `success = true`, leaves the pause flag
of the world as it found it, logs `SetJointPositions` once, at a point of the
log where the world is paused (after `SetPaused(true)` when the world was
running, with no call before it when the world was paused already), then logs
`SetPaused` with the flag it found, and leaves both job registries unchanged;
when the model does not exist it answers `success = false`. -/
theorem setModelConfiguration_writes_paused_and_restores (self : GazeboRosApiPlugin)
    (req : SetModelConfigurationRequest) :
    (∀ gazebo_model, self.world_.ModelByName req.model_name = some gazebo_model →
        req.joint_names.length = req.joint_positions.length →
        (setModelConfiguration self req).2.success = true
        ∧ (setModelConfiguration self req).1.world_.IsPaused = self.world_.IsPaused
        ∧ (setModelConfiguration self req).1.calls
          = self.calls
            ++ (if self.world_.IsPaused then [] else [Call.SetPaused true])
            ++ [Call.SetJointPositions gazebo_model.GetName
                  (fillJointPositionMap req.joint_names req.joint_positions [])]
            ++ [Call.SetPaused self.world_.IsPaused]
        ∧ pausedAfter self.world_.IsPaused
            (if self.world_.IsPaused then [] else [Call.SetPaused true]) = true
        ∧ pausedAfter self.world_.IsPaused
            ((if self.world_.IsPaused then [] else [Call.SetPaused true])
              ++ [Call.SetJointPositions gazebo_model.GetName
                    (fillJointPositionMap req.joint_names req.joint_positions [])]
              ++ [Call.SetPaused self.world_.IsPaused]) = self.world_.IsPaused
        ∧ (setModelConfiguration self req).1.force_joint_jobs_ = self.force_joint_jobs_
        ∧ (setModelConfiguration self req).1.wrench_body_jobs_ = self.wrench_body_jobs_)
    ∧ (self.world_.ModelByName req.model_name = none →
        (setModelConfiguration self req).2.success = false) := by
  constructor
  · intro gazebo_model hmodel hlen
    rw [setModelConfiguration_accepted self req gazebo_model hmodel hlen]
    refine ⟨rfl, rfl, rfl, ?_, ?_, rfl, rfl⟩
    · cases self.world_.IsPaused <;> simp [pausedAfter]
    · cases self.world_.IsPaused <;> simp [pausedAfter]
  · intro hmodel
    simp [setModelConfiguration, hmodel]

/-- C18 on the example world, which is running: the log is `SetPaused(true)`,
the write of the two positions, `SetPaused(false)`, and the world is running
again after the call. -/
theorem setModelConfiguration_writes_paused_and_restores_witness :
    (setModelConfiguration (examplePlugin [] []) exampleConfigurationRequest).2.success = true
    ∧ (setModelConfiguration (examplePlugin [] [])
        exampleConfigurationRequest).1.world_.IsPaused = false
    ∧ (setModelConfiguration (examplePlugin [] []) exampleConfigurationRequest).1.calls
      = [Call.SetPaused true, Call.SetJointPositions "robot" [("j", 1), ("k", 2)],
          Call.SetPaused false] := by
  obtain ⟨h1, h2, h3, _⟩ :=
    (setModelConfiguration_writes_paused_and_restores (examplePlugin [] [])
      exampleConfigurationRequest).1 exampleModel
      (by simp [examplePlugin, exampleWorld, exampleConfigurationRequest])
      (by simp [exampleConfigurationRequest])
  refine ⟨h1, h2, ?_⟩
  rw [h3]
  simp [examplePlugin, exampleWorld, exampleModel, exampleConfigurationRequest,
    fillJointPositionMap, mapAssign]

/-- The job registries are the same after `setModelConfiguration` as before. -/
theorem setModelConfiguration_keeps_registries (self : GazeboRosApiPlugin)
    (req : SetModelConfigurationRequest) :
    (setModelConfiguration self req).1.force_joint_jobs_ = self.force_joint_jobs_
    ∧ (setModelConfiguration self req).1.wrench_body_jobs_ = self.wrench_body_jobs_ := by
  cases hmodel : self.world_.ModelByName req.model_name with
  | none => simp [setModelConfiguration, hmodel]
  | some gazebo_model =>
    by_cases hlen : req.joint_names.length = req.joint_positions.length
    · rw [setModelConfiguration_accepted self req gazebo_model hmodel hlen]
      exact ⟨rfl, rfl⟩
    · simp [setModelConfiguration, hmodel, hlen]

/-- Filtering twice with the same test is filtering once. -/
theorem filter_twice {α : Type} (keep : α → Bool) (l : List α) :
    (l.filter keep).filter keep = l.filter keep := by
  rw [List.filter_filter]
  congr 1
  funext a
  cases keep a <;> rfl

/-- C19, the claim as worded fails: on the example world the same accepted
`applyJointEffort` request, and the same accepted `applyBodyWrench` request,
issued twice at the same simulation time leave two jobs where one call leaves
one. -/
theorem apply_twice_appends_twice_counterexample :
    (applyJointEffort (fun _ => 0) (examplePlugin [] []) exampleEffortRequest).1.force_joint_jobs_
      = [⟨some exampleJointJ, 5, 1, 2⟩]
    ∧ (applyJointEffort (fun _ => 0)
        (applyJointEffort (fun _ => 0) (examplePlugin [] []) exampleEffortRequest).1
        exampleEffortRequest).1.force_joint_jobs_
      = [⟨some exampleJointJ, 5, 1, 2⟩, ⟨some exampleJointJ, 5, 1, 2⟩]
    ∧ (applyBodyWrench exampleMath (fun _ => 0) (examplePlugin [] [])
        exampleWrenchRequest).1.wrench_body_jobs_
      = [⟨some exampleLink, ⟨1, 0, 0⟩, ⟨0, 0, -1⟩, 0, 1⟩]
    ∧ (applyBodyWrench exampleMath (fun _ => 0)
        (applyBodyWrench exampleMath (fun _ => 0) (examplePlugin [] [])
          exampleWrenchRequest).1
        exampleWrenchRequest).1.wrench_body_jobs_
      = [⟨some exampleLink, ⟨1, 0, 0⟩, ⟨0, 0, -1⟩, 0, 1⟩,
          ⟨some exampleLink, ⟨1, 0, 0⟩, ⟨0, 0, -1⟩, 0, 1⟩] := by
  refine ⟨?_, ?_, ?_, ?_⟩
  · norm_num [applyJointEffort, applyJointEffortFind, examplePlugin, exampleWorld,
      exampleModel, exampleEffortRequest]
  · norm_num [applyJointEffort, applyJointEffortFind, examplePlugin, exampleWorld,
      exampleModel, exampleEffortRequest]
  · simp [applyBodyWrench, applyBodyWrenchSchedule, dynamicPointerCastLink, examplePlugin,
      exampleWorld, exampleLink, exampleWrenchRequest, Vector3d.Cross, Vector3d.add_eq]
  · simp [applyBodyWrench, applyBodyWrenchSchedule, dynamicPointerCastLink, examplePlugin,
      exampleWorld, exampleLink, exampleWrenchRequest, Vector3d.Cross, Vector3d.add_eq]

/-- C19 as amended: `clearJointForces`, `clearBodyWrenches` and
`setModelConfiguration` are idempotent on the job registries (the second of
two equal requests in succession returns and leaves both registries as the
first left them), and so are rejected `applyJointEffort` and `applyBodyWrench`
requests; an accepted `applyJointEffort` or `applyBodyWrench` request is not:
issued twice at the same simulation time on the same world it appends the
same job twice. -/
theorem facade_idempotence_at_registry_level (self : GazeboRosApiPlugin) :
    (∀ (joint_name : String) (once : GazeboRosApiPlugin),
        clearJointForces joint_name self = Run.returned once →
        ∃ twice, clearJointForces joint_name once = Run.returned twice
          ∧ twice.force_joint_jobs_ = once.force_joint_jobs_
          ∧ twice.wrench_body_jobs_ = once.wrench_body_jobs_)
    ∧ (∀ (body_name : String) (once : GazeboRosApiPlugin),
        clearBodyWrenches body_name self = Run.returned once →
        ∃ twice, clearBodyWrenches body_name once = Run.returned twice
          ∧ twice.force_joint_jobs_ = once.force_joint_jobs_
          ∧ twice.wrench_body_jobs_ = once.wrench_body_jobs_)
    ∧ (∀ req : SetModelConfigurationRequest,
        (setModelConfiguration (setModelConfiguration self req).1 req).1.force_joint_jobs_
            = (setModelConfiguration self req).1.force_joint_jobs_
          ∧ (setModelConfiguration (setModelConfiguration self req).1 req).1.wrench_body_jobs_
            = (setModelConfiguration self req).1.wrench_body_jobs_)
    ∧ (∀ (now : Time) (req : ApplyJointEffortRequest),
        ((applyJointEffort (fun _ => now) self req).2.success = false →
          (applyJointEffort (fun _ => now) (applyJointEffort (fun _ => now) self req).1 req).1
            = (applyJointEffort (fun _ => now) self req).1)
        ∧ ((applyJointEffort (fun _ => now) self req).2.success = true →
          ∃ job, (applyJointEffort (fun _ => now) self req).1.force_joint_jobs_
                = self.force_joint_jobs_ ++ [job]
            ∧ (applyJointEffort (fun _ => now)
                (applyJointEffort (fun _ => now) self req).1 req).1.force_joint_jobs_
                = self.force_joint_jobs_ ++ [job, job]))
    ∧ (∀ (math : IgnitionMath) (now : Time) (req : ApplyBodyWrenchRequest),
        ((applyBodyWrench math (fun _ => now) self req).2.success = false →
          (applyBodyWrench math (fun _ => now)
              (applyBodyWrench math (fun _ => now) self req).1 req).1
            = (applyBodyWrench math (fun _ => now) self req).1)
        ∧ ((applyBodyWrench math (fun _ => now) self req).2.success = true →
          ∃ job, (applyBodyWrench math (fun _ => now) self req).1.wrench_body_jobs_
                = self.wrench_body_jobs_ ++ [job]
            ∧ (applyBodyWrench math (fun _ => now)
                (applyBodyWrench math (fun _ => now) self req).1 req).1.wrench_body_jobs_
                = self.wrench_body_jobs_ ++ [job, job])) := by
  refine ⟨?_, ?_, ?_, ?_, ?_⟩
  · intro joint_name once hret
    obtain ⟨h1, h2⟩ := clearJointForces_spec joint_name self
    by_cases hlive : ∀ job ∈ self.force_joint_jobs_, job.joint ≠ none
    · rw [h1 hlive] at hret
      injection hret with hret
      subst hret
      refine ⟨_, (clearJointForces_spec joint_name _).1 ?_, ?_, rfl⟩
      · intro job hjob
        exact hlive job (List.mem_filter.mp hjob).1
      · exact filter_twice _ _
    · rw [h2 hlive] at hret
      cases hret
  · intro body_name once hret
    obtain ⟨h1, h2⟩ := clearBodyWrenches_spec body_name self
    by_cases hlive : ∀ job ∈ self.wrench_body_jobs_, job.body ≠ none
    · rw [h1 hlive] at hret
      injection hret with hret
      subst hret
      refine ⟨_, (clearBodyWrenches_spec body_name _).1 ?_, rfl, ?_⟩
      · intro job hjob
        exact hlive job (List.mem_filter.mp hjob).1
      · exact filter_twice _ _
    · rw [h2 hlive] at hret
      cases hret
  · intro req
    exact ⟨(setModelConfiguration_keeps_registries _ req).1,
      (setModelConfiguration_keeps_registries _ req).2⟩
  · intro now req
    cases hfind : applyJointEffortFind req.joint_name self.world_.models with
    | none => simp [applyJointEffort, hfind]
    | some joint =>
      constructor
      · intro h
        simp [applyJointEffort, hfind] at h
      · intro _
        refine ⟨⟨some joint, req.effort,
          if req.start_time < now then now else req.start_time, req.duration⟩, ?_, ?_⟩ <;>
          simp [applyJointEffort, hfind]
  · intro math now req
    cases hbody : dynamicPointerCastLink (self.world_.EntityByName req.body_name) with
    | none => simp [applyBodyWrench, hbody]
    | some body =>
      cases hframe : self.world_.EntityByName req.reference_frame with
      | some frame =>
        constructor
        · intro h
          simp [applyBodyWrench, applyBodyWrenchSchedule, hbody, hframe] at h
        · intro _
          refine ⟨⟨some body,
            (transformWrench math req.wrench.force
              (req.wrench.torque + req.reference_point.Cross req.wrench.force)
              (math.PoseSub frame.WorldPose body.WorldPose)).1,
            (transformWrench math req.wrench.force
              (req.wrench.torque + req.reference_point.Cross req.wrench.force)
              (math.PoseSub frame.WorldPose body.WorldPose)).2,
            if req.start_time < now then now else req.start_time, req.duration⟩, ?_, ?_⟩ <;>
            simp [applyBodyWrench, applyBodyWrenchSchedule, hbody, hframe]
      | none =>
        by_cases hname : req.reference_frame = "" ∨ req.reference_frame = "world"
            ∨ req.reference_frame = "map" ∨ req.reference_frame = "/map"
        · constructor
          · intro h
            simp [applyBodyWrench, applyBodyWrenchSchedule, hbody, hframe, hname] at h
          · intro _
            refine ⟨⟨some body, req.wrench.force,
              req.wrench.torque + req.reference_point.Cross req.wrench.force,
              if req.start_time < now then now else req.start_time, req.duration⟩, ?_, ?_⟩ <;>
              simp [applyBodyWrench, applyBodyWrenchSchedule, hbody, hframe, hname]
        · simp [applyBodyWrench, hbody, hframe, hname]

/-- C19 as amended, on the example registry of two jobs on `j` around one on
`k`: clearing `j` once leaves the job on `k`, and clearing `j` again returns
the same registry. -/
theorem facade_idempotence_at_registry_level_witness :
    ∃ once twice,
      clearJointForces "j"
          (examplePlugin
            [exampleForceJob (some exampleJointJ) 0 1, exampleForceJob (some exampleJointK) 0 2,
              exampleForceJob (some exampleJointJ) 3 (-1)] [])
        = Run.returned once
      ∧ clearJointForces "j" once = Run.returned twice
      ∧ once.force_joint_jobs_ = [exampleForceJob (some exampleJointK) 0 2]
      ∧ twice.force_joint_jobs_ = [exampleForceJob (some exampleJointK) 0 2] := by
  have honce := (clearJointForces_spec "j"
    (examplePlugin
      [exampleForceJob (some exampleJointJ) 0 1, exampleForceJob (some exampleJointK) 0 2,
        exampleForceJob (some exampleJointJ) 3 (-1)] [])).1
    (by simp [examplePlugin, exampleForceJob])
  obtain ⟨twice, htwice, hreg, _⟩ :=
    (facade_idempotence_at_registry_level _).1 "j" _ honce
  have hvalue : (List.filter
      (fun job : ForceJointJob => decide (job.joint.map Joint.GetName ≠ some "j"))
      [exampleForceJob (some exampleJointJ) 0 1, exampleForceJob (some exampleJointK) 0 2,
        exampleForceJob (some exampleJointJ) 3 (-1)])
      = [exampleForceJob (some exampleJointK) 0 2] := by
    simp [exampleForceJob, exampleJointJ, exampleJointK]
  refine ⟨_, twice, honce, htwice, hvalue, ?_⟩
  rw [hreg]
  exact hvalue

/-- C21: `sdf_to_ros_parameter` returns a parameter of type
`PARAMETER_NOT_SET` if and only if the element has no `name` attribute, has no
`type` attribute, or its `type` is none of `int`, `float`, `double`, `bool`,
`string`; otherwise the parameter has the name of the element and the type
integer, double, double, bool or string for these five types in turn, with the
value the element gives for that type. -/
theorem sdf_to_ros_parameter_type (sdf : SdfElement) :
    ((sdf_to_ros_parameter sdf).get_type = ParameterType.PARAMETER_NOT_SET
      ↔ (sdf.HasAttribute "name" = false ∨ sdf.HasAttribute "type" = false
          ∨ sdf.GetAttribute "type" ∉ ["int", "float", "double", "bool", "string"]))
    ∧ (sdf.HasAttribute "name" = true → sdf.HasAttribute "type" = true →
        (sdf.GetAttribute "type" = "int" →
          sdf_to_ros_parameter sdf
            = ⟨sdf.GetAttribute "name", ParameterValue.integer sdf.GetInt⟩)
        ∧ (sdf.GetAttribute "type" = "float" →
          sdf_to_ros_parameter sdf
            = ⟨sdf.GetAttribute "name", ParameterValue.double sdf.GetDouble⟩)
        ∧ (sdf.GetAttribute "type" = "double" →
          sdf_to_ros_parameter sdf
            = ⟨sdf.GetAttribute "name", ParameterValue.double sdf.GetDouble⟩)
        ∧ (sdf.GetAttribute "type" = "bool" →
          sdf_to_ros_parameter sdf
            = ⟨sdf.GetAttribute "name", ParameterValue.bool sdf.GetBool⟩)
        ∧ (sdf.GetAttribute "type" = "string" →
          sdf_to_ros_parameter sdf
            = ⟨sdf.GetAttribute "name", ParameterValue.string sdf.GetString⟩)) := by
  constructor
  · unfold sdf_to_ros_parameter
    cases hname : sdf.HasAttribute "name" with
    | false => simp [Parameter.default, Parameter.get_type]
    | true =>
      cases htype : sdf.HasAttribute "type" with
      | false => simp [Parameter.default, Parameter.get_type]
      | true =>
        simp only [Bool.not_true, Bool.false_eq_true, if_false, false_or]
        by_cases h1 : "int" = sdf.GetAttribute "type"
        · simp [← h1, Parameter.get_type]
        by_cases h2 : "double" = sdf.GetAttribute "type" ∨ "float" = sdf.GetAttribute "type"
        · rcases h2 with h2 | h2 <;> simp [← h2, Parameter.get_type]
        by_cases h3 : "bool" = sdf.GetAttribute "type"
        · simp [← h3, Parameter.get_type]
        by_cases h4 : "string" = sdf.GetAttribute "type"
        · simp [← h4, Parameter.get_type]
        rw [not_or] at h2
        simp only [if_neg h1, if_neg (not_or.mpr h2), if_neg h3, if_neg h4]
        simp only [Parameter.default, Parameter.get_type, true_iff, List.mem_cons,
          List.mem_singleton, not_or, List.mem_nil_iff, or_false]
        exact Or.inr (Or.inr ⟨fun h => h1 h.symm, fun h => h2.2 h.symm, fun h => h2.1 h.symm,
          fun h => h3 h.symm, fun h => h4 h.symm⟩)
  · intro hname htype
    unfold sdf_to_ros_parameter
    simp only [hname, htype, Bool.not_true, Bool.false_eq_true, if_false]
    refine ⟨?_, ?_, ?_, ?_, ?_⟩ <;> intro h <;> simp [h]

/-- C21 on `<parameter type="float" name="my_float">41.18</parameter>`: a
parameter named `my_float` of type double. -/
theorem sdf_to_ros_parameter_type_witness :
    sdf_to_ros_parameter exampleFloatParameter
      = ⟨"my_float", ParameterValue.double (4118 / 100)⟩
    ∧ (sdf_to_ros_parameter exampleFloatParameter).get_type
      = ParameterType.PARAMETER_DOUBLE := by
  have h := ((sdf_to_ros_parameter_type exampleFloatParameter).2
    (by simp [SdfElement.HasAttribute, exampleFloatParameter, List.lookup])
    (by simp [SdfElement.HasAttribute, exampleFloatParameter, List.lookup])).2.1
    (by simp [SdfElement.GetAttribute, exampleFloatParameter, List.lookup])
  have hname : exampleFloatParameter.GetAttribute "name" = "my_float" := by
    simp [SdfElement.GetAttribute, exampleFloatParameter, List.lookup]
  rw [hname] at h
  rw [h]
  exact ⟨rfl, rfl⟩

/-- C22: converting a vector to a `geometry_msgs` message gives a message
whose `x`, `y`, `z` are the `X`, `Y`, `Z` of the vector, and converting that
message back gives the vector again. -/
theorem Convert_Vector3_round_trip (vec : Vector3d) :
    (ConvertVector3dToMsg vec).x = vec.X
    ∧ (ConvertVector3dToMsg vec).y = vec.Y
    ∧ (ConvertVector3dToMsg vec).z = vec.Z
    ∧ ConvertMsgToVector3d (ConvertVector3dToMsg vec) = vec := by
  cases vec
  exact ⟨rfl, rfl, rfl, rfl⟩

/-- C23: for a `gazebo::common::Time` of `s ≥ 0` seconds (`s` a 32-bit signed
value) and `n` nanoseconds with `0 ≤ n < 10^9`, the conversion to
`rclcpp::Time` gives exactly `s * 10^9 + n` nanoseconds, and the conversion to
the message gives `sec = s` and `nanosec = n`. -/
theorem Convert_Time_exact (s n : Int) (hs : 0 ≤ s) (hs32 : s < 2 ^ 31) (hn : 0 ≤ n)
    (hn9 : n < 10 ^ 9) :
    ConvertTimeToRclcppNanoseconds ⟨s, n⟩ = s * 10 ^ 9 + n
    ∧ ConvertTimeToMsg ⟨s, n⟩ = ⟨s, n⟩ := by
  constructor
  · unfold ConvertTimeToRclcppNanoseconds wrapInt64
    have h0 : 0 ≤ s * 10 ^ 9 + n + 2 ^ 63 := by nlinarith
    have h1 : s * 10 ^ 9 + n + 2 ^ 63 < 2 ^ 64 := by nlinarith
    rw [Int.emod_eq_of_lt h0 h1]
    ring
  · unfold ConvertTimeToMsg wrapUInt32
    have h1 : n < 2 ^ 32 := by linarith
    rw [Int.emod_eq_of_lt hn h1]

/-- C23 on the time of the test, `Time(200, 100)`: 200000000100 nanoseconds,
and `sec = 200`, `nanosec = 100`. -/
theorem Convert_Time_exact_witness :
    ConvertTimeToRclcppNanoseconds ⟨200, 100⟩ = 200000000100
    ∧ ConvertTimeToMsg ⟨200, 100⟩ = ⟨200, 100⟩ := by
  have h := Convert_Time_exact 200 100 (by norm_num) (by norm_num) (by norm_num)
    (by norm_num)
  exact ⟨by rw [h.1]; norm_num, h.2⟩

/-- The wrench loop on one job uses the clock reading of its iteration only. -/
theorem wrenchBodySchedulerLoop_singleton (SimTime : Nat → Time) (k : Nat)
    (job : WrenchBodyJob) :
    wrenchBodySchedulerLoop SimTime k [job]
      = wrenchBodySchedulerLoop (fun _ => SimTime k) 0 [job] := by
  simp only [wrenchBodySchedulerLoop]

/-- The joint loop on one job uses the clock reading of its iteration only. -/
theorem forceJointSchedulerLoop_singleton (SimTime : Nat → Time) (k : Nat)
    (job : ForceJointJob) :
    forceJointSchedulerLoop SimTime k [job]
      = forceJointSchedulerLoop (fun _ => SimTime k) 0 [job] := by
  simp only [forceJointSchedulerLoop]

/-- The wrench loop over a concatenation, whatever the clock does: the second
part starts at the read that follows the reads made for the first part. -/
theorem wrenchBodySchedulerLoop_append_reads (SimTime : Nat → Time) (k : Nat)
    (pre post : List WrenchBodyJob) :
    wrenchBodySchedulerLoop SimTime k (pre ++ post)
      = ((wrenchBodySchedulerLoop SimTime k pre).1
            ++ (wrenchBodySchedulerLoop SimTime (k + pre.length) post).1,
          (wrenchBodySchedulerLoop SimTime k pre).2
            ++ (wrenchBodySchedulerLoop SimTime (k + pre.length) post).2) := by
  induction pre generalizing k with
  | nil => simp [wrenchBodySchedulerLoop]
  | cons job rest ih =>
    have hk : k + (job :: rest).length = k + 1 + rest.length := by
      simp only [List.length_cons]; omega
    rw [hk, List.cons_append]
    simp only [wrenchBodySchedulerLoop]
    rw [ih (k + 1)]
    generalize wrenchBodyApply (SimTime k) job = applied
    split <;> simp

/-- The joint loop over a concatenation, whatever the clock does. -/
theorem forceJointSchedulerLoop_append_reads (SimTime : Nat → Time) (k : Nat)
    (pre post : List ForceJointJob) :
    forceJointSchedulerLoop SimTime k (pre ++ post)
      = ((forceJointSchedulerLoop SimTime k pre).1
            ++ (forceJointSchedulerLoop SimTime (k + pre.length) post).1,
          (forceJointSchedulerLoop SimTime k pre).2
            ++ (forceJointSchedulerLoop SimTime (k + pre.length) post).2) := by
  induction pre generalizing k with
  | nil => simp [forceJointSchedulerLoop]
  | cons job rest ih =>
    have hk : k + (job :: rest).length = k + 1 + rest.length := by
      simp only [List.length_cons]; omega
    rw [hk, List.cons_append]
    simp only [forceJointSchedulerLoop]
    rw [ih (k + 1)]
    generalize forceJointApply (SimTime k) job = applied
    split <;> simp

/-- C24, the claim as worded fails: with a clock that reads 0 at the first
read of the pass and 10 afterwards, two equal jobs (`start_time = 5`,
`duration = 1`) of one pass are classified differently, the first as pending
(kept) and the second as expired (erased), where a single snapshot taken at the
start of the pass keeps both. -/
theorem scheduler_reads_clock_per_job_counterexample :
    (wrenchBodySchedulerSlot exampleMovingClock
        (examplePlugin []
          [exampleWrenchJob (some exampleLink) 5 1,
            exampleWrenchJob (some exampleLink) 5 1])).wrench_body_jobs_
      = [exampleWrenchJob (some exampleLink) 5 1]
    ∧ (wrenchBodySchedulerSlot (fun _ => exampleMovingClock 0)
        (examplePlugin []
          [exampleWrenchJob (some exampleLink) 5 1,
            exampleWrenchJob (some exampleLink) 5 1])).wrench_body_jobs_
      = [exampleWrenchJob (some exampleLink) 5 1, exampleWrenchJob (some exampleLink) 5 1]
    ∧ (forceJointSchedulerSlot exampleMovingClock
        (examplePlugin
          [exampleForceJob (some exampleJointJ) 5 1,
            exampleForceJob (some exampleJointJ) 5 1] [])).force_joint_jobs_
      = [exampleForceJob (some exampleJointJ) 5 1]
    ∧ (forceJointSchedulerSlot (fun _ => exampleMovingClock 0)
        (examplePlugin
          [exampleForceJob (some exampleJointJ) 5 1,
            exampleForceJob (some exampleJointJ) 5 1] [])).force_joint_jobs_
      = [exampleForceJob (some exampleJointJ) 5 1,
          exampleForceJob (some exampleJointJ) 5 1] := by
  refine ⟨?_, ?_, ?_, ?_⟩ <;>
    norm_num [wrenchBodySchedulerSlot, wrenchBodySchedulerLoop, wrenchBodyApply,
      forceJointSchedulerSlot, forceJointSchedulerLoop, forceJointApply, examplePlugin,
      exampleWrenchJob, exampleForceJob, exampleMovingClock]

/-- C24 as amended: a scheduler pass reads the clock once per job, and the
job at index `i` of the registry is treated as a pass at the `i`-th reading
would treat it alone; when every reading of the pass is `now`, the pass is the
pass at the instant `now`, all jobs being classified against that value. -/
theorem scheduler_classifies_each_job_at_its_own_read (SimTime : Nat → Time) :
    (∀ (pre post : List WrenchBodyJob) (job : WrenchBodyJob),
        wrenchBodySchedulerLoop SimTime 0 (pre ++ job :: post)
          = ((wrenchBodySchedulerLoop SimTime 0 pre).1
                ++ (wrenchBodySchedulerLoop (fun _ => SimTime pre.length) 0 [job]).1
                ++ (wrenchBodySchedulerLoop SimTime (pre.length + 1) post).1,
              (wrenchBodySchedulerLoop SimTime 0 pre).2
                ++ (wrenchBodySchedulerLoop (fun _ => SimTime pre.length) 0 [job]).2
                ++ (wrenchBodySchedulerLoop SimTime (pre.length + 1) post).2))
    ∧ (∀ (pre post : List ForceJointJob) (job : ForceJointJob),
        forceJointSchedulerLoop SimTime 0 (pre ++ job :: post)
          = ((forceJointSchedulerLoop SimTime 0 pre).1
                ++ (forceJointSchedulerLoop (fun _ => SimTime pre.length) 0 [job]).1
                ++ (forceJointSchedulerLoop SimTime (pre.length + 1) post).1,
              (forceJointSchedulerLoop SimTime 0 pre).2
                ++ (forceJointSchedulerLoop (fun _ => SimTime pre.length) 0 [job]).2
                ++ (forceJointSchedulerLoop SimTime (pre.length + 1) post).2))
    ∧ (∀ (now : Time) (self : GazeboRosApiPlugin), (∀ k, SimTime k = now) →
        wrenchBodySchedulerSlot SimTime self = wrenchBodySchedulerSlot (fun _ => now) self
        ∧ forceJointSchedulerSlot SimTime self
          = forceJointSchedulerSlot (fun _ => now) self) := by
  refine ⟨?_, ?_, ?_⟩
  · intro pre post job
    rw [wrenchBodySchedulerLoop_append_reads, Nat.zero_add]
    have hsplit : job :: post = [job] ++ post := rfl
    rw [hsplit, wrenchBodySchedulerLoop_append_reads, wrenchBodySchedulerLoop_singleton]
    simp
  · intro pre post job
    rw [forceJointSchedulerLoop_append_reads, Nat.zero_add]
    have hsplit : job :: post = [job] ++ post := rfl
    rw [hsplit, forceJointSchedulerLoop_append_reads, forceJointSchedulerLoop_singleton]
    simp
  · intro now self hconst
    have hclock : SimTime = fun _ => now := funext hconst
    rw [hclock]
    exact ⟨rfl, rfl⟩

/-- C24 as amended, on a clock that reads 7 at every read: the pass is the
pass at the instant 7. -/
theorem scheduler_classifies_each_job_at_its_own_read_witness :
    (wrenchBodySchedulerSlot (fun k => if k = 0 then 7 else 7)
        (examplePlugin []
          [exampleWrenchJob (some exampleLink) 5 1,
            exampleWrenchJob (some exampleLink) 5 1])).wrench_body_jobs_
      = [] := by
  have h := ((scheduler_classifies_each_job_at_its_own_read
    (fun k => if k = 0 then 7 else 7)).2.2 7
    (examplePlugin []
      [exampleWrenchJob (some exampleLink) 5 1, exampleWrenchJob (some exampleLink) 5 1])
    (by intro k; by_cases hk : k = 0 <;> simp [hk])).1
  rw [h]
  norm_num [wrenchBodySchedulerSlot, wrenchBodySchedulerLoop, wrenchBodyApply, examplePlugin,
    exampleWrenchJob]

/-- The wrench loop logs nothing but `SetForce` / `SetTorque` calls. -/
theorem wrenchBodySchedulerLoop_calls_are_writes (SimTime : Nat → Time) (k : Nat)
    (jobs : List WrenchBodyJob) :
    ∀ call ∈ (wrenchBodySchedulerLoop SimTime k jobs).2, call.isForceWrite = true := by
  induction jobs generalizing k with
  | nil => simp [wrenchBodySchedulerLoop]
  | cons job rest ih =>
    have happlied : ∀ call ∈ (wrenchBodyApply (SimTime k) job).2,
        call.isForceWrite = true := by
      unfold wrenchBodyApply
      intro call hcall
      split at hcall
      · split at hcall
        · split at hcall
          · simp only [List.mem_cons, List.mem_singleton, List.mem_nil_iff, or_false] at hcall
            rcases hcall with h | h <;> rw [h] <;> rfl
          · cases hcall
        · cases hcall
      · cases hcall
    intro call hcall
    simp only [wrenchBodySchedulerLoop] at hcall
    have hmem : call ∈ (wrenchBodyApply (SimTime k) job).2
        ++ (wrenchBodySchedulerLoop SimTime (k + 1) rest).2 := by
      split at hcall <;> exact hcall
    rcases List.mem_append.mp hmem with h | h
    · exact happlied call h
    · exact ih (k + 1) call h

/-- The joint loop logs nothing but `SetForce` calls. -/
theorem forceJointSchedulerLoop_calls_are_writes (SimTime : Nat → Time) (k : Nat)
    (jobs : List ForceJointJob) :
    ∀ call ∈ (forceJointSchedulerLoop SimTime k jobs).2, call.isForceWrite = true := by
  induction jobs generalizing k with
  | nil => simp [forceJointSchedulerLoop]
  | cons job rest ih =>
    have happlied : ∀ call ∈ (forceJointApply (SimTime k) job).2,
        call.isForceWrite = true := by
      unfold forceJointApply
      intro call hcall
      split at hcall
      · split at hcall
        · split at hcall
          · simp only [List.mem_singleton] at hcall
            rw [hcall]; rfl
          · cases hcall
        · cases hcall
      · cases hcall
    intro call hcall
    simp only [forceJointSchedulerLoop] at hcall
    have hmem : call ∈ (forceJointApply (SimTime k) job).2
        ++ (forceJointSchedulerLoop SimTime (k + 1) rest).2 := by
      split at hcall <;> exact hcall
    rcases List.mem_append.mp hmem with h | h
    · exact happlied call h
    · exact ih (k + 1) call h

/-- In a log made of force writes followed by an unlock, with the lock held at
the start, every write is under the lock. -/
theorem writesUnderLock_held (writes : List Call)
    (hwrites : ∀ call ∈ writes, call.isForceWrite = true) :
    writesUnderLock true (writes ++ [Call.unlock]) = writes
    ∧ (writes ++ [Call.unlock]).filter Call.isForceWrite = writes := by
  induction writes with
  | nil => simp [writesUnderLock, Call.isForceWrite]
  | cons call rest ih =>
    have hcall := hwrites call (List.mem_cons_self _ _)
    obtain ⟨ih1, ih2⟩ := ih (fun c hc => hwrites c (List.mem_cons_of_mem _ hc))
    constructor
    · cases call <;> simp [Call.isForceWrite] at hcall <;>
        simp [writesUnderLock, Call.isForceWrite, ih1]
    · rw [List.cons_append, List.filter_cons_of_pos hcall, ih2]

/-- C25, the claim as worded fails: in the passes at `now = 1` over one active
job the `SetForce` / `SetTorque` calls stand in the log between the lock and
the unlock, and they are the writes made while `lock_` is held. -/
theorem scheduler_writes_under_lock_counterexample :
    (wrenchBodySchedulerSlot (fun _ => 1)
        (examplePlugin [] [exampleWrenchJob (some exampleLink) 0 2])).calls
      = [Call.lock, Call.LinkSetForce exampleLink ⟨1, 0, 0⟩,
          Call.LinkSetTorque exampleLink ⟨0, 0, 2⟩, Call.unlock]
    ∧ writesUnderLock false
        (wrenchBodySchedulerSlot (fun _ => 1)
          (examplePlugin [] [exampleWrenchJob (some exampleLink) 0 2])).calls
      = [Call.LinkSetForce exampleLink ⟨1, 0, 0⟩, Call.LinkSetTorque exampleLink ⟨0, 0, 2⟩]
    ∧ (forceJointSchedulerSlot (fun _ => 1)
        (examplePlugin [exampleForceJob (some exampleJointJ) 0 2] [])).calls
      = [Call.lock, Call.JointSetForce exampleJointJ 0 5, Call.unlock]
    ∧ writesUnderLock false
        (forceJointSchedulerSlot (fun _ => 1)
          (examplePlugin [exampleForceJob (some exampleJointJ) 0 2] [])).calls
      = [Call.JointSetForce exampleJointJ 0 5] := by
  have hw : (wrenchBodySchedulerSlot (fun _ => 1)
      (examplePlugin [] [exampleWrenchJob (some exampleLink) 0 2])).calls
      = [Call.lock, Call.LinkSetForce exampleLink ⟨1, 0, 0⟩,
          Call.LinkSetTorque exampleLink ⟨0, 0, 2⟩, Call.unlock] := by
    norm_num [wrenchBodySchedulerSlot, wrenchBodySchedulerLoop, wrenchBodyApply,
      examplePlugin, exampleWrenchJob]
  have hj : (forceJointSchedulerSlot (fun _ => 1)
      (examplePlugin [exampleForceJob (some exampleJointJ) 0 2] [])).calls
      = [Call.lock, Call.JointSetForce exampleJointJ 0 5, Call.unlock] := by
    norm_num [forceJointSchedulerSlot, forceJointSchedulerLoop, forceJointApply,
      examplePlugin, exampleForceJob]
  refine ⟨hw, ?_, hj, ?_⟩
  · rw [hw]; simp [writesUnderLock, Call.isForceWrite]
  · rw [hj]; simp [writesUnderLock, Call.isForceWrite]

/-- C25 as amended: a scheduler pass takes `lock_` once, at its start, and
releases it once, at its end; every `SetForce` / `SetTorque` call of the pass
is made in between, while the lock is held. -/
theorem scheduler_holds_lock_for_whole_pass (SimTime : Nat → Time)
    (self : GazeboRosApiPlugin) :
    ((wrenchBodySchedulerSlot SimTime self).calls
        = self.calls ++ Call.lock
          :: ((wrenchBodySchedulerLoop SimTime 0 self.wrench_body_jobs_).2 ++ [Call.unlock])
      ∧ writesUnderLock false
          (Call.lock
            :: ((wrenchBodySchedulerLoop SimTime 0 self.wrench_body_jobs_).2 ++ [Call.unlock]))
        = (wrenchBodySchedulerLoop SimTime 0 self.wrench_body_jobs_).2
      ∧ (Call.lock
          :: ((wrenchBodySchedulerLoop SimTime 0 self.wrench_body_jobs_).2
            ++ [Call.unlock])).filter Call.isForceWrite
        = (wrenchBodySchedulerLoop SimTime 0 self.wrench_body_jobs_).2)
    ∧ ((forceJointSchedulerSlot SimTime self).calls
        = self.calls ++ Call.lock
          :: ((forceJointSchedulerLoop SimTime 0 self.force_joint_jobs_).2 ++ [Call.unlock])
      ∧ writesUnderLock false
          (Call.lock
            :: ((forceJointSchedulerLoop SimTime 0 self.force_joint_jobs_).2 ++ [Call.unlock]))
        = (forceJointSchedulerLoop SimTime 0 self.force_joint_jobs_).2
      ∧ (Call.lock
          :: ((forceJointSchedulerLoop SimTime 0 self.force_joint_jobs_).2
            ++ [Call.unlock])).filter Call.isForceWrite
        = (forceJointSchedulerLoop SimTime 0 self.force_joint_jobs_).2) := by
  constructor
  · obtain ⟨h1, h2⟩ := writesUnderLock_held _
      (wrenchBodySchedulerLoop_calls_are_writes SimTime 0 self.wrench_body_jobs_)
    refine ⟨by simp [wrenchBodySchedulerSlot], ?_, ?_⟩
    · simp only [writesUnderLock]
      exact h1
    · rw [List.filter_cons_of_neg (by simp [Call.isForceWrite])]
      exact h2
  · obtain ⟨h1, h2⟩ := writesUnderLock_held _
      (forceJointSchedulerLoop_calls_are_writes SimTime 0 self.force_joint_jobs_)
    refine ⟨by simp [forceJointSchedulerSlot], ?_, ?_⟩
    · simp only [writesUnderLock]
      exact h1
    · rw [List.filter_cons_of_neg (by simp [Call.isForceWrite])]
      exact h2

/-- At a fixed instant, the wrench loop leaves what it left of one job. -/
theorem wrenchBodySchedulerLoop_singleton_twice (now : Time) (job : WrenchBodyJob) :
    (wrenchBodySchedulerLoop (fun _ => now) 0
        (wrenchBodySchedulerLoop (fun _ => now) 0 [job]).1).1
      = (wrenchBodySchedulerLoop (fun _ => now) 0 [job]).1 := by
  cases hbody : job.body with
  | some body =>
    rw [wrenchBodySchedulerLoop_live now job body hbody]
    by_cases hexp : now > job.start_time + job.duration ∧ job.duration ≥ 0
    · simp [hexp, wrenchBodySchedulerLoop]
    · simp only [if_neg hexp]
      rw [wrenchBodySchedulerLoop_live now job body hbody]
      simp [hexp]
  | none =>
    rw [wrenchBodySchedulerLoop_null now job hbody]
    by_cases hgt : now > job.start_time
    · simp [hgt, wrenchBodySchedulerLoop]
    · by_cases heq : now = job.start_time
      · simp only [if_neg hgt, if_pos heq]
        rw [wrenchBodySchedulerLoop_null now
          ⟨job.body, job.force, job.torque, job.start_time, 0⟩ hbody]
        simp [hgt, heq]
      · simp only [if_neg hgt, if_neg heq]
        rw [wrenchBodySchedulerLoop_null now job hbody]
        simp [hgt, heq]

/-- At a fixed instant, the joint loop leaves what it left of one job. -/
theorem forceJointSchedulerLoop_singleton_twice (now : Time) (job : ForceJointJob) :
    (forceJointSchedulerLoop (fun _ => now) 0
        (forceJointSchedulerLoop (fun _ => now) 0 [job]).1).1
      = (forceJointSchedulerLoop (fun _ => now) 0 [job]).1 := by
  cases hjoint : job.joint with
  | some joint =>
    rw [forceJointSchedulerLoop_live now job joint hjoint]
    by_cases hexp : now > job.start_time + job.duration ∧ job.duration ≥ 0
    · simp [hexp, forceJointSchedulerLoop]
    · simp only [if_neg hexp]
      rw [forceJointSchedulerLoop_live now job joint hjoint]
      simp [hexp]
  | none =>
    rw [forceJointSchedulerLoop_null now job hjoint]
    by_cases hgt : now > job.start_time
    · simp [hgt, forceJointSchedulerLoop]
    · by_cases heq : now = job.start_time
      · simp only [if_neg hgt, if_pos heq]
        rw [forceJointSchedulerLoop_null now
          ⟨job.joint, job.force, job.start_time, 0⟩ hjoint]
        simp [hgt, heq]
      · simp only [if_neg hgt, if_neg heq]
        rw [forceJointSchedulerLoop_null now job hjoint]
        simp [hgt, heq]

/-- At a fixed instant, the wrench loop run on its own result changes
nothing. -/
theorem wrenchBodySchedulerLoop_twice (now : Time) (jobs : List WrenchBodyJob) :
    (wrenchBodySchedulerLoop (fun _ => now) 0
        (wrenchBodySchedulerLoop (fun _ => now) 0 jobs).1).1
      = (wrenchBodySchedulerLoop (fun _ => now) 0 jobs).1 := by
  induction jobs with
  | nil => simp [wrenchBodySchedulerLoop]
  | cons job rest ih =>
    rw [wrenchBodySchedulerLoop_cons now job rest]
    simp only
    rw [wrenchBodySchedulerLoop_append, wrenchBodySchedulerLoop_singleton_twice, ih]

/-- At a fixed instant, the joint loop run on its own result changes
nothing. -/
theorem forceJointSchedulerLoop_twice (now : Time) (jobs : List ForceJointJob) :
    (forceJointSchedulerLoop (fun _ => now) 0
        (forceJointSchedulerLoop (fun _ => now) 0 jobs).1).1
      = (forceJointSchedulerLoop (fun _ => now) 0 jobs).1 := by
  induction jobs with
  | nil => simp [forceJointSchedulerLoop]
  | cons job rest ih =>
    rw [forceJointSchedulerLoop_cons now job rest]
    simp only
    rw [forceJointSchedulerLoop_append, forceJointSchedulerLoop_singleton_twice, ih]

/-- The registry left by the wrench loop is a sublist of the jobs as the first
`if` of their iteration leaves them. -/
theorem wrenchBodySchedulerLoop_sublist (now : Time) (jobs : List WrenchBodyJob) :
    (wrenchBodySchedulerLoop (fun _ => now) 0 jobs).1.Sublist
      (jobs.map (fun job => (wrenchBodyApply now job).1)) := by
  induction jobs with
  | nil => simp [wrenchBodySchedulerLoop]
  | cons job rest ih =>
    simp only [wrenchBodySchedulerLoop, List.map_cons]
    rw [wrenchBodySchedulerLoop_const now (0 + 1)]
    split
    · exact List.Sublist.cons _ ih
    · exact List.Sublist.cons₂ _ ih

/-- The registry left by the joint loop is a sublist of the jobs as the first
`if` of their iteration leaves them. -/
theorem forceJointSchedulerLoop_sublist (now : Time) (jobs : List ForceJointJob) :
    (forceJointSchedulerLoop (fun _ => now) 0 jobs).1.Sublist
      (jobs.map (fun job => (forceJointApply now job).1)) := by
  induction jobs with
  | nil => simp [forceJointSchedulerLoop]
  | cons job rest ih =>
    simp only [forceJointSchedulerLoop, List.map_cons]
    rw [forceJointSchedulerLoop_const now (0 + 1)]
    split
    · exact List.Sublist.cons _ ih
    · exact List.Sublist.cons₂ _ ih

/-- The first `if` of an iteration leaves a job with a live body as it is. -/
theorem wrenchBodyApply_live (now : Time) (job : WrenchBodyJob) (h : job.body ≠ none) :
    (wrenchBodyApply now job).1 = job := by
  unfold wrenchBodyApply
  cases hbody : job.body with
  | none => exact absurd hbody h
  | some body => split <;> [split; skip] <;> rfl

/-- The first `if` of an iteration leaves a job with a live joint as it is. -/
theorem forceJointApply_live (now : Time) (job : ForceJointJob) (h : job.joint ≠ none) :
    (forceJointApply now job).1 = job := by
  unfold forceJointApply
  cases hjoint : job.joint with
  | none => exact absurd hjoint h
  | some joint => split <;> [split; skip] <;> rfl

/-- C29: at a fixed instant `now`, whatever the registry and whichever targets
are live or null, a second scheduler pass leaves the registry exactly as the
first left it; a pass adds no job, and what it leaves is, in order, a sublist
of the jobs as the first `if` of the loop body leaves them, so a sublist of the
registry itself when every target is live. -/
theorem scheduler_pass_idempotent (now : Time) (self : GazeboRosApiPlugin) :
    ((wrenchBodySchedulerSlot (fun _ => now)
          (wrenchBodySchedulerSlot (fun _ => now) self)).wrench_body_jobs_
        = (wrenchBodySchedulerSlot (fun _ => now) self).wrench_body_jobs_
      ∧ (wrenchBodySchedulerSlot (fun _ => now) self).wrench_body_jobs_.length
        ≤ self.wrench_body_jobs_.length
      ∧ (wrenchBodySchedulerSlot (fun _ => now) self).wrench_body_jobs_.Sublist
          (self.wrench_body_jobs_.map (fun job => (wrenchBodyApply now job).1))
      ∧ ((∀ job ∈ self.wrench_body_jobs_, job.body ≠ none) →
          (wrenchBodySchedulerSlot (fun _ => now) self).wrench_body_jobs_.Sublist
            self.wrench_body_jobs_))
    ∧ ((forceJointSchedulerSlot (fun _ => now)
          (forceJointSchedulerSlot (fun _ => now) self)).force_joint_jobs_
        = (forceJointSchedulerSlot (fun _ => now) self).force_joint_jobs_
      ∧ (forceJointSchedulerSlot (fun _ => now) self).force_joint_jobs_.length
        ≤ self.force_joint_jobs_.length
      ∧ (forceJointSchedulerSlot (fun _ => now) self).force_joint_jobs_.Sublist
          (self.force_joint_jobs_.map (fun job => (forceJointApply now job).1))
      ∧ ((∀ job ∈ self.force_joint_jobs_, job.joint ≠ none) →
          (forceJointSchedulerSlot (fun _ => now) self).force_joint_jobs_.Sublist
            self.force_joint_jobs_)) := by
  constructor
  · have hsub := wrenchBodySchedulerLoop_sublist now self.wrench_body_jobs_
    refine ⟨?_, ?_, ?_, ?_⟩
    · simp only [wrenchBodySchedulerSlot]
      exact wrenchBodySchedulerLoop_twice now self.wrench_body_jobs_
    · simpa using hsub.length_le
    · exact hsub
    · intro hlive
      have hmap : self.wrench_body_jobs_.map (fun job => (wrenchBodyApply now job).1)
          = self.wrench_body_jobs_ := by
        conv_rhs => rw [← List.map_id self.wrench_body_jobs_]
        exact List.map_congr_left (fun job hjob => wrenchBodyApply_live now job (hlive job hjob))
      rw [hmap] at hsub
      exact hsub
  · have hsub := forceJointSchedulerLoop_sublist now self.force_joint_jobs_
    refine ⟨?_, ?_, ?_, ?_⟩
    · simp only [forceJointSchedulerSlot]
      exact forceJointSchedulerLoop_twice now self.force_joint_jobs_
    · simpa using hsub.length_le
    · exact hsub
    · intro hlive
      have hmap : self.force_joint_jobs_.map (fun job => (forceJointApply now job).1)
          = self.force_joint_jobs_ := by
        conv_rhs => rw [← List.map_id self.force_joint_jobs_]
        exact List.map_congr_left (fun job hjob => forceJointApply_live now job (hlive job hjob))
      rw [hmap] at hsub
      exact hsub

/-- C29 on a registry of live jobs (pending, active, expired, indefinite) at
`now = 4`: what the pass leaves is a sublist of the registry. -/
theorem scheduler_pass_idempotent_witness :
    (wrenchBodySchedulerSlot (fun _ => 4)
        (examplePlugin []
          [exampleWrenchJob (some exampleLink) 5 1, exampleWrenchJob (some exampleLink) 2 2,
            exampleWrenchJob (some exampleLink) 1 2,
            exampleWrenchJob (some exampleLink) 0 (-1)])).wrench_body_jobs_.Sublist
      [exampleWrenchJob (some exampleLink) 5 1, exampleWrenchJob (some exampleLink) 2 2,
        exampleWrenchJob (some exampleLink) 1 2, exampleWrenchJob (some exampleLink) 0 (-1)] :=
  (scheduler_pass_idempotent 4
    (examplePlugin []
      [exampleWrenchJob (some exampleLink) 5 1, exampleWrenchJob (some exampleLink) 2 2,
        exampleWrenchJob (some exampleLink) 1 2,
        exampleWrenchJob (some exampleLink) 0 (-1)])).1.2.2.2
    (by simp [examplePlugin, exampleWrenchJob])

/-- One run of the inner loop of `clearJointForces` that finds a match leaves
one matching job less; a run that finds none had none to find. -/
theorem clearJointForcesScan_count (joint_name : String) (jobs : List ForceJointJob) :
    (∀ jobs', clearJointForcesScan joint_name jobs = some (true, jobs') →
        jobs'.countP (fun job => decide (job.joint.map Joint.GetName = some joint_name)) + 1
          = jobs.countP (fun job => decide (job.joint.map Joint.GetName = some joint_name)))
    ∧ (∀ jobs', clearJointForcesScan joint_name jobs = some (false, jobs') →
        jobs.countP (fun job => decide (job.joint.map Joint.GetName = some joint_name))
          = 0) := by
  induction jobs with
  | nil => simp [clearJointForcesScan]
  | cons job rest ih =>
    obtain ⟨ih1, ih2⟩ := ih
    cases hj : job.joint with
    | none =>
      simp only [clearJointForcesScan, hj]
      constructor <;> intro jobs' h <;> simp at h
    | some joint =>
      by_cases hname : joint.GetName = joint_name
      · simp only [clearJointForcesScan, hj, hname, if_true]
        constructor
        · intro jobs' h
          simp only [Option.some.injEq, Prod.mk.injEq, true_and] at h
          subst h
          rw [List.countP_cons_of_pos _ _ (by simp [hj, hname])]
        · intro jobs' h
          simp at h
      · simp only [clearJointForcesScan, hj, hname, if_false]
        cases hrest : clearJointForcesScan joint_name rest with
        | none =>
          simp only
          constructor <;> intro jobs' h <;> simp at h
        | some found =>
          obtain ⟨search, rest'⟩ := found
          simp only
          constructor
          · intro jobs' h
            simp only [Option.some.injEq, Prod.mk.injEq] at h
            obtain ⟨hs, hjobs⟩ := h
            subst hs hjobs
            rw [List.countP_cons_of_neg _ _ (by simp [hj, hname]),
              List.countP_cons_of_neg _ _ (by simp [hj, hname])]
            exact ih1 rest' hrest
          · intro jobs' h
            simp only [Option.some.injEq, Prod.mk.injEq] at h
            obtain ⟨hs, hjobs⟩ := h
            subst hs
            rw [List.countP_cons_of_neg _ _ (by simp [hj, hname])]
            exact ih2 rest' hrest

/-- On a registry without null joint pointer, the `while` loop of
`clearJointForces` runs out of fuel exactly when the fuel is at most the number
of matching jobs. -/
theorem clearJointForcesLoop_count (joint_name : String) (fuel : Nat)
    (jobs : List ForceJointJob) (hlive : ∀ job ∈ jobs, job.joint ≠ none) :
    (fuel ≤ jobs.countP (fun job => decide (job.joint.map Joint.GetName = some joint_name)) →
        clearJointForcesLoop joint_name fuel jobs = Run.outOfFuel)
    ∧ (jobs.countP (fun job => decide (job.joint.map Joint.GetName = some joint_name)) < fuel →
        clearJointForcesLoop joint_name fuel jobs
          = Run.returned
            (jobs.filter
              (fun job => decide (job.joint.map Joint.GetName ≠ some joint_name)))) := by
  induction fuel generalizing jobs with
  | zero => exact ⟨fun _ => rfl, fun h => absurd h (Nat.not_lt_zero _)⟩
  | succ fuel ih =>
    obtain ⟨h1, h2, h3⟩ := clearJointForcesScan_spec joint_name jobs
    obtain ⟨c1, c2⟩ := clearJointForcesScan_count joint_name jobs
    cases hscan : clearJointForcesScan joint_name jobs with
    | none =>
      obtain ⟨j, hmem, hnull⟩ := h1 hscan
      exact absurd hnull (hlive j hmem)
    | some found =>
      obtain ⟨search, jobs'⟩ := found
      cases search with
      | true =>
        obtain ⟨_, hfil, hlive'⟩ := h2 jobs' hscan
        have hcount := c1 jobs' hscan
        obtain ⟨ih1, ih2⟩ := ih jobs' (hlive'.mpr hlive)
        simp only [clearJointForcesLoop, hscan]
        constructor
        · intro hle
          exact ih1 (by omega)
        · intro hlt
          rw [← hfil]
          exact ih2 (by omega)
      | false =>
        obtain ⟨heq, _, hfil⟩ := h3 jobs' hscan
        have hcount := c2 jobs' hscan
        subst heq
        simp only [clearJointForcesLoop, hscan]
        constructor
        · intro hle
          omega
        · intro _
          rw [hfil]

/-- One run of the inner loop of `clearBodyWrenches` that finds a match leaves
one matching job less; a run that finds none had none to find. -/
theorem clearBodyWrenchesScan_count (body_name : String) (jobs : List WrenchBodyJob) :
    (∀ jobs', clearBodyWrenchesScan body_name jobs = some (true, jobs') →
        jobs'.countP
            (fun job => decide (job.body.map Entity.GetScopedName = some body_name)) + 1
          = jobs.countP
            (fun job => decide (job.body.map Entity.GetScopedName = some body_name)))
    ∧ (∀ jobs', clearBodyWrenchesScan body_name jobs = some (false, jobs') →
        jobs.countP (fun job => decide (job.body.map Entity.GetScopedName = some body_name))
          = 0) := by
  induction jobs with
  | nil => simp [clearBodyWrenchesScan]
  | cons job rest ih =>
    obtain ⟨ih1, ih2⟩ := ih
    cases hj : job.body with
    | none =>
      simp only [clearBodyWrenchesScan, hj]
      constructor <;> intro jobs' h <;> simp at h
    | some body =>
      by_cases hname : body.GetScopedName = body_name
      · simp only [clearBodyWrenchesScan, hj, hname, if_true]
        constructor
        · intro jobs' h
          simp only [Option.some.injEq, Prod.mk.injEq, true_and] at h
          subst h
          rw [List.countP_cons_of_pos _ _ (by simp [hj, hname])]
        · intro jobs' h
          simp at h
      · simp only [clearBodyWrenchesScan, hj, hname, if_false]
        cases hrest : clearBodyWrenchesScan body_name rest with
        | none =>
          simp only
          constructor <;> intro jobs' h <;> simp at h
        | some found =>
          obtain ⟨search, rest'⟩ := found
          simp only
          constructor
          · intro jobs' h
            simp only [Option.some.injEq, Prod.mk.injEq] at h
            obtain ⟨hs, hjobs⟩ := h
            subst hs hjobs
            rw [List.countP_cons_of_neg _ _ (by simp [hj, hname]),
              List.countP_cons_of_neg _ _ (by simp [hj, hname])]
            exact ih1 rest' hrest
          · intro jobs' h
            simp only [Option.some.injEq, Prod.mk.injEq] at h
            obtain ⟨hs, hjobs⟩ := h
            subst hs
            rw [List.countP_cons_of_neg _ _ (by simp [hj, hname])]
            exact ih2 rest' hrest

/-- On a registry without null body pointer, the `while` loop of
`clearBodyWrenches` runs out of fuel exactly when the fuel is at most the
number of matching jobs. -/
theorem clearBodyWrenchesLoop_count (body_name : String) (fuel : Nat)
    (jobs : List WrenchBodyJob) (hlive : ∀ job ∈ jobs, job.body ≠ none) :
    (fuel ≤ jobs.countP
          (fun job => decide (job.body.map Entity.GetScopedName = some body_name)) →
        clearBodyWrenchesLoop body_name fuel jobs = Run.outOfFuel)
    ∧ (jobs.countP (fun job => decide (job.body.map Entity.GetScopedName = some body_name))
          < fuel →
        clearBodyWrenchesLoop body_name fuel jobs
          = Run.returned
            (jobs.filter
              (fun job => decide (job.body.map Entity.GetScopedName ≠ some body_name)))) := by
  induction fuel generalizing jobs with
  | zero => exact ⟨fun _ => rfl, fun h => absurd h (Nat.not_lt_zero _)⟩
  | succ fuel ih =>
    obtain ⟨h1, h2, h3⟩ := clearBodyWrenchesScan_spec body_name jobs
    obtain ⟨c1, c2⟩ := clearBodyWrenchesScan_count body_name jobs
    cases hscan : clearBodyWrenchesScan body_name jobs with
    | none =>
      obtain ⟨j, hmem, hnull⟩ := h1 hscan
      exact absurd hnull (hlive j hmem)
    | some found =>
      obtain ⟨search, jobs'⟩ := found
      cases search with
      | true =>
        obtain ⟨_, hfil, hlive'⟩ := h2 jobs' hscan
        have hcount := c1 jobs' hscan
        obtain ⟨ih1, ih2⟩ := ih jobs' (hlive'.mpr hlive)
        simp only [clearBodyWrenchesLoop, hscan]
        constructor
        · intro hle
          exact ih1 (by omega)
        · intro hlt
          rw [← hfil]
          exact ih2 (by omega)
      | false =>
        obtain ⟨heq, _, hfil⟩ := h3 jobs' hscan
        have hcount := c2 jobs' hscan
        subst heq
        simp only [clearBodyWrenchesLoop, hscan]
        constructor
        · intro hle
          omega
        · intro _
          rw [hfil]

/-- C26: on a registry without null target pointer, with `m` the number of
jobs that match the name, the body of the `while (search)` loop of
`clearJointForces` and of `clearBodyWrenches` runs exactly `m + 1` times: the
loop returns (the registry without the matching jobs) when it is allowed
`m + 1` runs and does not when it is allowed `m` or fewer; each run that sets
`search` again has erased exactly one job, a matching one; and the methods,
which allow one run more than the registry has jobs, never stop for lack of
runs, whatever the registry. -/
theorem clear_loops_run_once_more_than_matches (name : String) :
    (∀ jobs : List ForceJointJob, (∀ job ∈ jobs, job.joint ≠ none) →
        (∀ fuel, clearJointForcesLoop name fuel jobs = Run.outOfFuel
          ↔ fuel ≤ jobs.countP (fun job => decide (job.joint.map Joint.GetName = some name)))
        ∧ clearJointForcesLoop name
            (jobs.countP (fun job => decide (job.joint.map Joint.GetName = some name)) + 1)
            jobs
          = Run.returned
            (jobs.filter (fun job => decide (job.joint.map Joint.GetName ≠ some name)))
        ∧ (∀ jobs', clearJointForcesScan name jobs = some (true, jobs') →
            jobs'.length + 1 = jobs.length
            ∧ jobs'.countP (fun job => decide (job.joint.map Joint.GetName = some name)) + 1
              = jobs.countP (fun job => decide (job.joint.map Joint.GetName = some name))))
    ∧ (∀ jobs : List WrenchBodyJob, (∀ job ∈ jobs, job.body ≠ none) →
        (∀ fuel, clearBodyWrenchesLoop name fuel jobs = Run.outOfFuel
          ↔ fuel ≤ jobs.countP
              (fun job => decide (job.body.map Entity.GetScopedName = some name)))
        ∧ clearBodyWrenchesLoop name
            (jobs.countP
              (fun job => decide (job.body.map Entity.GetScopedName = some name)) + 1)
            jobs
          = Run.returned
            (jobs.filter
              (fun job => decide (job.body.map Entity.GetScopedName ≠ some name)))
        ∧ (∀ jobs', clearBodyWrenchesScan name jobs = some (true, jobs') →
            jobs'.length + 1 = jobs.length
            ∧ jobs'.countP
                (fun job => decide (job.body.map Entity.GetScopedName = some name)) + 1
              = jobs.countP
                (fun job => decide (job.body.map Entity.GetScopedName = some name))))
    ∧ (∀ self : GazeboRosApiPlugin,
        clearJointForces name self ≠ Run.outOfFuel
        ∧ clearBodyWrenches name self ≠ Run.outOfFuel) := by
  refine ⟨?_, ?_, ?_⟩
  · intro jobs hlive
    refine ⟨?_, ?_, ?_⟩
    · intro fuel
      obtain ⟨h1, h2⟩ := clearJointForcesLoop_count name fuel jobs hlive
      constructor
      · intro hout
        by_contra hgt
        rw [h2 (not_le.mp hgt)] at hout
        cases hout
      · exact h1
    · exact (clearJointForcesLoop_count name _ jobs hlive).2 (Nat.lt_succ_self _)
    · intro jobs' hscan
      exact ⟨((clearJointForcesScan_spec name jobs).2.1 jobs' hscan).1,
        (clearJointForcesScan_count name jobs).1 jobs' hscan⟩
  · intro jobs hlive
    refine ⟨?_, ?_, ?_⟩
    · intro fuel
      obtain ⟨h1, h2⟩ := clearBodyWrenchesLoop_count name fuel jobs hlive
      constructor
      · intro hout
        by_contra hgt
        rw [h2 (not_le.mp hgt)] at hout
        cases hout
      · exact h1
    · exact (clearBodyWrenchesLoop_count name _ jobs hlive).2 (Nat.lt_succ_self _)
    · intro jobs' hscan
      exact ⟨((clearBodyWrenchesScan_spec name jobs).2.1 jobs' hscan).1,
        (clearBodyWrenchesScan_count name jobs).1 jobs' hscan⟩
  · intro self
    constructor
    · obtain ⟨h1, h2⟩ := clearJointForces_spec name self
      by_cases hlive : ∀ job ∈ self.force_joint_jobs_, job.joint ≠ none
      · rw [h1 hlive]; intro h; cases h
      · rw [h2 hlive]; intro h; cases h
    · obtain ⟨h1, h2⟩ := clearBodyWrenches_spec name self
      by_cases hlive : ∀ job ∈ self.wrench_body_jobs_, job.body ≠ none
      · rw [h1 hlive]; intro h; cases h
      · rw [h2 hlive]; intro h; cases h

/-- C26 on the registry of two jobs on `j` around one on `k`: clearing `j`
does not end within two runs of the loop body and ends in the third. -/
theorem clear_loops_run_once_more_than_matches_witness :
    clearJointForcesLoop "j" 2
        [exampleForceJob (some exampleJointJ) 0 1, exampleForceJob (some exampleJointK) 0 2,
          exampleForceJob (some exampleJointJ) 3 (-1)]
      = Run.outOfFuel
    ∧ clearJointForcesLoop "j" 3
        [exampleForceJob (some exampleJointJ) 0 1, exampleForceJob (some exampleJointK) 0 2,
          exampleForceJob (some exampleJointJ) 3 (-1)]
      = Run.returned [exampleForceJob (some exampleJointK) 0 2] := by
  have h := (clear_loops_run_once_more_than_matches "j").1
    [exampleForceJob (some exampleJointJ) 0 1, exampleForceJob (some exampleJointK) 0 2,
      exampleForceJob (some exampleJointJ) 3 (-1)]
    (by simp [exampleForceJob])
  have hcount : List.countP
      (fun job : ForceJointJob => decide (job.joint.map Joint.GetName = some "j"))
      [exampleForceJob (some exampleJointJ) 0 1, exampleForceJob (some exampleJointK) 0 2,
        exampleForceJob (some exampleJointJ) 3 (-1)] = 2 := by
    simp [List.countP_cons, exampleForceJob, exampleJointJ, exampleJointK]
  have hfilter : List.filter
      (fun job : ForceJointJob => decide (job.joint.map Joint.GetName ≠ some "j"))
      [exampleForceJob (some exampleJointJ) 0 1, exampleForceJob (some exampleJointK) 0 2,
        exampleForceJob (some exampleJointJ) 3 (-1)]
      = [exampleForceJob (some exampleJointK) 0 2] := by
    simp [exampleForceJob, exampleJointJ, exampleJointK]
  constructor
  · exact (h.1 2).mpr (by rw [hcount])
  · have h3 := h.2.1
    rw [hcount, hfilter] at h3
    exact h3

/-- One step of `rfindScope`. -/
theorem rfindScope_cons (c : Char) (rest : List Char) :
    rfindScope (c :: rest)
      = match rfindScope rest with
        | some idx => some (idx + 1)
        | none => if c = ':' ∧ rest.head? = some ':' then some 0 else none := rfl

/-- A string in which `::` occurs has a last occurrence. -/
theorem rfindScope_of_occurrence (pre post : List Char) :
    rfindScope (pre ++ ':' :: ':' :: post) ≠ none := by
  induction pre with
  | nil =>
    rw [List.nil_append, rfindScope_cons]
    cases rfindScope (':' :: post) <;> simp
  | cons c rest ih =>
    rw [List.cons_append, rfindScope_cons]
    cases h : rfindScope (rest ++ ':' :: ':' :: post) with
    | none => exact absurd h ih
    | some idx => simp

/-- What `rfindScope` finds is an occurrence of `::` with no occurrence
starting after it. -/
theorem rfindScope_some (str : List Char) (idx : Nat) (h : rfindScope str = some idx) :
    ∃ pre post, str = pre ++ ':' :: ':' :: post ∧ pre.length = idx
      ∧ rfindScope (':' :: post) = none := by
  induction str generalizing idx with
  | nil => simp [rfindScope] at h
  | cons c rest ih =>
    simp only [rfindScope] at h
    cases hrest : rfindScope rest with
    | some i =>
      rw [hrest] at h
      simp only [Option.some.injEq] at h
      obtain ⟨pre, post, hsplit, hlen, hlast⟩ := ih i hrest
      exact ⟨c :: pre, post, by rw [hsplit]; rfl, by simp [hlen, h], hlast⟩
    | none =>
      rw [hrest] at h
      by_cases hc : c = ':' ∧ rest.head? = some ':'
      · rw [if_pos hc] at h
        simp only [Option.some.injEq] at h
        cases rest with
        | nil => simp at hc
        | cons d post =>
          simp only [List.head?_cons, Option.some.injEq] at hc
          obtain ⟨hc1, hc2⟩ := hc
          subst hc1 hc2
          exact ⟨[], post, rfl, by simp [h], hrest⟩
      · rw [if_neg hc] at h
        cases h

/-- The last occurrence of `::` is what `rfindScope` finds. -/
theorem rfindScope_last (pre post : List Char) (hlast : rfindScope (':' :: post) = none) :
    rfindScope (pre ++ ':' :: ':' :: post) = some pre.length := by
  induction pre with
  | nil =>
    rw [List.nil_append, rfindScope_cons, hlast]
    simp
  | cons c rest ih =>
    rw [List.cons_append, rfindScope_cons, ih]
    simp

/-- `rfindScope` finds nothing exactly in the strings in which `::` does not
occur. -/
theorem rfindScope_none_iff (str : List Char) :
    rfindScope str = none ↔ ∀ pre post, str ≠ pre ++ ':' :: ':' :: post := by
  constructor
  · intro h pre post hsplit
    rw [hsplit] at h
    exact rfindScope_of_occurrence pre post h
  · intro h
    cases hfind : rfindScope str with
    | none => rfl
    | some idx =>
      obtain ⟨pre, post, hsplit, _, _⟩ := rfindScope_some str idx hfind
      exact absurd hsplit (h pre post)

/-- `ScopedNameBase` on a string split at its last occurrence of `::`. -/
theorem ScopedNameBase_split (pre post : List Char)
    (hlast : rfindScope (':' :: post) = none) :
    ScopedNameBase (pre ++ ':' :: ':' :: post)
      = if post = [] then pre ++ ':' :: ':' :: post else post := by
  unfold ScopedNameBase
  rw [rfindScope_last pre post hlast]
  simp only [List.length_append, List.length_cons]
  cases post with
  | nil => simp
  | cons d rest =>
    have hlen : ¬ (pre.length + 2 ≥ pre.length + ((d :: rest).length + 1 + 1)) := by
      simp only [List.length_cons]; omega
    rw [if_neg hlen, if_neg (List.cons_ne_nil _ _)]
    have hsplit : pre ++ ':' :: ':' :: d :: rest = (pre ++ [':', ':']) ++ d :: rest := by
      simp
    rw [hsplit]
    exact List.drop_left' (by simp)

/-- C27: `ScopedNameBase` returns the string unchanged when `::` does not
occur in it or when its last occurrence ends the string; otherwise it returns
exactly what follows the last occurrence of `::`; in every case the result is a
suffix of the string. -/
theorem ScopedNameBase_returns_part_after_last_scope (str : List Char) :
    ((∀ pre post, str ≠ pre ++ ':' :: ':' :: post) → ScopedNameBase str = str)
    ∧ (∀ pre post, str = pre ++ ':' :: ':' :: post →
        (∀ a b, ':' :: post ≠ a ++ ':' :: ':' :: b) →
        (post = [] → ScopedNameBase str = str)
        ∧ (post ≠ [] → ScopedNameBase str = post))
    ∧ ScopedNameBase str <:+ str := by
  refine ⟨?_, ?_, ?_⟩
  · intro hnone
    unfold ScopedNameBase
    rw [(rfindScope_none_iff str).mpr hnone]
  · intro pre post hsplit hlast
    have h := ScopedNameBase_split pre post ((rfindScope_none_iff _).mpr hlast)
    rw [← hsplit] at h
    constructor
    · intro hpost
      rw [h, if_pos hpost]
    · intro hpost
      rw [h, if_neg hpost]
  · unfold ScopedNameBase
    cases rfindScope str with
    | none => exact List.suffix_refl _
    | some idx =>
      simp only
      split
      · exact List.suffix_refl _
      · exact List.drop_suffix _ _

/-- C27 on `robot::arm::link`, `robot` and `robot::`: the results are `link`,
`robot` and `robot::`. -/
theorem ScopedNameBase_returns_part_after_last_scope_witness :
    ScopedNameBase "robot::arm::link".toList = "link".toList
    ∧ ScopedNameBase "robot".toList = "robot".toList
    ∧ ScopedNameBase "robot::".toList = "robot::".toList := by
  refine ⟨?_, ?_, ?_⟩
  · exact ((ScopedNameBase_returns_part_after_last_scope "robot::arm::link".toList).2.1
      "robot::arm".toList "link".toList (by decide)
      ((rfindScope_none_iff _).mp (by decide))).2 (by decide)
  · exact (ScopedNameBase_returns_part_after_last_scope "robot".toList).1
      ((rfindScope_none_iff _).mp (by decide))
  · exact ((ScopedNameBase_returns_part_after_last_scope "robot::".toList).2.1
      "robot".toList [] (by decide) ((rfindScope_none_iff _).mp (by decide))).1 rfl

/-- C28: `ScopedNameBase` applied to its own result returns that result; and
when the result is not the string itself, `::` does not occur in it. -/
theorem ScopedNameBase_idempotent (str : List Char) :
    ScopedNameBase (ScopedNameBase str) = ScopedNameBase str
    ∧ (ScopedNameBase str ≠ str →
        ∀ a b, ScopedNameBase str ≠ a ++ ':' :: ':' :: b) := by
  cases hfind : rfindScope str with
  | none =>
    have h : ScopedNameBase str = str := by
      unfold ScopedNameBase
      rw [hfind]
    rw [h]
    exact ⟨h, fun hne => absurd rfl hne⟩
  | some idx =>
    obtain ⟨pre, post, hsplit, _, hlast⟩ := rfindScope_some str idx hfind
    have h := ScopedNameBase_split pre post hlast
    rw [← hsplit] at h
    by_cases hpost : post = []
    · rw [if_pos hpost] at h
      rw [h]
      exact ⟨h, fun hne => absurd rfl hne⟩
    · rw [if_neg hpost] at h
      have hnone : rfindScope post = none := by
        cases hp : rfindScope post with
        | none => rfl
        | some i =>
          simp only [rfindScope, hp] at hlast
          cases hlast
      rw [h]
      constructor
      · unfold ScopedNameBase
        rw [hnone]
      · intro _
        exact (rfindScope_none_iff post).mp hnone

/-- The loop of `OnRosJointStateMsg` returns, with the stored array at its
length, when the message and the stored array reach as far as the loop
goes. -/
theorem OnRosJointStateMsgLoop_in_bounds (joints_ : List Joint) (msg_effort : List ℚ)
    (remaining i : Nat) (effort : List ℚ) (hmsg : i + remaining ≤ msg_effort.length)
    (hstored : i + remaining ≤ effort.length) :
    ∃ effort', OnRosJointStateMsgLoop joints_ msg_effort remaining i effort
        = EffortCopy.returned ⟨joints_, effort'⟩
      ∧ effort'.length = effort.length := by
  induction remaining generalizing i effort with
  | zero => exact ⟨effort, rfl, rfl⟩
  | succ remaining ih =>
    have hi : i < msg_effort.length := by omega
    have hget : msg_effort.get? i = some (msg_effort.get ⟨i, hi⟩) := List.get?_eq_get hi
    have hlt : i < effort.length := by omega
    simp only [OnRosJointStateMsgLoop, hget, if_pos hlt]
    obtain ⟨effort', hres, hlen⟩ := ih (i + 1) (effort.set i (msg_effort.get ⟨i, hi⟩))
      (by omega) (by simp only [List.length_set]; omega)
    exact ⟨effort', hres, by rw [hlen, List.length_set]⟩

/-- After `Load`, a message with at least as many efforts as there are tracked
joints is copied, and the stored array keeps one entry per joint. -/
theorem OnRosJointStateMsg_in_bounds (found : List (Option Joint))
    (self : GazeboRosJointEffortPrivate) (msg_effort : List ℚ)
    (hload : JointEffortLoad found = some self)
    (hmsg : self.joints_.length ≤ msg_effort.length) :
    self.effort.length = self.joints_.length
    ∧ ∃ effort', OnRosJointStateMsg self msg_effort
          = EffortCopy.returned ⟨self.joints_, effort'⟩
        ∧ effort'.length = self.joints_.length := by
  have hlen : self.effort.length = self.joints_.length := by
    unfold JointEffortLoad at hload
    simp only at hload
    split at hload
    · cases hload
    · simp only [Option.some.injEq] at hload
      rw [← hload]
      simp
  refine ⟨hlen, ?_⟩
  obtain ⟨effort', hres, hlen'⟩ := OnRosJointStateMsgLoop_in_bounds self.joints_ msg_effort
    self.joints_.length 0 self.effort (by omega) (by omega)
  exact ⟨effort', hres, by rw [hlen', hlen]⟩

/-- C30, the code at the failing input: the plugin tracks one joint (`Load`
leaves one stored effort) and a message arrives with an empty `effort` array;
`OnRosJointStateMsg` reads `msg->effort[0]`, an index that is not below
`msg->effort.size()`. -/
theorem OnRosJointStateMsg_short_message_reads_past_end :
    JointEffortLoad [some exampleJointJ] = some ⟨[exampleJointJ], [0]⟩
    ∧ OnRosJointStateMsg ⟨[exampleJointJ], [0]⟩ [] = EffortCopy.readOutOfBounds 0
    ∧ ¬ (0 < ([] : List ℚ).length) := by
  refine ⟨?_, ?_, ?_⟩
  · simp [JointEffortLoad]
  · simp [OnRosJointStateMsg, OnRosJointStateMsgLoop]
  · simp

/-- C28 on `robot::arm::link`: the result `link` is returned again by a second
call, and `::` does not occur in it. -/
theorem ScopedNameBase_idempotent_witness :
    ScopedNameBase "robot::arm::link".toList = "link".toList
    ∧ ScopedNameBase (ScopedNameBase "robot::arm::link".toList)
      = ScopedNameBase "robot::arm::link".toList
    ∧ ∀ a b, ScopedNameBase "robot::arm::link".toList ≠ a ++ ':' :: ':' :: b :=
  ⟨by decide, (ScopedNameBase_idempotent "robot::arm::link".toList).1,
    (ScopedNameBase_idempotent "robot::arm::link".toList).2 (by decide)⟩

end GazeboRos
